import Mathlib

/-!
# Verification of the `halfedge` half-edge-mesh library

Shallow embedding of the library's data model and operations, translated from
the Python sources:

* `src/src/halfedge/type_attrib.py` (attribute merge protocol),
* `src/halfedge/half_edge_elements.py` and `src/src/halfedge/half_edge_elements.py`
  (elements, mirrored setters, `_function_lap`, navigation properties),
* `src/src/halfedge/half_edge_constructors.py` (`_create_face_edges`,
  `find_pairs`, `_infer_holes`, `from_vlvi`),
* `src/src/halfedge/validations.py` (`validate_mesh`),
* `src/halfedge/half_edge_object.py` (the `HalfEdges` mutators).

Mesh elements are reference-identity Python objects; the embedding uses an
arena of integer serial numbers (`sn`): three association lists for the three
element kinds, a list holding the `HalfEdges.edges` set (in insertion order),
and a monotone serial counter.  Unset pointer attributes are `none`; reading
one raises `AttributeError`, which the embedding models with `Except`.
Python exceptions leave mutations in place, so stateful operations return
`MRes`, which carries the state both on success and on error.  Loops whose
termination is not structural use explicit fuel; `PyErr.fuelOut` marks fuel
exhaustion and is proved unreachable where the Python loop terminates.
The `Hole` variant of `Face` is represented by the `isHole` flag (the sources
flag holes with `__is_hole=True` / an `IsHole` contagion attribute).
Python `set` iteration order is not specified; the embedding iterates in
creation (list) order, and results quoted for concrete inputs are robust to
that choice (noted where relevant).  Python `dict` preserves insertion order,
which the embedding reproduces exactly.
-/

deriving instance DecidableEq for Except

namespace HalfEdgeVerif

/-- Python exception taxonomy as raised by the library:
`ManifoldMeshError` (a `ValueError` subclass), plain `ValueError`,
`AttributeError`, `TypeError`, `ZeroDivisionError`, `KeyError`,
`UnboundLocalError`, `IndexError`, `UnrecoverableManifoldMeshError`.
`fuelOut` marks exhausted fuel (a diverging Python loop), `badRef` a
dangling serial number (unrepresentable in Python, where references always
point to live objects). -/
inductive PyErr where
  | manifold (msg : String)
  | valueError (msg : String)
  | attrError
  | typeError
  | zeroDiv
  | keyError
  | unboundLocal
  | indexError
  | unrecoverable (msg : String)
  | fuelOut
  | badRef
deriving Repr, DecidableEq

/-! ## Attribute protocol: `NumericAttrib` (src/src/halfedge/type_attrib.py) -/

/-- `NumericAttrib`: `_value` is the stored payload (`none` when never set).
`Attrib.value` returns `_value` if set; otherwise it calls `_infer_value`,
which for `NumericAttrib` returns `None`, making `value` raise
`TypeError("no value set and failed to infer ...")`. -/
structure NumericAttrib where
  valueOpt : Option ℚ
deriving Repr, DecidableEq

/-- The `Attrib.value` property for a `NumericAttrib`. -/
def NumericAttrib.value (a : NumericAttrib) : Except PyErr ℚ :=
  match a.valueOpt with
  | some v => .ok v
  | none => .error .typeError

/-- The list comprehension `[x.value for x in merge_from]` inside
`NumericAttrib.merge`: evaluated left to right; `None.value` raises
`AttributeError`, a present-but-valueless attrib raises `TypeError`. -/
def numericCollectValues : List (Option NumericAttrib) → Except PyErr (List ℚ)
  | [] => .ok []
  | none :: _ => .error .attrError
  | some a :: rest =>
    match a.value with
    | .error e => .error e
    | .ok v =>
      match numericCollectValues rest with
      | .error e => .error e
      | .ok vs => .ok (v :: vs)

/-- `NumericAttrib.merge(*merge_from)`:
```
with suppress(AttributeError):
    values = [x.value for x in merge_from]
    return cls(sum(values) / len(values))
return None
```
An `AttributeError` is suppressed and the function returns `None`; a
`TypeError` propagates; an empty `values` list raises `ZeroDivisionError`. -/
def numericMerge (mergeFrom : List (Option NumericAttrib)) :
    Except PyErr (Option NumericAttrib) :=
  match numericCollectValues mergeFrom with
  | .error .attrError => .ok none
  | .error e => .error e
  | .ok [] => .error .zeroDiv
  | .ok vs => .ok (some ⟨some (vs.sum / (vs.length : ℚ))⟩)

/-- Modelled from the spec (for comparison with `numericMerge`): "merge
returns the arithmetic mean of all sources that have a value; sources
missing the attribute are excluded, not treated as zero; if none has a
value, the result is absent." -/
def numericMergeClaimed (mergeFrom : List (Option NumericAttrib)) :
    Option NumericAttrib :=
  let vs := mergeFrom.filterMap (fun s => s.bind (·.valueOpt))
  if vs.isEmpty then none else some ⟨some (vs.sum / (vs.length : ℚ))⟩

/-! ## `_function_lap` (half_edge_elements.py) -/

/-- One round of `_function_lap`'s `while True` loop, with explicit fuel.
`seen` holds the values appended after `first_arg` (the Python `lap[1:-1]`
at check time); the returned lap is `first :: seen` (the Python
`lap[:-1]`). -/
def lapAux {α : Type} [DecidableEq α] (f : α → Except PyErr α) (first : α) :
    Nat → List α → α → Except PyErr (List α)
  | 0, _, _ => .error .fuelOut
  | fuel + 1, seen, last =>
    match f last with
    | .error e => .error e
    | .ok x =>
      if x = first then .ok (first :: seen)
      else if x ∈ seen then .error (.manifold "infinite function lap")
      else lapAux f first fuel (seen ++ [x]) x

/-- `_function_lap(func, first_arg)`: repeatedly apply `func` until
`first_arg` reappears, collecting results; raise `ManifoldMeshError` if any
other value repeats first. -/
def functionLap {α : Type} [DecidableEq α] (f : α → Except PyErr α)
    (fuel : Nat) (first : α) : Except PyErr (List α) :=
  lapAux f first fuel [] first

/-! ## Element arena and mesh state -/

/-- `Edge`: pointer attributes `_orig`, `_pair`, `_face`, `_next`
(`none` = never set; reading raises `AttributeError`). -/
structure EdgeRec where
  orig : Option Nat
  pair : Option Nat
  face : Option Nat
  next : Option Nat
deriving Repr, DecidableEq

/-- `Vert`: pointer attribute `_edge`. -/
structure VertRec where
  edge : Option Nat
deriving Repr, DecidableEq

/-- `Face`: pointer attribute `_edge` plus the hole flag
(`Face(__is_hole=True)` / `IsHole` attribute). -/
structure FaceRec where
  edge : Option Nat
  isHole : Bool
deriving Repr, DecidableEq

/-- The whole object graph plus the `HalfEdges.edges` set.  Elements are
identified by their serial number `sn`; `nextSn` is the
`MeshElementBase._sn_generator` counter.  `edges` keeps insertion order. -/
structure Mesh where
  vertA : List (Nat × VertRec)
  edgeA : List (Nat × EdgeRec)
  faceA : List (Nat × FaceRec)
  edges : List Nat
  nextSn : Nat
deriving Repr, DecidableEq

/-- Replace the value stored under key `k` (no-op when `k` is absent). -/
def aupdate {β : Type} (l : List (Nat × β)) (k : Nat) (f : β → β) :
    List (Nat × β) :=
  l.map fun kv => if kv.1 = k then (kv.1, f kv.2) else kv

/-- Stateful result: Python exceptions do not roll back mutations, so both
outcomes carry the post-state. -/
inductive MRes (α : Type) where
  | ok (a : α) (s : Mesh)
  | err (e : PyErr) (s : Mesh)
deriving Repr, DecidableEq

namespace Mesh

/-- Look up an edge record. -/
def edge? (s : Mesh) (e : Nat) : Option EdgeRec := s.edgeA.lookup e

/-- Look up a vert record. -/
def vert? (s : Mesh) (v : Nat) : Option VertRec := s.vertA.lookup v

/-- Look up a face record. -/
def face? (s : Mesh) (f : Nat) : Option FaceRec := s.faceA.lookup f

end Mesh

/-! ### Readers (property getters; all side-effect-free in the source) -/

/-- Read `edge._orig`; unset raises `AttributeError`. -/
def edgeOrig (s : Mesh) (e : Nat) : Except PyErr Nat :=
  match s.edge? e with
  | none => .error .badRef
  | some r => match r.orig with
    | some v => .ok v
    | none => .error .attrError

/-- Read `edge._pair`. -/
def edgePair (s : Mesh) (e : Nat) : Except PyErr Nat :=
  match s.edge? e with
  | none => .error .badRef
  | some r => match r.pair with
    | some p => .ok p
    | none => .error .attrError

/-- Read `edge._face`. -/
def edgeFace (s : Mesh) (e : Nat) : Except PyErr Nat :=
  match s.edge? e with
  | none => .error .badRef
  | some r => match r.face with
    | some f => .ok f
    | none => .error .attrError

/-- Read `edge._next`. -/
def edgeNext (s : Mesh) (e : Nat) : Except PyErr Nat :=
  match s.edge? e with
  | none => .error .badRef
  | some r => match r.next with
    | some n => .ok n
    | none => .error .attrError

/-- Read `vert._edge` (the `Vert.edge` property). -/
def vertEdgePtr (s : Mesh) (v : Nat) : Except PyErr Nat :=
  match s.vert? v with
  | none => .error .badRef
  | some r => match r.edge with
    | some e => .ok e
    | none => .error .attrError

/-- Read `face._edge` (the `Face.edge` property). -/
def faceEdgePtr (s : Mesh) (f : Nat) : Except PyErr Nat :=
  match s.face? f with
  | none => .error .badRef
  | some r => match r.edge with
    | some e => .ok e
    | none => .error .attrError

/-- Read `face.is_hole`. -/
def faceIsHole (s : Mesh) (f : Nat) : Except PyErr Bool :=
  match s.face? f with
  | none => .error .badRef
  | some r => .ok r.isHole

/-- `Edge.dest`: `try: return self.next.orig  except AttributeError: return
self.pair.orig` (only `AttributeError` is caught). -/
def edgeDest (s : Mesh) (e : Nat) : Except PyErr Nat :=
  match (do edgeOrig s (← edgeNext s e) : Except PyErr Nat) with
  | .ok v => .ok v
  | .error .attrError =>
    (do edgeOrig s (← edgePair s e) : Except PyErr Nat)
  | .error err => .error err

/-! ### Writers (the mirrored setters) -/

/-- `Vert.edge` setter / `Edge.orig` setter: both write `vert._edge` and
`edge._orig` (old generation: `self._edge = edge_; edge_._orig = self` and
`self._orig = orig; orig._edge = self`; the new generation nets to the same
two field writes). -/
def setEdgeOrig (s : Mesh) (e v : Nat) : Mesh :=
  { s with
    edgeA := aupdate s.edgeA e (fun r => { r with orig := some v })
    vertA := aupdate s.vertA v (fun _ => ⟨some e⟩) }

/-- `Edge.pair` setter: `self._pair = pair; pair._pair = self`
(sequential, so a self-pair is handled exactly as in Python). -/
def setEdgePair (s : Mesh) (e p : Nat) : Mesh :=
  { s with
    edgeA :=
      aupdate (aupdate s.edgeA e (fun r => { r with pair := some p })) p
        (fun r => { r with pair := some e }) }

/-- `Edge.face` setter / `Face.edge` setter: both write `edge._face` and
`face._edge`. -/
def setEdgeFace (s : Mesh) (e f : Nat) : Mesh :=
  { s with
    edgeA := aupdate s.edgeA e (fun r => { r with face := some f })
    faceA := aupdate s.faceA f (fun r => { r with edge := some e }) }

/-- `Edge.next` setter: plain, not mirrored. -/
def setEdgeNext (s : Mesh) (e n : Nat) : Mesh :=
  { s with edgeA := aupdate s.edgeA e (fun r => { r with next := some n }) }

/-! ### Allocation

`MeshElementBase.__init__(*attributes, ...)` first takes a serial number,
then calls `set_attrib` on every positional argument.  In the mutator
drafts the positional arguments are mesh elements (`Face`, `Vert`), not
`ElemAttribBase` instances; `set_attrib` then executes
`attrib.element = self`, which `MeshElementBase.__setattr__` rejects
(`'Face' has no attribute 'element'`), raising `AttributeError`.  The
allocators below model this: non-empty positional attributes fail after the
serial number is consumed. -/

/-- Allocate a bare `Edge()` (no kwargs). -/
def allocEdge (s : Mesh) : Nat × Mesh :=
  (s.nextSn,
    { s with
      edgeA := (s.nextSn, ⟨none, none, none, none⟩) :: s.edgeA
      nextSn := s.nextSn + 1 })

/-- Allocate `Vert(*attributes)`. -/
def allocVert (s : Mesh) (attribs : List Nat) : MRes Nat :=
  let s' : Mesh :=
    { s with
      vertA := (s.nextSn, ⟨none⟩) :: s.vertA
      nextSn := s.nextSn + 1 }
  if attribs.isEmpty then .ok s.nextSn s' else .err .attrError s'

/-- Allocate `Face(*attributes)` or a hole (`hole_type()` /
`Face(__is_hole=True)`). -/
def allocFace (s : Mesh) (attribs : List Nat) (isHole : Bool) : MRes Nat :=
  let s' : Mesh :=
    { s with
      faceA := (s.nextSn, ⟨none, isHole⟩) :: s.faceA
      nextSn := s.nextSn + 1 }
  if attribs.isEmpty then .ok s.nextSn s' else .err .attrError s'

/-! ### Navigation laps -/

/-- Fuel that bounds every lap: all serial numbers are below `nextSn`, so a
repeat must occur within `nextSn + 2` iterations. -/
def meshFuel (s : Mesh) : Nat := s.nextSn + 2

/-- `Edge.face_edges`: `_function_lap(lambda x: x.next, self)`. -/
def faceEdgesFrom (s : Mesh) (e : Nat) : Except PyErr (List Nat) :=
  functionLap (edgeNext s) (meshFuel s) e

/-- `Edge.vert_edges`: `_function_lap(lambda x: x.pair.next, self)`. -/
def vertEdgesFrom (s : Mesh) (e : Nat) : Except PyErr (List Nat) :=
  functionLap (fun x => do edgeNext s (← edgePair s x)) (meshFuel s) e

/-- `Edge.prev` getter: `try: return self.face_edges[-1] except
(AttributeError, ManifoldMeshError): return self.vert_edges[-1].pair`. -/
def edgePrev (s : Mesh) (e : Nat) : Except PyErr Nat :=
  match faceEdgesFrom s e with
  | .ok l =>
    match l.getLast? with
    | some x => .ok x
    | none => .error .badRef
  | .error .attrError =>
    (do
      let l ← vertEdgesFrom s e
      match l.getLast? with
      | some x => edgePair s x
      | none => .error .badRef)
  | .error (.manifold m) =>
    let _ := m
    (do
      let l ← vertEdgesFrom s e
      match l.getLast? with
      | some x => edgePair s x
      | none => .error .badRef)
  | .error err => .error err

/-- `Vert.edges`: `self.edge.vert_edges` when `edge` is set, else `[]`. -/
def vertEdges (s : Mesh) (v : Nat) : Except PyErr (List Nat) :=
  match s.vert? v with
  | none => .error .badRef
  | some r =>
    match r.edge with
    | none => .ok []
    | some e => vertEdgesFrom s e

/-- `Vert.valence`: `len(self.edges)`. -/
def vertValence (s : Mesh) (v : Nat) : Except PyErr Nat := do
  .ok (← vertEdges s v).length

/-- `Vert.all_faces`: `self.edge.vert_all_faces` when `edge` is set, else
`[]` (`vert_all_faces` is `[x.face for x in self.vert_edges]`). -/
def vertAllFaces (s : Mesh) (v : Nat) : Except PyErr (List Nat) :=
  match s.vert? v with
  | none => .error .badRef
  | some r =>
    match r.edge with
    | none => .ok []
    | some e => do (← vertEdgesFrom s e).mapM (edgeFace s)

/-- `Vert.faces`: `[x for x in self.all_faces if not x.is_hole]`. -/
def vertFaces (s : Mesh) (v : Nat) : Except PyErr (List Nat) := do
  (← vertAllFaces s v).filterM (fun f => do .ok (!(← faceIsHole s f)))

/-- `Vert.holes`: `[x for x in self.all_faces if x.is_hole]`. -/
def vertHoles (s : Mesh) (v : Nat) : Except PyErr (List Nat) := do
  (← vertAllFaces s v).filterM (fun f => faceIsHole s f)

/-- `Vert.neighbors`: `self.edge.vert_neighbors` when `edge` is set, else
`[]` (`vert_neighbors` is `[edge.dest for edge in self.vert_edges]`). -/
def vertNeighbors (s : Mesh) (v : Nat) : Except PyErr (List Nat) :=
  match s.vert? v with
  | none => .error .badRef
  | some r =>
    match r.edge with
    | none => .ok []
    | some e => do (← vertEdgesFrom s e).mapM (edgeDest s)

/-- `Face.edges`: `self.edge.face_edges` when `edge` is set, else `[]`. -/
def faceEdges (s : Mesh) (f : Nat) : Except PyErr (List Nat) :=
  match s.face? f with
  | none => .error .badRef
  | some r =>
    match r.edge with
    | none => .ok []
    | some e => faceEdgesFrom s e

/-- `Face.verts`: `[x.orig for x in self.edges]` when `edge` is set, else
`[]`. -/
def faceVerts (s : Mesh) (f : Nat) : Except PyErr (List Nat) :=
  match s.face? f with
  | none => .error .badRef
  | some r =>
    match r.edge with
    | none => .ok []
    | some e => do (← faceEdgesFrom s e).mapM (edgeOrig s)

/-- `Face.sides`: `len(self.verts)`. -/
def faceSides (s : Mesh) (f : Nat) : Except PyErr Nat := do
  .ok (← faceVerts s f).length

/-! ### Derived element sets (`StaticHalfEdges` lookups) -/

/-- `HalfEdges.verts`: `{x.orig for x in self.edges}` (set, modelled as a
deduplicated list in first-occurrence order). -/
def meshVerts (s : Mesh) : Except PyErr (List Nat) := do
  .ok (← s.edges.mapM (edgeOrig s)).dedup

/-- `HalfEdges.all_faces`: `{x.face for x in self.edges}`. -/
def meshAllFaces (s : Mesh) : Except PyErr (List Nat) := do
  .ok (← s.edges.mapM (edgeFace s)).dedup

/-- `HalfEdges.faces`: faces of mesh edges that are not holes. -/
def meshFaces (s : Mesh) : Except PyErr (List Nat) := do
  (← meshAllFaces s).filterM (fun f => do .ok (!(← faceIsHole s f)))

/-- `HalfEdges.holes`: faces of mesh edges that are holes. -/
def meshHoles (s : Mesh) : Except PyErr (List Nat) := do
  (← meshAllFaces s).filterM (fun f => faceIsHole s f)

/-! ## Validator (src/src/halfedge/validations.py) -/

/-- `_confirm_edge_have_two_distinct_points`: loop over `mesh.edges`. -/
def confirmDistinctPoints (s : Mesh) : List Nat → Except PyErr Unit
  | [] => .ok ()
  | e :: rest => do
    let o ← edgeOrig s e
    let d ← edgeDest s e
    if o = d then .error (.manifold "loop edge (orig == dest)")
    else confirmDistinctPoints s rest

/-- `_confirm_edge_dest_lookups_match`: `edge.next.orig is edge.pair.orig`
for every mesh edge. -/
def confirmDestMatch (s : Mesh) : List Nat → Except PyErr Unit
  | [] => .ok ()
  | e :: rest => do
    let nOrig ← edgeOrig s (← edgeNext s e)
    let pOrig ← edgeOrig s (← edgePair s e)
    if nOrig ≠ pOrig then
      .error (.manifold "next and pair do not share orig point")
    else confirmDestMatch s rest

/-- `_faces_neighboring_face`: `(edge.pair.face for edge in face.edges)`. -/
def facesNeighboringFace (s : Mesh) (f : Nat) : Except PyErr (List Nat) := do
  (← faceEdges s f).mapM (fun e => do edgeFace s (← edgePair s e))

/-- List-as-set union keeping first-occurrence order (Python `set.update`). -/
def lunion (a b : List Nat) : List Nat := a ++ (b.filter (fun x => x ∉ a)).dedup

/-- The `while new:` loop of `_does_reach_all`: `found.update(new);
new.update(chain(*(f_next(x) for x in new))); new -= found`. -/
def reachLoop (fNext : Nat → Except PyErr (List Nat)) :
    Nat → List Nat → List Nat → Except PyErr (List Nat)
  | 0, _, _ => .error .fuelOut
  | fuel + 1, found, new =>
    if new.isEmpty then .ok found
    else do
      let found' := lunion found new
      let nbrs ← new.mapM fNext
      let new' := lunion new nbrs.flatten
      let new'' := new'.filter (fun x => x ∉ found')
      reachLoop fNext fuel found' new''

/-- The `for itm in set_:` loop of `_does_reach_all`: each pass overwrites
`found` with the closure of one item. -/
def reachAllGo (fNext : Nat → Except PyErr (List Nat)) (fuel : Nat) :
    List Nat → List Nat → Except PyErr (List Nat)
  | [], found => .ok found
  | itm :: rest, _ => do
    let f ← reachLoop fNext fuel [itm] [itm]
    reachAllGo fNext fuel rest f

/-- `_does_reach_all(population, f_next)`: runs one breadth-first closure per
item (each pass overwriting `found`), then compares the last closure with the
population (`not bool(found ^ set_)`). -/
def doesReachAll (s : Mesh) (population : List Nat)
    (fNext : Nat → Except PyErr (List Nat)) : Except PyErr Bool := do
  let found ← reachAllGo fNext (meshFuel s) population []
  .ok (found.toFinset = population.toFinset : Bool)

/-- `_confirm_edges_do_not_overlap`: no two mesh edges share `(orig, dest)`. -/
def confirmNoOverlap (s : Mesh) : Except PyErr Unit := do
  let tuples ← s.edges.mapM (fun e => do .ok ((← edgeOrig s e), (← edgeDest s e)))
  if tuples.dedup.length < s.edges.length then
    .error (.manifold "overlapping edges")
  else .ok ()

/-- `_confirm_function_laps_do_not_fail`: every vert's `edges` all originate
at it; every face's `edges` all point back to it. -/
def confirmLaps (s : Mesh) : Except PyErr Unit := do
  let verts ← meshVerts s
  let _ ← verts.mapM (fun v => do
    let es ← vertEdges s v
    let oks ← es.mapM (fun e => do .ok ((← edgeOrig s e) = v : Bool))
    if oks.all id then .ok ()
    else .error (.manifold "vert.edges do not all point to vert"))
  let fcs ← meshFaces s
  let hls ← meshHoles s
  let _ ← (fcs ++ hls).mapM (fun f => do
    let es ← faceEdges s f
    let oks ← es.mapM (fun e => do .ok ((← edgeFace s e) = f : Bool))
    if oks.all id then .ok ()
    else .error (.manifold "face.edges do not all point to face"))
  .ok ()

/-- `validate_mesh(mesh)` (src/src/halfedge/validations.py): no-op on an
empty mesh, else the five checks in source order. -/
def validateMesh (s : Mesh) : Except PyErr Unit :=
  if s.edges.isEmpty then .ok ()
  else do
    confirmDistinctPoints s s.edges
    confirmDestMatch s s.edges
    let fcs ← meshFaces s
    let hls ← meshHoles s
    let reached ← doesReachAll s (fcs ++ hls) (facesNeighboringFace s)
    if !reached then
      .error (.manifold "not all faces can be reached by jumping over edges")
    else do
      confirmNoOverlap s
      confirmLaps s

/-! ## Construction (src/src/halfedge/half_edge_constructors.py) -/

/-- Does `hasattr(x, "pair")` hold (the property raises when `_pair` is
unset)? -/
def edgeHasPair (s : Mesh) (e : Nat) : Except PyErr Bool :=
  match s.edge? e with
  | none => .error .badRef
  | some r => .ok r.pair.isSome

/-- Python-dict insertion: overwrite in place when the key exists, else
append (dicts preserve first-insertion position on overwrite). -/
def dinsert {κ : Type} [DecidableEq κ] {β : Type}
    (l : List (κ × β)) (k : κ) (v : β) : List (κ × β) :=
  if l.any (fun kv => kv.1 = k) then
    l.map (fun kv => if kv.1 = k then (k, v) else kv)
  else l ++ [(k, v)]

/-- `_create_face_edges`, allocation phase:
`[self.new_edge(orig=vert, face=face) for vert in face_verts]`
(each constructor mirrors `orig` then `face`). -/
def ringAlloc (f : Nat) : List Nat → Mesh → List Nat × Mesh
  | [], s => ([], s)
  | v :: rest, s =>
    let (e, s) := allocEdge s
    let s := setEdgeOrig s e v
    let s := setEdgeFace s e f
    let (es, s) := ringAlloc f rest s
    (e :: es, s)

/-- `_create_face_edges`, wiring phase:
`for idx, edge in enumerate(new_edges): new_edges[idx - 1].next = edge`. -/
def wireRing (s : Mesh) (es : List Nat) : Mesh :=
  match es with
  | [] => s
  | e0 :: _ =>
    let s := setEdgeNext s (es.getLastD e0) e0
    (es.zip (es.drop 1)).foldl (fun st ab => setEdgeNext st ab.1 ab.2) s

/-- `_create_face_edges(face_verts, face)`. -/
def createFaceEdges (s : Mesh) (fverts : List Nat) (f : Nat) :
    List Nat × Mesh :=
  let (es, s) := ringAlloc f fverts s
  (es, wireRing s es)

/-- The dict comprehension
`endpoints2edge = {(edge.orig, edge.dest): edge for edge in self.edges}`. -/
def buildEndpointDict (s : Mesh) :
    List Nat → List ((Nat × Nat) × Nat) → Except PyErr (List ((Nat × Nat) × Nat))
  | [], d => .ok d
  | e :: rest, d => do
    let o ← edgeOrig s e
    let dst ← edgeDest s e
    buildEndpointDict s rest (dinsert d (o, dst) e)

/-- The `for edge in self.edges:` loop of `find_pairs` (`KeyError` means
`continue`). -/
def findPairsLoop (d : List ((Nat × Nat) × Nat)) :
    List Nat → Mesh → MRes Unit
  | [], s => .ok () s
  | e :: rest, s =>
    match (do .ok ((← edgeDest s e), (← edgeOrig s e)) :
        Except PyErr (Nat × Nat)) with
    | .error err => .err err s
    | .ok key =>
      match d.lookup key with
      | none => findPairsLoop d rest s
      | some p => findPairsLoop d rest (setEdgePair s e p)

/-- `find_pairs()`: match edge pairs where possible. -/
def findPairs (s : Mesh) : MRes Unit :=
  match buildEndpointDict s s.edges [] with
  | .error e => .err e s
  | .ok d => findPairsLoop d s.edges s

/-- `_infer_holes`, synthesis phase: one reverse edge
`self.new_edge(orig=x.dest, pair=x)` per still-unpaired mesh edge
(constructor mirrors `orig` then `pair`). -/
def synthHoleEdges : List Nat → List Nat → Mesh → MRes (List Nat)
  | [], acc, s => .ok acc s
  | x :: rest, acc, s =>
    match edgeHasPair s x with
    | .error e => .err e s
    | .ok true => synthHoleEdges rest acc s
    | .ok false =>
      match edgeDest s x with
      | .error e => .err e s
      | .ok dst =>
        let (d, s) := allocEdge s
        let s := setEdgeOrig s d dst
        let s := setEdgePair s d x
        synthHoleEdges rest (acc ++ [d]) s

/-- `orig2hole_edge = {x.orig: x for x in hole_edges}`. -/
def buildOrigDict (s : Mesh) :
    List Nat → List (Nat × Nat) → Except PyErr (List (Nat × Nat))
  | [], d => .ok d
  | e :: rest, d => do
    let o ← edgeOrig s e
    buildOrigDict s rest (dinsert d o e)

/-- The inner `while edge.dest in orig2hole_edge:` walk of `_infer_holes`:
pop the successor, link `next`, copy the hole face, advance. -/
def chainInner : Nat → Nat → List (Nat × Nat) → Mesh → MRes (List (Nat × Nat))
  | 0, _, _, s => .err .fuelOut s
  | fuel + 1, cur, dict, s =>
    match edgeDest s cur with
    | .error e => .err e s
    | .ok dst =>
      match dict.lookup dst with
      | none => .ok dict s
      | some nxt =>
        let dict' := dict.filter (fun kv => kv.1 ≠ dst)
        let s := setEdgeNext s cur nxt
        match edgeFace s cur with
        | .error e => .err e s
        | .ok f => chainInner fuel nxt dict' (setEdgeFace s nxt f)

/-- The outer `while orig2hole_edge:` loop of `_infer_holes`: take the first
dict item (without popping it), give it a fresh `Hole`, chain. -/
def chainOuter : Nat → List (Nat × Nat) → Mesh → MRes Unit
  | 0, _, s => .err .fuelOut s
  | fuel + 1, dict, s =>
    match dict with
    | [] => .ok () s
    | (_, d0) :: _ =>
      match allocFace s [] true with
      | .err e s' => .err e s'
      | .ok h s =>
        match chainInner (dict.length + 1) d0 dict (setEdgeFace s d0 h) with
        | .err e s' => .err e s'
        | .ok dict' s' => chainOuter fuel dict' s'

/-- `_infer_holes()`: synthesize reverse edges for unpaired edges, fail on a
shared origin, else chain them into `Hole` faces and add them to the edge
set. -/
def inferHoles (s : Mesh) : MRes Unit :=
  match synthHoleEdges s.edges [] s with
  | .err e s' => .err e s'
  | .ok holeEdges s =>
    match buildOrigDict s holeEdges [] with
    | .error e => .err e s
    | .ok dict =>
      if dict.length < holeEdges.length then
        .err (.manifold "Ambiguous next in inferred pair edge") s
      else
        match chainOuter (holeEdges.length + 1) dict s with
        | .err e s' => .err e s'
        | .ok _ s' => .ok () { s' with edges := s'.edges ++ holeEdges }

/-- The per-face body of `from_vlvi`'s construction loops:
`mesh.edges.update(mesh._create_face_edges(face_verts, mesh.new_face()))`. -/
def ringsPhase (isHole : Bool) : List (List Nat) → Mesh → MRes Unit
  | [], s => .ok () s
  | fv :: rest, s =>
    match allocFace s [] isHole with
    | .err e s' => .err e s'
    | .ok f s =>
      let (es, s) := createFaceEdges s fv f
      ringsPhase isHole rest { s with edges := s.edges ++ es }

/-- `BlindHalfEdges.from_vlvi(vl, fi, hi)`: `nVerts` fresh verts (serial
numbers `0 .. nVerts-1`, standing for the caller-built `vl`), one edge ring
per face and per explicit hole, then `find_pairs` and `_infer_holes`.
`vl[x]` with an out-of-range index raises `IndexError` before the mesh is
touched. -/
def fromVlvi (nVerts : Nat) (fi hi : List (List Nat)) : MRes Unit :=
  let s0 : Mesh :=
    ⟨(List.range nVerts).map (fun i => (i, ⟨none⟩)), [], [], [], nVerts⟩
  if (fi ++ hi).any (fun fv => fv.any (fun x => nVerts ≤ x)) then
    .err .indexError s0
  else
    match ringsPhase false fi s0 with
    | .err e s' => .err e s'
    | .ok _ s =>
      match ringsPhase true hi s with
      | .err e s' => .err e s'
      | .ok _ s =>
        match findPairs s with
        | .err e s' => .err e s'
        | .ok _ s =>
          match inferHoles s with
          | .err e s' => .err e s'
          | .ok _ s => .ok () s

/-! ## Mutators (src/halfedge/half_edge_object.py, class `HalfEdges`)

The mutator methods accept either a `Vert` or an `Edge` for some arguments. -/

/-- A `Union[Edge, Vert]` argument. -/
inductive ERef where
  | v (id : Nat)
  | e (id : Nat)
deriving Repr, DecidableEq

/-- `_get_edge_or_vert_faces(elem)`: `{elem.face}` for an edge,
`set(elem.faces)` for a vert. -/
def getElemFaces (s : Mesh) : ERef → Except PyErr (List Nat)
  | .e id => do .ok [← edgeFace s id]
  | .v id => do .ok (← vertFaces s id).dedup

/-- `_infer_face(orig, dest)`: a fresh `Hole` on an empty mesh, else the
single face shared by both arguments; `ValueError` otherwise.  (Allocating
the hole mutates the serial counter, hence `MRes`.) -/
def inferFace (s : Mesh) (o d : ERef) : MRes Nat :=
  if s.edges.isEmpty then allocFace s [] true
  else
    match (do
        let ofs ← getElemFaces s o
        let dfs ← getElemFaces s d
        .ok (ofs.filter (fun f => f ∈ dfs)) : Except PyErr (List Nat)) with
    | .error e => .err e s
    | .ok inter =>
      match inter with
      | [x] => .ok x s
      | _ => .err (.valueError "face cannot be determined from orig and dest") s

/-- `_infer_wing(elem, face, default)`: the insertion origin vert together
with the face edge ending at it (`default` for a vert that is not on the
face). -/
def inferWing (s : Mesh) (elem : ERef) (face dflt : Nat) :
    Except PyErr (Nat × Nat) :=
  match elem with
  | .e id => do .ok ((← edgeDest s id), id)
  | .v id => do
    let fv ← faceVerts s face
    if id ∉ fv then .ok (id, dflt)
    else do
      let fe ← faceEdges s face
      let cands ← fe.filterM (fun x => do .ok ((← edgeDest s x) = id : Bool))
      match cands.dedup with
      | [x] => .ok (id, x)
      | _ => .error (.valueError "edge cannot be inferred from orig and face")

/-- Lines 204-205 of `insert_edge`:
`edge = self.edge_type(next=self.edge_type())` then
`edge.pair = self.edge_type(pair=edge, next=edge, prev=edge)` (the kwargs
run the mirrored setters in keyword order).  Returns the new `edge`, its
`pair`, and the post-allocation state. -/
def insertEdgeSetup (s : Mesh) : Nat × Nat × Mesh :=
  let (dummy, s) := allocEdge s
  let (edge, s) := allocEdge s
  let s := setEdgeNext s edge dummy
  let (p, s) := allocEdge s
  let s := setEdgePair s p edge
  let s := setEdgeNext s p edge
  let s := setEdgeNext s edge p
  let s := setEdgePair s edge p
  (edge, p, s)

/-- Lines 211-213 of `insert_edge`:
`if orig.edge is not None and dest in orig.neighbors:` (an unset
`orig.edge` short-circuits the conjunction to `False`). -/
def hasExistingEdge (s : Mesh) (o d : Nat) : Except PyErr Bool :=
  match s.vert? o with
  | none => .error .badRef
  | some r =>
    match r.edge with
    | none => .ok false
    | some _ => do
      .ok (d ∈ (← vertNeighbors s o) : Bool)

/-- `insert_edge` after face resolution, lines 202-226.  The embedding
follows the source statement by statement up to `edge.update(...)`:
neither `MeshElementBase` nor `Edge` defines an `update` method, so that
attribute access raises `AttributeError` on every path that passes the
four checks; the splice/`_update_face_edges`/`self.edges.update` code
after it (lines 226-239) is unreachable and therefore not modelled. -/
def insertEdgeBody (s : Mesh) (origR destR : ERef) (face : Nat) :
    MRes Nat :=
    -- 202: face_edges = face.edges
    match faceEdges s face with
    | .error e => .err e s
    | .ok _faceEdges =>
      -- 204-205: allocate edge, dummy next, and pair
      let (edge, p, s) := insertEdgeSetup s
      -- 207-209: wings and their next edges
      match inferWing s origR face p with
      | .error e => .err e s
      | .ok (edgeOrigV, edgePrev) =>
        match inferWing s destR face edge with
        | .error e => .err e s
        | .ok (edgeDestV, pairPrev) =>
          match (do .ok ((← edgeNext s edgePrev), (← edgeNext s pairPrev)) :
              Except PyErr (Nat × Nat)) with
          | .error e => .err e s
          | .ok (_edgeNextE, _pairNextE) =>
            -- 211: overwriting-existing-edge check
            match hasExistingEdge s edgeOrigV edgeDestV with
            | .error e => .err e s
            | .ok hit =>
              if hit then .err (.manifold "overwriting existing edge") s
              else
                -- 214: vert-off-face check
                match (do .ok ((← faceVerts s face), (← meshVerts s)) :
                    Except PyErr (List Nat × List Nat)) with
                | .error e => .err e s
                | .ok (fv, mv) =>
                  let od : Finset Nat := {edgeOrigV, edgeDestV}
                  if fv.toFinset ∩ od ≠ mv.toFinset ∩ od then
                    .err (.manifold "orig or dest in mesh but not on given face") s
                  else if edgeOrigV = edgeDestV then
                    -- 220
                    .err (.manifold "orig and dest are the same") s
                  else
                    -- 223: floating-edge check (`face in self.faces`)
                    match meshFaces s with
                    | .error e => .err e s
                    | .ok fcs =>
                      if fv.toFinset ∩ od = ∅ ∧ face ∈ fcs then
                        .err (.manifold "adding floating edge to existing face") s
                      else
                        -- 226: edge.update(...) — no such attribute
                        .err .attrError s

/-- `insert_edge(orig, dest, face)`, lines 199-239: resolve the face
(line 199), then run the body above. -/
def insertEdge (s : Mesh) (origR destR : ERef) (face? : Option Nat) :
    MRes Nat :=
  -- 199: if face is None: face = self._infer_face(orig, dest)
  match (match face? with
         | some f => .ok f s
         | none => inferFace s origR destR : MRes Nat) with
  | .err e s' => .err e s'
  | .ok face s => insertEdgeBody s origR destR face

/-- One pass of the `for edge_ in (edge, pair):` loop in
`_point_away_from_edge`. -/
def pointAwayOne (s : Mesh) (edge pair e₀ : Nat) : MRes Unit :=
  -- edge_.orig.edge = edge_.pair.next
  match edgeOrig s e₀ with
  | .error e => .err e s
  | .ok v =>
    match (do edgeNext s (← edgePair s e₀) : Except PyErr Nat) with
    | .error e => .err e s
    | .ok pn =>
      let s := setEdgeOrig s pn v
      -- safe_edges = set(edge_.face.edges) - {edge, pair}
      match edgeFace s e₀ with
      | .error e => .err e s
      | .ok f =>
        match faceEdges s f with
        | .error e => .err e s
        | .ok fes =>
          let safe := fes.filter (fun x => !(x = edge || x = pair))
          -- edge_.face.edge = next(iter(safe_edges), edge_)
          .ok () (setEdgeFace s (safe.headD e₀) f)

/-- `_point_away_from_edge(edge)`: point `orig` and `face` of the edge and
its pair at surviving edges before removal. -/
def pointAway (s : Mesh) (edge : Nat) : MRes Unit :=
  match edgePair s edge with
  | .error e => .err e s
  | .ok pair =>
    match pointAwayOne s edge pair edge with
    | .err e s' => .err e s'
    | .ok _ s' => pointAwayOne s' edge pair pair

/-- `remove_edge(edge)`, lines 301-331.  The two rejection checks come
first; the success path then calls `_point_away_from_edge`, laps both
faces, and builds the merged face with
`self.face_type(*{edge.face, pair.face})` (or `hole_type`), whose
positional `Face` arguments make `set_attrib` raise `AttributeError`, so
the relink/removal code below it (lines 323-331) is unreachable; it is
still modelled faithfully. -/
def removeEdge (s : Mesh) (edge : Nat) : MRes Nat :=
  -- 301
  if edge ∉ s.edges then .err (.manifold "edge does not exist in mesh") s
  else
    -- 304
    match edgePair s edge with
    | .error e => .err e s
    | .ok pair =>
      -- 306, with Python `and` short-circuiting
      match (do vertValence s (← edgeOrig s edge) : Except PyErr Nat) with
      | .error e => .err e s
      | .ok ov =>
        match (if ov ≤ 1 then .ok false else do
            let dv ← vertValence s (← edgeDest s edge)
            if dv ≤ 1 then .ok false
            else do
              .ok ((← edgeFace s edge) = (← edgeFace s pair) : Bool) :
            Except PyErr Bool) with
        | .error e => .err e s
        | .ok bridge =>
          if bridge then .err (.manifold "would create non-manifold mesh") s
          else
            -- 309
            match pointAway s edge with
            | .err e s' => .err e s'
            | .ok _ s =>
              -- 311-312
              match faceEdgesFrom s edge with
              | .error e => .err e s
              | .ok efe =>
                match faceEdgesFrom s pair with
                | .error e => .err e s
                | .ok pfe =>
                  -- 319-322: new face: `face_type/hole_type(*{edge.face, pair.face})`
                  match (do .ok ((← edgeFace s pair), (← edgeFace s edge)) :
                      Except PyErr (Nat × Nat)) with
                  | .error e => .err e s
                  | .ok (pf, ef) =>
                    match faceIsHole s pf with
                    | .error e => .err e s
                    | .ok isH =>
                      let attribs := if ef = pf then [ef] else [ef, pf]
                      match allocFace s attribs isH with
                      | .err e s' => .err e s'
                      | .ok nf s =>
                        -- 323-324 (unreachable)
                        let targets :=
                          ((efe ++ pfe).dedup).filter
                            (fun x => !(x = edge || x = pair))
                        let s := targets.foldl (fun st x => setEdgeFace st x nf) s
                        -- 327-328 (unreachable)
                        match (do .ok ((← edgePrev s edge), (← edgeNext s pair)) :
                            Except PyErr (Nat × Nat)) with
                        | .error e => .err e s
                        | .ok (ep, pn) =>
                          let s := setEdgeNext s ep pn
                          match (do .ok ((← edgePrev s pair), (← edgeNext s edge)) :
                              Except PyErr (Nat × Nat)) with
                          | .error e => .err e s
                          | .ok (pp, en) =>
                            let s := setEdgeNext s pp en
                            -- 329
                            .ok nf
                              { s with
                                edges :=
                                  s.edges.filter
                                    (fun x => !(x = edge || x = pair)) }

/-- The peninsula filter in `remove_vert`:
`{x for x in vert.edges if x.dest.valence == 1}` (evaluated left to right
on the given state). -/
def peninsulaFilter (s : Mesh) (es : List Nat) : Except PyErr (List Nat) :=
  es.filterM (fun x => do .ok ((← vertValence s (← edgeDest s x)) = 1 : Bool))

/-- The `for edge in peninsulas:` loop of `remove_vert` (errors propagate
raw). -/
def removePeninsulas : List Nat → Option Nat → Mesh → MRes (Option Nat)
  | [], last, s => .ok last s
  | e :: rest, last, s =>
    match removeEdge s e with
    | .err er s' => .err er s'
    | .ok f s' =>
      let _ := last
      removePeninsulas rest (some f) s'

/-- The guarded `for edge in vert.edges:` loop of `remove_vert`
(`ManifoldMeshError` is re-raised as `UnrecoverableManifoldMeshError`;
holes expand into faces by removing the pair of a hole-side edge). -/
def removeVertLoop : List Nat → Option Nat → Mesh → MRes (Option Nat)
  | [], last, s => .ok last s
  | e :: rest, last, s =>
    match (do faceIsHole s (← edgeFace s e) : Except PyErr Bool) with
    | .error (.manifold m) => .err (.unrecoverable m) s
    | .error er => .err er s
    | .ok isH =>
      match (if isH then
               match edgePair s e with
               | .error er => .error er
               | .ok p => .ok p
             else .ok e : Except PyErr Nat) with
      | .error (.manifold m) => .err (.unrecoverable m) s
      | .error er => .err er s
      | .ok victim =>
        match removeEdge s victim with
        | .err (.manifold m) s' => .err (.unrecoverable m) s'
        | .err er s' => .err er s'
        | .ok f s' =>
          let _ := last
          removeVertLoop rest (some f) s'

/-- `remove_vert(vert)`, lines 369-388: peninsula edges are identified and
removed first, the bridge-count check guards the rest, any later
`ManifoldMeshError` becomes unrecoverable, and the return value is the last
`face` assigned in either loop (`UnboundLocalError` if neither ran). -/
def removeVert (s : Mesh) (vert : Nat) : MRes Nat :=
  match vertEdges s vert with
  | .error e => .err e s
  | .ok ve =>
    match peninsulaFilter s ve with
    | .error e => .err e s
    | .ok peninsulas =>
      let trueEdges := ve.dedup.filter (fun x => x ∉ peninsulas)
      match (do (trueEdges.mapM (edgeFace s)) : Except PyErr (List Nat)) with
      | .error e => .err e s
      | .ok vfaces =>
        if trueEdges.length ≠ vfaces.dedup.length then
          .err (.manifold "removing vert would create non-manifold mesh") s
        else
          match removePeninsulas peninsulas none s with
          | .err e s' => .err e s'
          | .ok last s =>
            -- 381: `for edge in vert.edges:` recomputed on the current state
            match vertEdges s vert with
            | .error e => .err e s
            | .ok ve2 =>
              match removeVertLoop ve2 last s with
              | .err e s' => .err e s'
              | .ok (some f) s' => .ok f s'
              | .ok none s' => .err .unboundLocal s'

/-- The guarded `for edge in edges:` loop of `remove_face`. -/
def removeFaceLoop : List Nat → Mesh → MRes Unit
  | [], s => .ok () s
  | e :: rest, s =>
    match removeEdge s e with
    | .err (.manifold m) s' => .err (.unrecoverable m) s'
    | .err er s' => .err er s'
    | .ok _ s' => removeFaceLoop rest s'

/-- `remove_face(face)`, lines 407-420. -/
def removeFace (s : Mesh) (face : Nat) : MRes Nat :=
  match faceEdges s face with
  | .error e => .err e s
  | .ok edges =>
    match edges.filterM
        (fun x => do .ok (2 < (← vertValence s (← edgeOrig s x)) : Bool)) with
    | .error e => .err e s
    | .ok potentialBridges =>
      match edges.mapM (fun x => do edgeFace s (← edgePair s x)) with
      | .error e => .err e s
      | .ok pairFaces =>
        if pairFaces.dedup.length < potentialBridges.length then
          .err
            (.manifold
              "Removing this face would create non-manifold mesh. One of this faces's edges is a bridge edge.")
            s
        else
          match removeFaceLoop edges s with
          | .err e s' => .err e s'
          | .ok _ s' => .ok face s'

/-- `split_edge(edge)`, lines 438-448: the very first statement
`self.vert_type(*{edge.orig, edge.dest}, **vert_kwargs)` passes the two
`Vert` objects positionally, so `set_attrib` raises `AttributeError`
before anything else happens; the insert/extend/remove code below (lines
439-448, including the nonexistent `Edge.extend` method) is unreachable
and not modelled. -/
def splitEdge (s : Mesh) (edge : Nat) : MRes Nat :=
  match (do .ok ((← edgeOrig s edge), (← edgeDest s edge)) :
      Except PyErr (Nat × Nat)) with
  | .error e => .err e s
  | .ok (o, d) =>
    let attribs := if o = d then [o] else [o, d]
    match allocVert s attribs with
    | .err e s' => .err e s'
    | .ok nv s' => .ok nv s'

/-- `flip_edge(edge)`, lines 465-473 (with Python `or` short-circuiting in
the triangle check; `remove_edge` never succeeds in this draft, so the
insert/update tail is reached only through its error). -/
def flipEdge (s : Mesh) (edge : Nat) : MRes Nat :=
  match edgePair s edge with
  | .error e => .err e s
  | .ok pair =>
    match faceEdgesFrom s edge with
    | .error e => .err e s
    | .ok fe1 =>
      match (if fe1.length ≠ 3 then .ok true else do
          .ok ((← faceEdgesFrom s pair).length ≠ 3 : Bool) :
          Except PyErr Bool) with
      | .error e => .err e s
      | .ok bad =>
        if bad then
          .err (.valueError "can only flip an edge between two triangles") s
        else
          match (do .ok ((← edgeDest s (← edgeNext s edge)),
                         (← edgeDest s (← edgeNext s pair))) :
              Except PyErr (Nat × Nat)) with
          | .error e => .err e s
          | .ok (newOrig, newDest) =>
            match removeEdge s edge with
            | .err e s' => .err e s'
            | .ok face s' =>
              match insertEdge s' (.v newOrig) (.v newDest) (some face) with
              | .err e s'' => .err e s''
              | .ok _ s'' =>
                -- 472: new_edge.update(edge, pair) — no such attribute
                .err .attrError s''

/-- `_is_stitchable(edge)`, lines 493-501 (the statements after the first
`return False` are dead code in the source and are not modelled). -/
def isStitchable (s : Mesh) (edge : Nat) : Except PyErr Bool := do
  let pair ← edgePair s edge
  let fe1 ← faceEdgesFrom s edge
  let fe2 ← faceEdgesFrom s pair
  let tris := (if fe1.length = 3 then 1 else 0) +
    (if fe2.length = 3 then 1 else 0)
  let origVerts := (← vertNeighbors s (← edgeOrig s edge)).dedup
  let destVerts := (← vertNeighbors s (← edgeDest s edge)).dedup
  .ok ((origVerts.filter (fun x => x ∈ destVerts)).length = tris : Bool)

/-- The `for edge_ in set(edge.orig.edges + edge.dest.edges):` loop of
`collapse_edge` (removals of peninsula-like edges, errors propagate
raw). -/
def collapseNbrLoop : List Nat → Mesh → MRes Unit
  | [], s => .ok () s
  | e :: rest, s =>
    match (do .ok ((← vertValence s (← edgeDest s e)) = 1 : Bool) :
        Except PyErr Bool) with
    | .error er => .err er s
    | .ok true =>
      match removeEdge s e with
      | .err er s' => .err er s'
      | .ok _ s' => collapseNbrLoop rest s'
    | .ok false => collapseNbrLoop rest s

/-- `collapse_edge(edge)`, lines 529-644.  There is no membership check
(the source carries `# TODO: raise error if collapsing missing edge`).
After the stitchability check: a valence-1 endpoint routes into a branch
whose `validate_mesh` and `remove_edge` calls sit in bare
`try/except: breakpoint()` blocks — their exceptions are swallowed and the
method returns `None`; a two-edge mesh is simply emptied and `None`
returned; otherwise, after `_point_away_from_edge`, the call
`self.vert_type(edge.orig, edge.dest)` passes `Vert` objects positionally
and raises `AttributeError`, making the re-origin and slit-removal code
(lines 579-644) unreachable (it is not modelled). -/
def collapseEdge (s : Mesh) (edge : Nat) : MRes (Option Nat) :=
  -- 532
  match edgePair s edge with
  | .error e => .err e s
  | .ok _pair =>
    -- 534-539
    match isStitchable s edge with
    | .error e => .err e s
    | .ok safe =>
      if !safe then .err (.manifold "would create non-manifold mesh") s
      else
        -- 543, with Python `or` short-circuiting
        match (do vertValence s (← edgeOrig s edge) : Except PyErr Nat) with
        | .error e => .err e s
        | .ok ov =>
          match (if ov = 1 then .ok true else do
              .ok ((← vertValence s (← edgeDest s edge)) = 1 : Bool) :
              Except PyErr Bool) with
          | .error e => .err e s
          | .ok deg1 =>
            if deg1 then
              -- 545-553: both try blocks swallow every exception
              let _ := validateMesh s
              let s :=
                match removeEdge s edge with
                | .ok _ s' => s'
                | .err _ s' => s'
              .ok none s
            else
              -- 556-562
              match (do
                  let o ← edgeOrig s edge
                  let ve1 ← vertEdges s o
                  let d ← edgeDest s edge
                  let ve2 ← vertEdges s d
                  .ok ((ve1 ++ ve2).dedup) : Except PyErr (List Nat)) with
              | .error e => .err e s
              | .ok nbrs =>
                match collapseNbrLoop nbrs s with
                | .err e s' => .err e s'
                | .ok _ s =>
                  -- 565-568
                  if s.edges.length = 2 then .ok none { s with edges := [] }
                  else
                    -- 569: props (computed for logging; errors propagate)
                    match (do
                        let afs ← meshAllFaces s
                        let _ ← afs.mapM (fun f => do
                          .ok (← faceEdges s f).length)
                        let _ ← meshVerts s
                        .ok () : Except PyErr Unit) with
                    | .error e => .err e s
                    | .ok _ =>
                      -- 571
                      match pointAway s edge with
                      | .err e s' => .err e s'
                      | .ok _ s =>
                        -- 573: any(x.orig is x.dest for x in self.edges)
                        match (do
                            let _ ← s.edges.mapM (fun x => do
                              .ok ((← edgeOrig s x) = (← edgeDest s x) : Bool))
                            .ok () : Except PyErr Unit) with
                        | .error e => .err e s
                        | .ok _ =>
                          -- 576: deepcopy (no semantic effect), then 578:
                          -- vert_type(edge.orig, edge.dest) — AttributeError
                          match (do .ok ((← edgeOrig s edge),
                                         (← edgeDest s edge)) :
                              Except PyErr (Nat × Nat)) with
                          | .error e => .err e s
                          | .ok (o, d) =>
                            match allocVert s [o, d] with
                            | .err e s' => .err e s'
                            | .ok nv s' => .ok (some nv) s'

/-- The guarded triangulation loop of `insert_vert`. -/
def insertVertLoop (face newVert : Nat) : List Nat → Mesh → MRes Unit
  | [], s => .ok () s
  | v :: rest, s =>
    match insertEdge s (.v v) (.v newVert) (some face) with
    | .err (.manifold m) s' => .err (.unrecoverable m) s'
    | .err er s' => .err er s'
    | .ok _ s' => insertVertLoop face newVert rest s'

/-- `insert_vert(face)`, lines 261-267:
`self.vert_type(*face.verts)` raises `AttributeError` whenever the face
has any verts; on a vert-less face the loop body never runs and the fresh
vert is returned. -/
def insertVert (s : Mesh) (face : Nat) : MRes Nat :=
  match faceVerts s face with
  | .error e => .err e s
  | .ok fv =>
    match allocVert s fv with
    | .err e s' => .err e s'
    | .ok nv s =>
      -- 263: `for vert in face.verts:` recomputed on the current state
      match faceVerts s face with
      | .error e => .err e s
      | .ok fv2 =>
        match insertVertLoop face nv fv2 s with
        | .err e s' => .err e s'
        | .ok _ s' => .ok nv s'

/-! ## Mutator call sequences

The invariant claim quantifies over finite sequences of mutator calls;
`MutCall` is one call with caller-chosen arguments, `runSeq` runs a
sequence, stopping at the first raise. -/

/-- One mutator call of the `HalfEdges` interface. -/
inductive MutCall where
  | insE (o d : ERef) (f? : Option Nat)
  | insV (f : Nat)
  | remE (e : Nat)
  | remV (v : Nat)
  | remF (f : Nat)
  | splE (e : Nat)
  | flpE (e : Nat)
  | colE (e : Nat)
deriving Repr, DecidableEq

/-- Run one mutator call (return values discarded). -/
def runCall (s : Mesh) : MutCall → MRes Unit
  | .insE o d f? =>
    match insertEdge s o d f? with
    | .ok _ s' => .ok () s'
    | .err e s' => .err e s'
  | .insV f =>
    match insertVert s f with
    | .ok _ s' => .ok () s'
    | .err e s' => .err e s'
  | .remE e =>
    match removeEdge s e with
    | .ok _ s' => .ok () s'
    | .err er s' => .err er s'
  | .remV v =>
    match removeVert s v with
    | .ok _ s' => .ok () s'
    | .err e s' => .err e s'
  | .remF f =>
    match removeFace s f with
    | .ok _ s' => .ok () s'
    | .err e s' => .err e s'
  | .splE e =>
    match splitEdge s e with
    | .ok _ s' => .ok () s'
    | .err er s' => .err er s'
  | .flpE e =>
    match flipEdge s e with
    | .ok _ s' => .ok () s'
    | .err er s' => .err er s'
  | .colE e =>
    match collapseEdge s e with
    | .ok _ s' => .ok () s'
    | .err er s' => .err er s'

/-- Run a sequence of mutator calls, stopping at the first raise. -/
def runSeq : List MutCall → Mesh → MRes Unit
  | [], s => .ok () s
  | c :: rest, s =>
    match runCall s c with
    | .err e s' => .err e s'
    | .ok _ s' => runSeq rest s'

/-! ## Serial-number bound

Proof-side well-formedness predicate (not a library function): every
serial number stored anywhere in the mesh is below the allocation counter.
It holds for every mesh the library itself builds — serial numbers are
handed out by the monotone `_sn_generator` — and it is what makes freshly
allocated elements invisible to reads of existing ones. -/

/-- All ids stored in the mesh (keys, pointer fields, and the edge set)
are `< s.nextSn`. -/
def FieldBound (s : Mesh) : Prop :=
  (∀ kv ∈ s.vertA, kv.1 < s.nextSn ∧
    (∀ e ∈ kv.2.edge.toList, e < s.nextSn)) ∧
  (∀ kv ∈ s.edgeA, kv.1 < s.nextSn ∧
    (∀ x ∈ kv.2.orig.toList, x < s.nextSn) ∧
    (∀ x ∈ kv.2.pair.toList, x < s.nextSn) ∧
    (∀ x ∈ kv.2.face.toList, x < s.nextSn) ∧
    (∀ x ∈ kv.2.next.toList, x < s.nextSn)) ∧
  (∀ kv ∈ s.faceA, kv.1 < s.nextSn ∧
    (∀ e ∈ kv.2.edge.toList, e < s.nextSn)) ∧
  (∀ e ∈ s.edges, e < s.nextSn)

instance (s : Mesh) : Decidable (FieldBound s) := by
  unfold FieldBound; infer_instance

/-! ## Proof-side field observations

Boolean observations of single edge records (not library functions):
whether an edge object exists and whether its `pair`/`face` attribute has
ever been set.  `EdgeMono` is the step relation of the construction
phase: records are never deleted and set pointer fields are never
unset. -/

/-- The edge object exists. -/
def recSome (s : Mesh) (e : Nat) : Bool := (s.edge? e).isSome

/-- The edge object exists and its `pair` is set. -/
def pairSome (s : Mesh) (e : Nat) : Bool :=
  match s.edge? e with
  | some r => r.pair.isSome
  | none => false

/-- The edge object exists and its `face` is set. -/
def faceSome (s : Mesh) (e : Nat) : Bool :=
  match s.edge? e with
  | some r => r.face.isSome
  | none => false

/-- Between `s` and `s'`, no edge record disappears and no set pointer
field of an edge record becomes unset. -/
def EdgeMono (s s' : Mesh) : Prop :=
  ∀ e r, s.edge? e = some r → ∃ r', s'.edge? e = some r' ∧
    (r.orig.isSome = true → r'.orig.isSome = true) ∧
    (r.pair.isSome = true → r'.pair.isSome = true) ∧
    (r.face.isSome = true → r'.face.isSome = true) ∧
    (r.next.isSome = true → r'.next.isSome = true)

/-! ## Result projections and concrete fixtures -/

/-- The error component of a stateful result, if any. -/
def MRes.errOf {α : Type} : MRes α → Option PyErr
  | .ok _ _ => none
  | .err e _ => some e

/-- The state component of a stateful result. -/
def MRes.stateOf {α : Type} : MRes α → Mesh
  | .ok _ s => s
  | .err _ s => s

/-- Modelled from the spec (what the spec says `_is_stitchable` decides; the
code is missing none of this — the definition exists only to compare the
spec's "share more vertices than the number of triangular sides" reading
with the code's equality test): an edge is stitchable unless the vertices
shared by its two bounding faces, excluding the edge itself, outnumber the
triangular faces among the two. -/
def stitchableSpec (s : Mesh) (edge : Nat) : Except PyErr Bool := do
  let pair ← edgePair s edge
  let fe1 ← faceEdgesFrom s edge
  let fe2 ← faceEdgesFrom s pair
  let tris := (if fe1.length = 3 then 1 else 0) +
    (if fe2.length = 3 then 1 else 0)
  let origVerts := (← vertNeighbors s (← edgeOrig s edge)).dedup
  let destVerts := (← vertNeighbors s (← edgeDest s edge)).dedup
  .ok ((origVerts.filter (fun x => x ∈ destVerts)).length ≤ tris : Bool)

/-- A triangle built by the construction layer: one face, one inferred
hole, six half-edges (verts 0-2, face 3, ring edges 4-6, hole edges 7-9,
hole 10). -/
def triMesh : Mesh := (fromVlvi 3 [[0, 1, 2]] []).stateOf

/-- An empty mesh alongside two caller-built fresh `Vert()` objects. -/
def emptyPlus2 : Mesh := ⟨[(0, ⟨none⟩), (1, ⟨none⟩)], [], [], [], 2⟩

/-- `triMesh` alongside two caller-built fresh `Vert()` objects. -/
def triPlus2 : Mesh :=
  { triMesh with
    vertA := (11, ⟨none⟩) :: (12, ⟨none⟩) :: triMesh.vertA
    nextSn := 13 }

/-- `triMesh` alongside a caller-built floating edge pair (verts 11/12,
half-edges 13/14 in a two-edge hole 15) that is *not* in the mesh's edge
set. -/
def triPlusFloat : Mesh :=
  { triMesh with
    vertA := (11, ⟨some 13⟩) :: (12, ⟨some 14⟩) :: triMesh.vertA
    edgeA := (13, ⟨some 11, some 14, some 15, some 14⟩) ::
      (14, ⟨some 12, some 13, some 15, some 13⟩) :: triMesh.edgeA
    faceA := (15, ⟨some 13, true⟩) :: triMesh.faceA
    nextSn := 16 }

/-- The mesh built from two 2-gon faces over the same vertex pair
(`fi = {(0,1), (1,0)}`): construction succeeds, the validator does not. -/
def dupMesh : Mesh := (fromVlvi 2 [[0, 1], [1, 0]] []).stateOf

/-- A "pillow": two triangles glued along all three edges (a valid closed
mesh; every edge borders two triangles that share one further vertex). -/
def pillowMesh : Mesh := (fromVlvi 3 [[0, 1, 2], [0, 2, 1]] []).stateOf

/-- A detached `Vert` (serial 0, `edge` never set) and a detached `Face`
(serial 1, `edge` never set), with no mesh edges. -/
def detachedState : Mesh := ⟨[(0, ⟨none⟩)], [], [(1, ⟨none, false⟩)], [], 2⟩

/-- A corrupted-but-reachable-by-hand mesh state (Python lets callers set
the mirrored pointer properties freely): verts 0-2, mesh edges 3-5 with
`3.pair = 4`, `5.pair = 6`, off-set edges 6-8, faces 9-10.  The `next`
chain from edge 3 runs 3 → 4 → 5 → 4 and never returns, while the two
face-pointer laps (7 → 7, 8 → 8) close, so `remove_edge(3)` passes both
rejection checks, mutates inside `_point_away_from_edge` (edge 5's `orig`
is repointed from vert 2 to vert 0), and only then raises the recoverable
infinite-lap `ManifoldMeshError` from `edge.face_edges`. -/
def c2Mesh : Mesh :=
  ⟨[(0, ⟨some 3⟩), (1, ⟨some 4⟩), (2, ⟨none⟩)],
   [(3, ⟨some 0, some 4, some 9, some 4⟩),
    (4, ⟨some 1, some 3, some 10, some 5⟩),
    (5, ⟨some 2, some 6, some 9, some 4⟩),
    (6, ⟨none, none, none, some 3⟩),
    (7, ⟨none, none, some 9, some 7⟩),
    (8, ⟨none, none, some 10, some 8⟩)],
   [(9, ⟨some 7, false⟩), (10, ⟨some 8, false⟩)],
   [3, 4, 5], 11⟩

/-- The valid triangle mesh plus one detached `Face` object (edge pointer
never set): `remove_face` on it succeeds without touching the edge set. -/
def c1WMesh : Mesh :=
  { triMesh with faceA := (11, ⟨none, false⟩) :: triMesh.faceA, nextSn := 12 }

/-- `fi = {(0,1), (0,1,2)}` after ring creation and `find_pairs`, just
before `_infer_holes` (two unpaired edges remain: 8 and 9). -/
def c7pre : Mesh :=
  (findPairs (ringsPhase false [[0, 1], [0, 1, 2]]
    ⟨(List.range 3).map (fun i => (i, ⟨none⟩)), [], [], [], 3⟩).stateOf).stateOf

/-- `c7pre` after `_infer_holes`'s synthesis phase: reverse edges 10 and
11 exist (origins 2 and 0), and the chaining loop is about to run on
`orig2hole_edge = [(2, 10), (0, 11)]`. -/
def c7state : Mesh := (synthHoleEdges c7pre.edges [] c7pre).stateOf

/-- The triangle `fi = {(0,1,2)}` just before `_infer_holes`. -/
def c7tri : Mesh :=
  (findPairs (ringsPhase false [[0, 1, 2]]
    ⟨(List.range 3).map (fun i => (i, ⟨none⟩)), [], [], [], 3⟩).stateOf).stateOf

/-- `c7tri` after a successful `_infer_holes`. -/
def c7triPost : Mesh := (inferHoles c7tri).stateOf

/-- Two triangles sharing only vertex 0 (`fi = {(0,1,2), (0,3,4)}`), just
before `_infer_holes`: two synthesized reverse edges share origin 0. -/
def c7amb : Mesh :=
  (findPairs (ringsPhase false [[0, 1, 2], [0, 3, 4]]
    ⟨(List.range 5).map (fun i => (i, ⟨none⟩)), [], [], [], 5⟩).stateOf).stateOf

/-- `c7amb` after the synthesis phase (the state the ambiguity error
leaves behind). -/
def c7ambSynth : Mesh := (synthHoleEdges c7amb.edges [] c7amb).stateOf

/-- `_function_lap` applied to a total (never-raising) Python function over
a finite value domain — the setting of `face_edges` / `vert_edges`, whose
"next" functions range over the mesh's finitely many edges.  The fuel
`Fintype.card α + 1` is proved sufficient. -/
def pureLap {α : Type} [DecidableEq α] [Fintype α] (f : α → α) (start : α) :
    Except PyErr (List α) :=
  functionLap (fun x => .ok (f x)) (Fintype.card α + 1) start

/-- A list that `_function_lap` can produce: duplicate-free, each element
mapped by `f` to the next, the last mapped back to the head. -/
def LapCycle {α : Type} (f : α → Except PyErr α) (l : List α) : Prop :=
  l.Nodup ∧
  List.Chain' (fun a b => f a = .ok b) l ∧
  ∃ h z, l.head? = some h ∧ l.getLast? = some z ∧ f z = .ok h

/-! ********************************************************************
    ## Theorems
    ******************************************************************** -/

/-! ### `_function_lap` theory (C9, and rotation lemmas used elsewhere) -/

section LapTheory

variable {α : Type} [DecidableEq α]

/-- Anything `lapAux` returns is a `LapCycle` headed by `first_arg`. -/
theorem lapAux_ok_cycle (f : α → Except PyErr α) (first : α) :
    ∀ (fuel : Nat) (seen : List α) (last : α) (L : List α),
      lapAux f first fuel seen last = .ok L →
      List.Chain' (fun a b => f a = .ok b) (first :: seen) →
      (first :: seen).getLast? = some last →
      (first :: seen).Nodup →
      LapCycle f L ∧ L.head? = some first := by
  intro fuel
  induction fuel with
  | zero => intro seen last L h; cases h
  | succ fuel ih =>
    intro seen last L h hchain hlast hnodup
    rw [lapAux] at h
    cases hf : f last with
    | error e => rw [hf] at h; cases h
    | ok x =>
      rw [hf] at h
      dsimp only at h
      by_cases hx : x = first
      · rw [if_pos hx] at h
        cases h
        exact ⟨⟨hnodup, hchain, first, last, rfl, hlast, hx ▸ hf⟩, rfl⟩
      · rw [if_neg hx] at h
        by_cases hmem : x ∈ seen
        · rw [if_pos hmem] at h; cases h
        · rw [if_neg hmem] at h
          have hcons : first :: (seen ++ [x]) = (first :: seen) ++ [x] := by
            simp
          refine ih (seen ++ [x]) x L h ?_ ?_ ?_
          · rw [hcons]
            refine List.chain'_append.mpr ⟨hchain, List.chain'_singleton x, ?_⟩
            intro a ha b hb
            rw [hlast] at ha
            cases ha
            cases hb
            exact hf
          · rw [hcons, List.getLast?_concat]
          · rw [hcons]
            refine List.Nodup.append hnodup (List.nodup_singleton x) ?_
            intro a ha hb
            rcases List.mem_singleton.mp hb with rfl
            rcases List.mem_cons.mp ha with h0 | h0
            · exact hx h0
            · exact hmem h0

/-- `_function_lap` only returns duplicate-free `f`-cycles through its
first argument. -/
theorem functionLap_ok_cycle (f : α → Except PyErr α) (first : α)
    (fuel : Nat) (L : List α) (h : functionLap f fuel first = .ok L) :
    LapCycle f L ∧ L.head? = some first :=
  lapAux_ok_cycle f first fuel [] first L h (List.chain'_singleton first)
    rfl (List.nodup_singleton first)

/-- Walking `lapAux` along a known remaining segment of a cycle. -/
theorem lapAux_through (f : α → Except PyErr α) (first : α) :
    ∀ (todo done : List α) (fuel : Nat) (last : α),
      todo.length < fuel →
      List.Chain' (fun a b => f a = .ok b) ((first :: done) ++ todo) →
      ((first :: done) ++ todo).Nodup →
      (first :: done).getLast? = some last →
      (∀ z, ((first :: done) ++ todo).getLast? = some z → f z = .ok first) →
      lapAux f first fuel done last = .ok ((first :: done) ++ todo) := by
  intro todo
  induction todo with
  | nil =>
    intro done fuel last hfuel hchain hnodup hlast hclose
    cases fuel with
    | zero => omega
    | succ fuel =>
      have hz : f last = .ok first := hclose last (by simpa using hlast)
      rw [lapAux, hz]
      dsimp only
      rw [if_pos rfl]
      simp
  | cons t rest ih =>
    intro done fuel last hfuel hchain hnodup hlast hclose
    cases fuel with
    | zero => simp at hfuel
    | succ fuel =>
      have hstep : f last = .ok t := by
        rcases List.chain'_append.mp hchain with ⟨_, _, hb⟩
        exact hb last hlast t rfl
      have hdisj := List.disjoint_of_nodup_append hnodup
      have htf : t ≠ first := by
        intro hEq
        exact hdisj (hEq ▸ List.mem_cons_self t done) (List.mem_cons_self t rest)
      have htd : t ∉ done := by
        intro hmem
        exact hdisj (List.mem_cons_of_mem first hmem) (List.mem_cons_self t rest)
      rw [lapAux, hstep]
      dsimp only
      rw [if_neg htf, if_neg htd]
      have hassoc : ((first :: (done ++ [t])) ++ rest) =
          ((first :: done) ++ t :: rest) := by simp
      rw [← hassoc]
      refine ih (done ++ [t]) fuel t (by simpa using hfuel) ?_ ?_ ?_ ?_
      · rw [hassoc]; exact hchain
      · rw [hassoc]; exact hnodup
      · have : first :: (done ++ [t]) = (first :: done) ++ [t] := by simp
        rw [this, List.getLast?_concat]
      · intro z hz
        exact hclose z (by rw [← hassoc]; exact hz)

/-- `_function_lap` reproduces any `LapCycle` when started at its head,
given fuel at least the cycle length. -/
theorem functionLap_of_cycle (f : α → Except PyErr α) (l : List α)
    (hl : LapCycle f l) (y : α) (hy : l.head? = some y) (fuel : Nat)
    (hfuel : l.length ≤ fuel) : functionLap f fuel y = .ok l := by
  obtain ⟨hnodup, hchain, h, z, hh, hz, hclose⟩ := hl
  cases l with
  | nil => cases hy
  | cons a tail =>
    have hay : a = y := by cases hy; rfl
    subst hay
    have heq : ((a :: ([] : List α)) ++ tail) = a :: tail := by simp
    rw [functionLap]
    have := lapAux_through f a tail [] fuel a
      (by simp at hfuel ⊢; omega)
      (by rw [heq]; exact hchain)
      (by rw [heq]; exact hnodup)
      rfl
      (by
        intro w hw
        rw [heq] at hw
        rw [hz] at hw
        cases hw
        cases hh
        exact hclose)
    rw [heq] at this
    exact this

/-- For a never-raising function, `_function_lap` can only raise the
infinite-lap `ManifoldMeshError` (or run out of fuel). -/
theorem lapAux_pure_err (f : α → α) (first : α) :
    ∀ (fuel : Nat) (seen : List α) (last : α) (e : PyErr),
      lapAux (fun x => .ok (f x)) first fuel seen last = .error e →
      e = .manifold "infinite function lap" ∨ e = .fuelOut := by
  intro fuel
  induction fuel with
  | zero =>
    intro seen last e h
    rw [lapAux] at h
    cases h
    exact Or.inr rfl
  | succ fuel ih =>
    intro seen last e h
    rw [lapAux] at h
    dsimp only at h
    by_cases hx : f last = first
    · rw [if_pos hx] at h; cases h
    · rw [if_neg hx] at h
      by_cases hmem : f last ∈ seen
      · rw [if_pos hmem] at h
        cases h
        exact Or.inl rfl
      · rw [if_neg hmem] at h
        exact ih _ _ _ h

/-- With fuel at least the domain's cardinality (minus the seen prefix),
`lapAux` on a never-raising function cannot run out of fuel: every
recursive step strictly extends a duplicate-free list. -/
theorem lapAux_pure_no_fuelOut [Fintype α] (f : α → α) (first : α) :
    ∀ (fuel : Nat) (seen : List α) (last : α),
      Fintype.card α ≤ fuel + seen.length →
      (first :: seen).Nodup →
      lapAux (fun x => .ok (f x)) first fuel seen last ≠ .error .fuelOut := by
  intro fuel
  induction fuel with
  | zero =>
    intro seen last hcard hnodup h
    have hlen := List.Nodup.length_le_card hnodup
    simp at hlen
    omega
  | succ fuel ih =>
    intro seen last hcard hnodup h
    rw [lapAux] at h
    dsimp only at h
    by_cases hx : f last = first
    · rw [if_pos hx] at h; cases h
    · rw [if_neg hx] at h
      by_cases hmem : f last ∈ seen
      · rw [if_pos hmem] at h; cases h
      · rw [if_neg hmem] at h
        refine ih (seen ++ [f last]) (f last) (by simp; omega) ?_ h
        have hcons : first :: (seen ++ [f last]) = (first :: seen) ++ [f last] := by
          simp
        rw [hcons]
        refine List.Nodup.append hnodup (List.nodup_singleton _) ?_
        intro a ha hb
        rcases List.mem_singleton.mp hb with rfl
        rcases List.mem_cons.mp ha with h0 | h0
        · exact hx h0
        · exact hmem h0

/-- A chain under `b = f a` headed by `y` is the iterate list of `y`. -/
theorem chain'_iterates (f : α → α) :
    ∀ (l : List α) (y : α), l.head? = some y →
      List.Chain' (fun a b => (Except.ok (f a) : Except PyErr α) = .ok b) l →
      l = (List.range l.length).map (fun i => f^[i] y) := by
  intro l
  induction l with
  | nil => intro y hy; cases hy
  | cons a tail ih =>
    intro y hy hchain
    cases hy
    cases tail with
    | nil => simp
    | cons b rest =>
      have hstep : b = f a := by
        have := List.chain'_cons.mp hchain
        cases this.1
        rfl
      have htail := ih (f a) (by simp [hstep]) (List.chain'_cons.mp hchain).2
      calc a :: b :: rest
          = a :: List.map (fun i => f^[i] (f a))
              (List.range (b :: rest).length) := by rw [← htail]
        _ = List.map (fun i => f^[i] a)
              (List.range ((b :: rest).length + 1)) := by
            simp only [List.range_succ_eq_map, List.map_cons, List.map_map,
              Function.iterate_zero_apply]
            congr 1
        _ = List.map (fun i => f^[i] a)
              (List.range (a :: b :: rest).length) := by simp

/-- The iterates of the least return time are pairwise distinct. -/
theorem iter_inj_below (f : α → α) (start : α) (k : Nat)
    (hret : f^[k] start = start)
    (hmin : ∀ i, 0 < i → i < k → f^[i] start ≠ start) :
    ∀ i j, i < k → j < k → f^[i] start = f^[j] start → i = j := by
  have key : ∀ i j, i < j → j < k → f^[i] start ≠ f^[j] start := by
    intro i j hij hjk hEq
    have h1 : f^[(k - j) + i] start = start := by
      rw [Function.iterate_add_apply, hEq, ← Function.iterate_add_apply]
      have : k - j + j = k := by omega
      rw [this, hret]
    exact hmin ((k - j) + i) (by omega) (by omega) h1
  intro i j hi hj hEq
  rcases Nat.lt_trichotomy i j with h | h | h
  · exact absurd hEq (key i j h hj)
  · exact h
  · exact absurd hEq.symm (key j i h hi)

end LapTheory

/-- C9 (confirmed): over a finite value domain — the setting of
`face_edges` / `vert_edges`, whose "next" functions range over the mesh's
finitely many edges — `_function_lap` terminates (with fuel
`card α + 1` it never exhausts the fuel): it either returns the list
`[start, f start, f (f start), ...]` cut off exactly at the first
recurrence of `start` (`f^[l.length] start = start` with no earlier
return), or raises the infinite-lap `ManifoldMeshError`; and it raises
precisely when the iteration never returns to `start`, i.e. when some
other value repeats first. -/
theorem C9_function_lap {α : Type} [DecidableEq α] [Fintype α]
    (f : α → α) (start : α) :
    ((∃ l, pureLap f start = .ok l) ∨
      pureLap f start = .error (.manifold "infinite function lap")) ∧
    (∀ l, pureLap f start = .ok l →
      l = (List.range l.length).map (fun i => f^[i] start) ∧
      0 < l.length ∧ f^[l.length] start = start ∧
      ∀ i, 0 < i → i < l.length → f^[i] start ≠ start) ∧
    (pureLap f start = .error (.manifold "infinite function lap") ↔
      ∀ k, 0 < k → f^[k] start ≠ start) := by
  have hOkChar : ∀ l, pureLap f start = .ok l →
      l = (List.range l.length).map (fun i => f^[i] start) ∧
      0 < l.length ∧ f^[l.length] start = start ∧
      ∀ i, 0 < i → i < l.length → f^[i] start ≠ start := by
    intro l hok
    rw [pureLap] at hok
    obtain ⟨⟨hnodup, hchain, h, z, hh, hz, hclose⟩, hhead⟩ :=
      functionLap_ok_cycle _ start _ l hok
    have hiter := chain'_iterates f l start hhead hchain
    have hne : l ≠ [] := by
      intro hnil
      rw [hnil] at hhead
      cases hhead
    have hpos : 0 < l.length := List.length_pos.mpr hne
    have hzval : f z = start := by
      rw [hh] at hhead
      cases hhead
      exact Except.ok.inj hclose
    have hzlast : z = f^[l.length - 1] start := by
      have h1 : l.getLast? = some (f^[l.length - 1] start) := by
        conv_lhs => rw [hiter]
        rw [List.getLast?_eq_getElem?]
        have hlen : ((List.range l.length).map
            (fun i => f^[i] start)).length = l.length := by simp
        rw [hlen]
        rw [List.getElem?_map]
        rw [List.getElem?_range (by omega)]
        rfl
      rw [hz] at h1
      exact (Option.some.inj h1)
    have hret : f^[l.length] start = start := by
      have : l.length - 1 + 1 = l.length := by omega
      rw [← this, Function.iterate_succ_apply', ← hzlast, hzval]
    refine ⟨hiter, hpos, hret, ?_⟩
    intro i hi hilen hbad
    have hmapnodup : ((List.range l.length).map
        (fun i => f^[i] start)).Nodup := by rw [← hiter]; exact hnodup
    have hinjOn := List.inj_on_of_nodup_map hmapnodup
    have : i = 0 := by
      refine hinjOn (List.mem_range.mpr hilen)
        (List.mem_range.mpr (by omega : (0 : Nat) < l.length)) ?_
      rw [hbad, Function.iterate_zero_apply]
    omega
  have hNoFuel : pureLap f start ≠ .error .fuelOut := by
    rw [pureLap, functionLap]
    exact lapAux_pure_no_fuelOut f start (Fintype.card α + 1) [] start
      (by simp) (List.nodup_singleton start)
  have hComplete : (∃ l, pureLap f start = .ok l) ∨
      pureLap f start = .error (.manifold "infinite function lap") := by
    cases hres : pureLap f start with
    | ok l => exact Or.inl ⟨l, rfl⟩
    | error e =>
      have := lapAux_pure_err f start (Fintype.card α + 1) [] start e
        (by rw [pureLap, functionLap] at hres; exact hres)
      rcases this with h | h
      · exact Or.inr (h ▸ rfl)
      · exact absurd (h ▸ hres) hNoFuel
  refine ⟨hComplete, hOkChar, ?_, ?_⟩
  · intro herr k hk hbad
    classical
    have hex : ∃ k, 0 < k ∧ f^[k] start = start := ⟨k, hk, hbad⟩
    set k₀ := Nat.find hex with hk₀def
    obtain ⟨hk₀pos, hk₀ret⟩ := Nat.find_spec hex
    have hk₀min : ∀ i, 0 < i → i < k₀ → f^[i] start ≠ start := by
      intro i hipos hik hbad'
      exact Nat.find_min hex hik ⟨hipos, hbad'⟩
    have hinj := iter_inj_below f start k₀ hk₀ret hk₀min
    set c : List α := (List.range k₀).map (fun i => f^[i] start) with hc
    have hclen : c.length = k₀ := by simp [hc]
    have hcnodup : c.Nodup := by
      refine List.Nodup.map_on ?_ (List.nodup_range _)
      intro i hi j hj hij
      exact hinj i j (List.mem_range.mp hi) (List.mem_range.mp hj) hij
    have hcchain : List.Chain' (fun a b => (Except.ok (f a) : Except PyErr α) = .ok b) c := by
      rw [hc]
      rw [List.chain'_map]
      cases hk : k₀ with
      | zero => simp
      | succ n =>
        rw [List.chain'_range_succ]
        intro m _
        rw [Function.iterate_succ_apply']
    have hchead : c.head? = some start := by
      rw [hc]
      cases hk : k₀ with
      | zero => omega
      | succ n => simp [List.range_succ_eq_map]
    have hclast : c.getLast? = some (f^[k₀ - 1] start) := by
      rw [List.getLast?_eq_getElem?, hclen, hc, List.getElem?_map,
        List.getElem?_range (by omega)]
      rfl
    have hcyc : LapCycle (fun x => (Except.ok (f x) : Except PyErr α)) c := by
      refine ⟨hcnodup, hcchain, start, f^[k₀ - 1] start, hchead, hclast, ?_⟩
      show Except.ok (f (f^[k₀ - 1] start)) = Except.ok start
      have h2 : f (f^[k₀ - 1] start) = f^[k₀ - 1 + 1] start :=
        (Function.iterate_succ_apply' f _ start).symm
      rw [h2, (by omega : k₀ - 1 + 1 = k₀), hk₀ret]
    have hcard : c.length ≤ Fintype.card α + 1 := by
      have := List.Nodup.length_le_card hcnodup
      omega
    have hok : pureLap f start = .ok c :=
      functionLap_of_cycle _ c hcyc start hchead (Fintype.card α + 1) hcard
    rw [hok] at herr
    cases herr
  · intro hno
    rcases hComplete with ⟨l, hok⟩ | herr
    · obtain ⟨_, hpos, hret, _⟩ := hOkChar l hok
      exact absurd hret (hno l.length hpos)
    · exact herr

/-- C9 (witness): the theorem applied to the 3-cycle `x ↦ x + 1` on
`Fin 3` (closing lap) and to `0 ↦ 1, _ ↦ 2` (a lap that repeats `2`
before returning to `0`, hence the infinite-lap error). -/
theorem C9_witness :
    (fun x : Fin 3 => x + 1)^[([(0 : Fin 3), 1, 2]).length] 0 = 0 ∧
    pureLap (fun x : Fin 3 => if x = 0 then 1 else 2) 0 =
      .error (.manifold "infinite function lap") := by
  constructor
  · exact ((C9_function_lap (fun x : Fin 3 => x + 1) 0).2.1 [0, 1, 2]
      (by decide)).2.2.1
  · refine (C9_function_lap _ 0).2.2.mpr ?_
    intro k hk
    cases k with
    | zero => omega
    | succ n =>
      rw [Function.iterate_succ_apply']
      exact (by decide : ∀ x : Fin 3, (if x = 0 then (1 : Fin 3) else 2) ≠ 0) _

/-! ### C8: Numeric attribute merge -/

/-- `numericCollectValues` on sources that all carry a value. -/
theorem collectValues_allSome (vs : List ℚ) :
    numericCollectValues (vs.map (fun v => some ⟨some v⟩)) = .ok vs := by
  induction vs with
  | nil => rfl
  | cons v rest ih => simp [numericCollectValues, NumericAttrib.value, ih]

/-- `numericCollectValues` hits `AttributeError` at the first absent
source. -/
theorem collectValues_firstNone (pre : List ℚ)
    (post : List (Option NumericAttrib)) :
    numericCollectValues (pre.map (fun v => some ⟨some v⟩) ++ none :: post) =
      .error .attrError := by
  induction pre with
  | nil => rfl
  | cons v rest ih => simp [numericCollectValues, NumericAttrib.value, ih]

/-- `numericCollectValues` hits `TypeError` at the first valueless
source. -/
theorem collectValues_firstValueless (pre : List ℚ)
    (post : List (Option NumericAttrib)) :
    numericCollectValues
        (pre.map (fun v => some ⟨some v⟩) ++ some ⟨none⟩ :: post) =
      .error .typeError := by
  induction pre with
  | nil => rfl
  | cons v rest ih => simp [numericCollectValues, NumericAttrib.value, ih]

/-- C8 (counterexample): the claim says a source missing the attribute is
*excluded* from the mean, so merging a valued source with an absent one
should produce that value; `NumericAttrib.merge` instead suppresses the
`AttributeError` and returns `None`. -/
theorem C8_counterexample :
    numericMerge [some ⟨some 4⟩, none] = .ok none ∧
    numericMergeClaimed [some ⟨some 4⟩, none] = some ⟨some 4⟩ ∧
    numericMerge [some ⟨some 4⟩, none] ≠
      .ok (numericMergeClaimed [some ⟨some 4⟩, none]) := by
  have h2 : numericMergeClaimed [some ⟨some 4⟩, none] = some ⟨some 4⟩ := by
    simp only [numericMergeClaimed, List.filterMap, Option.bind]
    norm_num
  exact ⟨by decide, h2, by rw [h2]; decide⟩

/-- C8 (amended): `NumericAttrib.merge` averages *all* sources when every
source is present with a value (`ZeroDivisionError` on an empty source
list); if any source is missing the attribute, the whole merge returns
`None` (the attribute is dropped, sources are not excluded individually);
if the first defective source is present but valueless, merge raises
`TypeError`. -/
theorem C8_amended_theorem :
    (∀ vs : List ℚ, vs ≠ [] →
      numericMerge (vs.map (fun v => some ⟨some v⟩)) =
        .ok (some ⟨some (vs.sum / (vs.length : ℚ))⟩)) ∧
    numericMerge [] = .error .zeroDiv ∧
    (∀ (pre : List ℚ) (post : List (Option NumericAttrib)),
      numericMerge (pre.map (fun v => some ⟨some v⟩) ++ none :: post) =
        .ok none) ∧
    (∀ (pre : List ℚ) (post : List (Option NumericAttrib)),
      numericMerge (pre.map (fun v => some ⟨some v⟩) ++ some ⟨none⟩ :: post) =
        .error .typeError) := by
  refine ⟨?_, rfl, ?_, ?_⟩
  · intro vs hne
    rw [numericMerge, collectValues_allSome]
    cases vs with
    | nil => exact absurd rfl hne
    | cons v rest => rfl
  · intro pre post
    rw [numericMerge, collectValues_firstNone]
  · intro pre post
    rw [numericMerge, collectValues_firstValueless]

/-- C8 (witness): the amended theorem applied to two valued sources. -/
theorem C8_witness :
    numericMerge [some ⟨some 2⟩, some ⟨some 4⟩] = .ok (some ⟨some 3⟩) := by
  have h := C8_amended_theorem.1 [2, 4] (by simp)
  norm_num at h
  simpa using h

/-! ### C10: detached elements -/

/-- C10 (confirmed): a `Vert` whose `edge` pointer was never set returns
empty lists from `edges`, `all_faces`, `faces`, `holes`, `neighbors` and
`0` from `valence`; a `Face` whose `edge` pointer was never set returns
empty lists from `edges` and `verts` and `0` from `sides`; none of these
raises. -/
theorem C10_detached_elements (s : Mesh) (v f : Nat)
    (hv : s.vert? v = some ⟨none⟩) (hf : ∃ b, s.face? f = some ⟨none, b⟩) :
    vertEdges s v = .ok [] ∧ vertAllFaces s v = .ok [] ∧
    vertFaces s v = .ok [] ∧ vertHoles s v = .ok [] ∧
    vertNeighbors s v = .ok [] ∧ vertValence s v = .ok 0 ∧
    faceEdges s f = .ok [] ∧ faceVerts s f = .ok [] ∧
    faceSides s f = .ok 0 := by
  obtain ⟨b, hf⟩ := hf
  have h1 : vertEdges s v = .ok [] := by simp [vertEdges, hv]
  have h2 : vertAllFaces s v = .ok [] := by simp [vertAllFaces, hv]
  have h5 : vertNeighbors s v = .ok [] := by simp [vertNeighbors, hv]
  have h7 : faceEdges s f = .ok [] := by simp [faceEdges, hf]
  have h8 : faceVerts s f = .ok [] := by simp [faceVerts, hf]
  refine ⟨h1, h2, ?_, ?_, h5, ?_, h7, h8, ?_⟩
  · unfold vertFaces; rw [h2]; rfl
  · unfold vertHoles; rw [h2]; rfl
  · unfold vertValence; rw [h1]; rfl
  · unfold faceSides; rw [h8]; rfl

/-- C10 (witness): the theorem applied to a concrete detached vert and
face. -/
theorem C10_witness :
    vertEdges detachedState 0 = .ok [] ∧
    vertAllFaces detachedState 0 = .ok [] ∧
    vertFaces detachedState 0 = .ok [] ∧
    vertHoles detachedState 0 = .ok [] ∧
    vertNeighbors detachedState 0 = .ok [] ∧
    vertValence detachedState 0 = .ok 0 ∧
    faceEdges detachedState 1 = .ok [] ∧
    faceVerts detachedState 1 = .ok [] ∧
    faceSides detachedState 1 = .ok 0 :=
  C10_detached_elements detachedState 0 1 (by decide) ⟨false, by decide⟩

/-! ### C3, C6: broken mutator success paths (code bugs) -/

/-- C3 (code bug, evaluation at the failing input): on the valid triangle
mesh, edge 4 is in the mesh, both endpoints have valence 2 (> 1) and the
two bounding faces differ (3 vs 10), so the claim (and the method's own
docstring and tests) say `remove_edge` succeeds and merges the faces; the
code instead raises `AttributeError` — `self.face_type(*{edge.face,
pair.face})` passes `Face` objects where `set_attrib` requires
`ElemAttribBase` instances — leaving the edge set unchanged but removing
nothing. -/
theorem C3_code_bug_eval :
    validateMesh triMesh = .ok () ∧
    4 ∈ triMesh.edges ∧
    (do vertValence triMesh (← edgeOrig triMesh 4) : Except PyErr Nat) =
      .ok 2 ∧
    (do vertValence triMesh (← edgeDest triMesh 4) : Except PyErr Nat) =
      .ok 2 ∧
    edgeFace triMesh 4 = .ok 3 ∧ edgePair triMesh 4 = .ok 7 ∧
    edgeFace triMesh 7 = .ok 10 ∧
    (removeEdge triMesh 4).errOf = some .attrError ∧
    (removeEdge triMesh 4).stateOf.edges = triMesh.edges := by decide

/-- C6 (code bug, evaluation at the failing input): inserting the first
edge into an empty mesh between two fresh verts passes all four rejection
checks and then executes `edge.update(...)`; neither `Edge` nor
`MeshElementBase` defines `update`, so the call raises `AttributeError`
and the mesh stays empty — the claimed 2-vert/2-edge/1-hole result (and
the repo's own `test_insert_into_empty_mesh`) is unreachable. -/
theorem C6_code_bug_eval :
    emptyPlus2.edges = [] ∧
    (insertEdge emptyPlus2 (.v 0) (.v 1) none).errOf = some .attrError ∧
    (insertEdge emptyPlus2 (.v 0) (.v 1) none).stateOf.edges = [] := by decide

/-! ### C1, C4, C5, C7: counterexamples -/

/-- C1 (counterexample): the construction layer happily builds a mesh from
`fi = {(0,1), (1,0)}` — two 2-gon faces over the same vertex pair — with
no call raising, yet the validator rejects the result (the zero-length
mutator sequence already falsifies the claim).  The failure is robust to
Python's set iteration order: the four half-edges carry only two distinct
`(orig, dest)` pairs, so any order fails either the reachability or the
overlapping-edges check. -/
theorem C1_counterexample :
    (fromVlvi 2 [[0, 1], [1, 0]] []).errOf = none ∧
    validateMesh dupMesh =
      .error (.manifold "not all faces can be reached by jumping over edges") := by
  decide

/-- C4 (counterexample): both endpoints are brand-new verts (the mesh's
verts are 0-2), the mesh is non-empty, and the chosen face is the mesh's
hole (10).  The claim says the "floating edge" rejection fires; the code's
check `face in self.faces` consults the *non-hole* faces only, so no
floating-edge `ManifoldMeshError` is raised (the call instead dies at
`edge.update` with `AttributeError`). -/
theorem C4_counterexample :
    triPlus2.edges ≠ [] ∧
    meshVerts triPlus2 = .ok [1, 2, 0] ∧
    meshHoles triPlus2 = .ok [10] ∧
    (insertEdge triPlus2 (.v 11) (.v 12) (some 10)).errOf = some .attrError ∧
    (insertEdge triPlus2 (.v 11) (.v 12) (some 10)).errOf ≠
      some (.manifold "adding floating edge to existing face") := by decide

/-- C5 (counterexample): (a) collapsing an edge that is absent from the
mesh is not rejected — there is no membership check (`# TODO: raise error
if collapsing missing edge`); on a detached floating edge the call returns
`None` with the mesh unchanged, its internal `remove_edge` failure
swallowed by a bare `except`.  (b) On the valid "pillow" mesh the two
bounding triangles share exactly one further vertex, which does *not*
outnumber the two triangular sides, yet `collapse_edge` raises — the code
tests `len(shared) == tris`, not the claimed `>`. -/
theorem C5_counterexample :
    (13 ∉ triPlusFloat.edges ∧
      collapseEdge triPlusFloat 13 = .ok none triPlusFloat) ∧
    (validateMesh pillowMesh = .ok () ∧ 4 ∈ pillowMesh.edges ∧
      stitchableSpec pillowMesh 4 = .ok true ∧
      (collapseEdge pillowMesh 4).errOf =
        some (.manifold "would create non-manifold mesh")) := by decide

/-- C7 (counterexample): `fi = {(0,1), (0,1,2)}` leaves two unpaired edges
(1→2 and 2→0) whose synthesized reverses have distinct origins, so the
ambiguous-hole error is *not* raised; but the synthesized chain never
closes (edge (2,1)'s dest, vertex 1, is no synthesized origin), and the
`while orig2hole_edge:` loop re-picks the same entry forever — the
construction neither fails with the ambiguity error nor completes
(`c7ChainNeverOk` below shows divergence for every fuel). -/
theorem C7_counterexample :
    (fromVlvi 3 [[0, 1], [0, 1, 2]] []).errOf = some .fuelOut ∧
    (fromVlvi 3 [[0, 1], [0, 1, 2]] []).errOf ≠
      some (.manifold "Ambiguous next in inferred pair edge") := by decide

/-! ### Mutator state lemmas (shared by C1 and C2)

No code path of this mutator draft both returns successfully and touches
the `HalfEdges.edges` set, with the single exception of `collapse_edge`'s
two-edge branch, which empties it.  The lemmas below trace every branch. -/

/-- The `insert_edge` allocations never touch the edge set. -/
theorem insertEdgeSetup_edges (s : Mesh) :
    ((insertEdgeSetup s).2.2).edges = s.edges := rfl

/-- `Vert(...)` never touches the edge set. -/
theorem allocVertState (s : Mesh) (l : List Nat) :
    ((allocVert s l).stateOf).edges = s.edges := by
  unfold allocVert
  split <;> rfl

/-- `Vert(*attributes)` with any positional argument raises
`AttributeError` (`set_attrib` hits `attrib.element = self`). -/
theorem allocVert_nonempty_err (s : Mesh) (l : List Nat) (hl : l ≠ []) :
    ∀ f s', allocVert s l ≠ .ok f s' := by
  intro f s' hEq
  cases l with
  | nil => exact hl rfl
  | cons a t => simp [allocVert] at hEq

/-- `Face(...)`/`hole_type(...)` never touches the edge set. -/
theorem allocFaceState (s : Mesh) (l : List Nat) (b : Bool) :
    ((allocFace s l b).stateOf).edges = s.edges := by
  unfold allocFace
  split <;> rfl

/-- `Face(*attributes)` with any positional argument raises
`AttributeError`. -/
theorem allocFace_nonempty_err (s : Mesh) (l : List Nat) (b : Bool)
    (hl : l ≠ []) : ∀ f s', allocFace s l b ≠ .ok f s' := by
  intro f s' hEq
  cases l with
  | nil => exact hl rfl
  | cons a t => simp [allocFace] at hEq

/-- One `_point_away_from_edge` pass only rewires pointers. -/
theorem pointAwayOne_state (s : Mesh) (a b c : Nat) :
    ((pointAwayOne s a b c).stateOf).edges = s.edges := by
  unfold pointAwayOne
  cases h1 : edgeOrig s c with
  | error e => rfl
  | ok v =>
    dsimp only
    cases h2 : (do edgeNext s (← edgePair s c) : Except PyErr Nat) with
    | error e => rfl
    | ok pn =>
      dsimp only
      cases h3 : edgeFace (setEdgeOrig s pn v) c with
      | error e => rfl
      | ok f =>
        dsimp only
        cases h4 : faceEdges (setEdgeOrig s pn v) f with
        | error e => rfl
        | ok fes => rfl

/-- `_point_away_from_edge` only rewires pointers. -/
theorem pointAway_state (s : Mesh) (e : Nat) :
    ((pointAway s e).stateOf).edges = s.edges := by
  unfold pointAway
  cases hp : edgePair s e with
  | error er => rfl
  | ok pair =>
    dsimp only
    cases h1 : pointAwayOne s e pair e with
    | err er s' =>
      have h := pointAwayOne_state s e pair e
      rw [h1] at h
      exact h
    | ok u s' =>
      have h := pointAwayOne_state s e pair e
      rw [h1] at h
      dsimp only [MRes.stateOf] at h
      dsimp only
      have h2 := pointAwayOne_state s' e pair pair
      rw [h2]
      exact h

/-- `_infer_face` never touches the edge set (it can allocate a `Hole`,
which lives outside it). -/
theorem inferFace_char (s : Mesh) (o d : ERef) :
    ((inferFace s o d).stateOf).edges = s.edges ∧
    ∀ f s', inferFace s o d = .ok f s' → s'.edges = s.edges := by
  unfold inferFace
  by_cases hE : s.edges.isEmpty
  · rw [if_pos hE]
    refine ⟨allocFaceState s [] true, ?_⟩
    intro f s' h
    have ha := allocFaceState s [] true
    rw [h] at ha
    exact ha
  · rw [if_neg hE]
    cases hr : (do
        let ofs ← getElemFaces s o
        let dfs ← getElemFaces s d
        .ok (ofs.filter (fun f => f ∈ dfs)) : Except PyErr (List Nat)) with
    | error er => exact ⟨rfl, fun f s' h => by cases h⟩
    | ok inter =>
      dsimp only
      cases inter with
      | nil => exact ⟨rfl, fun f s' h => by cases h⟩
      | cons a t =>
        cases t with
        | nil => exact ⟨rfl, fun f s' h => by cases h; rfl⟩
        | cons b u => exact ⟨rfl, fun f s' h => by cases h⟩

/-- The `insert_edge` body never returns — every path that passes the
four checks dies at `edge.update(...)` — and never touches the edge
set. -/
theorem insertEdgeBody_char (s : Mesh) (o d : ERef) (face : Nat) :
    ((insertEdgeBody s o d face).stateOf).edges = s.edges ∧
    ∀ a s', insertEdgeBody s o d face ≠ .ok a s' := by
  unfold insertEdgeBody
  cases h1 : faceEdges s face with
  | error er => exact ⟨rfl, fun a s' h => by cases h⟩
  | ok fes =>
    dsimp only
    cases hset : insertEdgeSetup s with
    | mk edge rest =>
      cases rest with
      | mk p s2 =>
        have hs2 : s2.edges = s.edges := by
          have h := insertEdgeSetup_edges s
          rw [hset] at h
          exact h
        dsimp only
        cases hw1 : inferWing s2 o face p with
        | error er => exact ⟨hs2, fun a s' h => by cases h⟩
        | ok w1 =>
          obtain ⟨oV, oPrev⟩ := w1
          dsimp only
          cases hw2 : inferWing s2 d face edge with
          | error er => exact ⟨hs2, fun a s' h => by cases h⟩
          | ok w2 =>
            obtain ⟨dV, pPrev⟩ := w2
            dsimp only
            cases hnx : (do .ok ((← edgeNext s2 oPrev), (← edgeNext s2 pPrev)) :
                Except PyErr (Nat × Nat)) with
            | error er => exact ⟨hs2, fun a s' h => by cases h⟩
            | ok nx =>
              obtain ⟨n1, n2⟩ := nx
              dsimp only
              cases hhe : hasExistingEdge s2 oV dV with
              | error er => exact ⟨hs2, fun a s' h => by cases h⟩
              | ok hit =>
                dsimp only
                cases hit with
                | true => exact ⟨hs2, fun a s' h => by cases h⟩
                | false =>
                  cases hfvmv : (do .ok ((← faceVerts s2 face), (← meshVerts s2)) :
                      Except PyErr (List Nat × List Nat)) with
                  | error er => exact ⟨hs2, fun a s' h => by cases h⟩
                  | ok fvmv =>
                    obtain ⟨fv, mv⟩ := fvmv
                    dsimp only
                    by_cases hc2 : fv.toFinset ∩ {oV, dV} ≠ mv.toFinset ∩ {oV, dV}
                    · rw [if_pos hc2]
                      exact ⟨hs2, fun a s' h => by cases h⟩
                    · rw [if_neg hc2]
                      by_cases hc3 : oV = dV
                      · rw [if_pos hc3]
                        exact ⟨hs2, fun a s' h => by cases h⟩
                      · rw [if_neg hc3]
                        cases hfc : meshFaces s2 with
                        | error er => exact ⟨hs2, fun a s' h => by cases h⟩
                        | ok fcs =>
                          dsimp only
                          by_cases hc4 :
                              fv.toFinset ∩ {oV, dV} = ∅ ∧ face ∈ fcs
                          · rw [if_pos hc4]
                            exact ⟨hs2, fun a s' h => by cases h⟩
                          · rw [if_neg hc4]
                            exact ⟨hs2, fun a s' h => by cases h⟩

/-- `insert_edge` never returns and never touches the edge set. -/
theorem insertEdge_char (s : Mesh) (o d : ERef) (f? : Option Nat) :
    ((insertEdge s o d f?).stateOf).edges = s.edges ∧
    ∀ a s', insertEdge s o d f? ≠ .ok a s' := by
  unfold insertEdge
  cases f? with
  | some f =>
    dsimp only
    exact insertEdgeBody_char s o d f
  | none =>
    dsimp only
    cases hif : inferFace s o d with
    | err er s0 =>
      have h := (inferFace_char s o d).1
      rw [hif] at h
      exact ⟨h, fun a s' hk => by cases hk⟩
    | ok face s0 =>
      have hs0 := (inferFace_char s o d).2 face s0 hif
      dsimp only
      have hb := insertEdgeBody_char s0 o d face
      exact ⟨hb.1.trans hs0, hb.2⟩

/-- `remove_edge` never returns: every path that passes both rejection
checks dies at `self.face_type(*{edge.face, pair.face})`
(`AttributeError`), and no reachable path touches the edge set. -/
theorem removeEdge_char (s : Mesh) (e : Nat) :
    ((removeEdge s e).stateOf).edges = s.edges ∧
    ∀ f s', removeEdge s e ≠ .ok f s' := by
  unfold removeEdge
  by_cases hmem : e ∉ s.edges
  · rw [if_pos hmem]
    exact ⟨rfl, fun f s' h => by cases h⟩
  · rw [if_neg hmem]
    cases h1 : edgePair s e with
    | error er => exact ⟨rfl, fun f s' h => by cases h⟩
    | ok pair =>
      dsimp only
      cases h2 : (do vertValence s (← edgeOrig s e) : Except PyErr Nat) with
      | error er => exact ⟨rfl, fun f s' h => by cases h⟩
      | ok ov =>
        dsimp only
        cases h3 : (if ov ≤ 1 then .ok false else do
            let dv ← vertValence s (← edgeDest s e)
            if dv ≤ 1 then .ok false
            else do
              .ok ((← edgeFace s e) = (← edgeFace s pair) : Bool) :
            Except PyErr Bool) with
        | error er => exact ⟨rfl, fun f s' h => by cases h⟩
        | ok bridge =>
          dsimp only
          cases bridge with
          | true => exact ⟨rfl, fun f s' h => by cases h⟩
          | false =>
            cases h4 : pointAway s e with
            | err er s1 =>
              have hps := pointAway_state s e
              rw [h4] at hps
              exact ⟨hps, fun f s' h => by cases h⟩
            | ok u s1 =>
              have hps := pointAway_state s e
              rw [h4] at hps
              dsimp only [MRes.stateOf] at hps
              dsimp only
              cases h5 : faceEdgesFrom s1 e with
              | error er => exact ⟨hps, fun f s' h => by cases h⟩
              | ok efe =>
                dsimp only
                cases h6 : faceEdgesFrom s1 pair with
                | error er => exact ⟨hps, fun f s' h => by cases h⟩
                | ok pfe =>
                  dsimp only
                  cases h7 : (do .ok ((← edgeFace s1 pair), (← edgeFace s1 e)) :
                      Except PyErr (Nat × Nat)) with
                  | error er => exact ⟨hps, fun f s' h => by cases h⟩
                  | ok pe =>
                    obtain ⟨pf, ef⟩ := pe
                    dsimp only
                    cases h8 : faceIsHole s1 pf with
                    | error er => exact ⟨hps, fun f s' h => by cases h⟩
                    | ok isH =>
                      dsimp only
                      cases h9 : allocFace s1
                          (if ef = pf then [ef] else [ef, pf]) isH with
                      | err er s2 =>
                        have haf := allocFaceState s1
                          (if ef = pf then [ef] else [ef, pf]) isH
                        rw [h9] at haf
                        dsimp only [MRes.stateOf] at haf
                        exact ⟨haf.trans hps, fun f s' h => by cases h⟩
                      | ok nf s2 =>
                        exact (allocFace_nonempty_err s1
                          (if ef = pf then [ef] else [ef, pf]) isH
                          (by split <;> simp) nf s2 h9).elim

/-- The peninsula loop of `remove_vert` returns only on an empty edge
list (its `remove_edge` calls cannot return), and never touches the edge
set. -/
theorem removePeninsulas_char (l : List Nat) (last : Option Nat) (s : Mesh) :
    (((removePeninsulas l last s).stateOf).edges = s.edges) ∧
    ∀ last' s', removePeninsulas l last s = .ok last' s' →
      s' = s ∧ last' = last := by
  cases l with
  | nil => exact ⟨rfl, fun last' s' h => by cases h; exact ⟨rfl, rfl⟩⟩
  | cons e rest =>
    unfold removePeninsulas
    cases hre : removeEdge s e with
    | err er s1 =>
      have h := (removeEdge_char s e).1
      rw [hre] at h
      exact ⟨h, fun last' s' hk => by cases hk⟩
    | ok f s1 => exact ((removeEdge_char s e).2 f s1 hre).elim

/-- The guarded loop of `remove_vert` returns only on an empty edge list,
and never touches the edge set. -/
theorem removeVertLoop_char (l : List Nat) (last : Option Nat) (s : Mesh) :
    (((removeVertLoop l last s).stateOf).edges = s.edges) ∧
    ∀ last' s', removeVertLoop l last s = .ok last' s' →
      s' = s ∧ last' = last := by
  cases l with
  | nil => exact ⟨rfl, fun last' s' h => by cases h; exact ⟨rfl, rfl⟩⟩
  | cons e rest =>
    unfold removeVertLoop
    cases h1 : (do faceIsHole s (← edgeFace s e) : Except PyErr Bool) with
    | error er =>
      cases er <;> exact ⟨rfl, fun last' s' hk => by cases hk⟩
    | ok isH =>
      dsimp only
      cases h2 : (if isH then
            match edgePair s e with
            | .error er => .error er
            | .ok p => .ok p
          else .ok e : Except PyErr Nat) with
      | error er =>
        cases er <;> exact ⟨rfl, fun last' s' hk => by cases hk⟩
      | ok victim =>
        dsimp only
        cases hre : removeEdge s victim with
        | err er s1 =>
          have h := (removeEdge_char s victim).1
          rw [hre] at h
          dsimp only [MRes.stateOf] at h
          cases er <;> exact ⟨h, fun last' s' hk => by cases hk⟩
        | ok f s1 => exact ((removeEdge_char s victim).2 f s1 hre).elim

/-- `remove_vert` never returns (its loops cannot complete a removal;
an untouched vert hits the `UnboundLocalError` on `return face`) and
never touches the edge set. -/
theorem removeVert_char (s : Mesh) (v : Nat) :
    ((removeVert s v).stateOf).edges = s.edges ∧
    ∀ f s', removeVert s v ≠ .ok f s' := by
  unfold removeVert
  cases h1 : vertEdges s v with
  | error er => exact ⟨rfl, fun f s' h => by cases h⟩
  | ok ve =>
    dsimp only
    cases h2 : peninsulaFilter s ve with
    | error er => exact ⟨rfl, fun f s' h => by cases h⟩
    | ok pen =>
      dsimp only
      cases h3 : (do (((ve.dedup.filter (fun x => x ∉ pen))).mapM
          (edgeFace s)) : Except PyErr (List Nat)) with
      | error er => exact ⟨rfl, fun f s' h => by cases h⟩
      | ok vfaces =>
        dsimp only
        by_cases h4 :
            (ve.dedup.filter (fun x => x ∉ pen)).length ≠ vfaces.dedup.length
        · rw [if_pos h4]
          exact ⟨rfl, fun f s' h => by cases h⟩
        · rw [if_neg h4]
          cases h5 : removePeninsulas pen none s with
          | err er s1 =>
            have h := (removePeninsulas_char pen none s).1
            rw [h5] at h
            exact ⟨h, fun f s' hk => by cases hk⟩
          | ok last s1 =>
            obtain ⟨hs1, hl⟩ := (removePeninsulas_char pen none s).2 last s1 h5
            dsimp only
            rw [hs1, hl]
            cases h6 : vertEdges s v with
            | error er => exact ⟨rfl, fun f s' h => by cases h⟩
            | ok ve2 =>
              dsimp only
              cases h7 : removeVertLoop ve2 none s with
              | err er s2 =>
                have h := (removeVertLoop_char ve2 none s).1
                rw [h7] at h
                exact ⟨h, fun f s' hk => by cases hk⟩
              | ok last2 s2 =>
                obtain ⟨hs2, hl2⟩ := (removeVertLoop_char ve2 none s).2 last2 s2 h7
                rw [hl2, hs2]
                exact ⟨rfl, fun f s' hk => by cases hk⟩

/-- The guarded loop of `remove_face` returns only on an empty edge list,
and never touches the edge set. -/
theorem removeFaceLoop_char (l : List Nat) (s : Mesh) :
    (((removeFaceLoop l s).stateOf).edges = s.edges) ∧
    ∀ u s', removeFaceLoop l s = .ok u s' → s' = s := by
  cases l with
  | nil => exact ⟨rfl, fun u s' h => by cases h; rfl⟩
  | cons e rest =>
    unfold removeFaceLoop
    cases hre : removeEdge s e with
    | err er s1 =>
      have h := (removeEdge_char s e).1
      rw [hre] at h
      dsimp only [MRes.stateOf] at h
      cases er <;> exact ⟨h, fun u s' hk => by cases hk⟩
    | ok f s1 => exact ((removeEdge_char s e).2 f s1 hre).elim

/-- `remove_face` never touches the edge set: it returns successfully
only on a face whose edge list is empty (a detached `Face`), doing
nothing. -/
theorem removeFace_char (s : Mesh) (face : Nat) :
    ((removeFace s face).stateOf).edges = s.edges := by
  unfold removeFace
  cases h1 : faceEdges s face with
  | error er => rfl
  | ok edges =>
    dsimp only
    cases h2 : edges.filterM
        (fun x => do .ok (2 < (← vertValence s (← edgeOrig s x)) : Bool)) with
    | error er => rfl
    | ok pb =>
      dsimp only
      cases h3 : edges.mapM (fun x => do edgeFace s (← edgePair s x)) with
      | error er => rfl
      | ok pairFaces =>
        dsimp only
        by_cases h4 : pairFaces.dedup.length < pb.length
        · rw [if_pos h4]
          rfl
        · rw [if_neg h4]
          cases h5 : removeFaceLoop edges s with
          | err er s1 =>
            have h := (removeFaceLoop_char edges s).1
            rw [h5] at h
            exact h
          | ok u s1 =>
            have h := (removeFaceLoop_char edges s).2 u s1 h5
            subst h
            rfl

/-- `split_edge` never returns (`self.vert_type(*{edge.orig, edge.dest})`
raises before anything else) and never touches the edge set. -/
theorem splitEdge_char (s : Mesh) (e : Nat) :
    ((splitEdge s e).stateOf).edges = s.edges ∧
    ∀ f s', splitEdge s e ≠ .ok f s' := by
  unfold splitEdge
  cases h1 : (do .ok ((← edgeOrig s e), (← edgeDest s e)) :
      Except PyErr (Nat × Nat)) with
  | error er => exact ⟨rfl, fun f s' h => by cases h⟩
  | ok od =>
    obtain ⟨o, d⟩ := od
    dsimp only
    cases h2 : allocVert s (if o = d then [o] else [o, d]) with
    | err er s1 =>
      have h := allocVertState s (if o = d then [o] else [o, d])
      rw [h2] at h
      exact ⟨h, fun f s' hk => by cases hk⟩
    | ok nv s1 =>
      exact (allocVert_nonempty_err s (if o = d then [o] else [o, d])
        (by split <;> simp) nv s1 h2).elim

/-- `flip_edge` never returns (its `remove_edge` call cannot return) and
never touches the edge set. -/
theorem flipEdge_char (s : Mesh) (e : Nat) :
    ((flipEdge s e).stateOf).edges = s.edges ∧
    ∀ f s', flipEdge s e ≠ .ok f s' := by
  unfold flipEdge
  cases h1 : edgePair s e with
  | error er => exact ⟨rfl, fun f s' h => by cases h⟩
  | ok pair =>
    dsimp only
    cases h2 : faceEdgesFrom s e with
    | error er => exact ⟨rfl, fun f s' h => by cases h⟩
    | ok fe1 =>
      dsimp only
      cases h3 : (if fe1.length ≠ 3 then .ok true else do
          .ok ((← faceEdgesFrom s pair).length ≠ 3 : Bool) :
          Except PyErr Bool) with
      | error er => exact ⟨rfl, fun f s' h => by cases h⟩
      | ok bad =>
        dsimp only
        cases bad with
        | true => exact ⟨rfl, fun f s' h => by cases h⟩
        | false =>
          cases h4 : (do .ok ((← edgeDest s (← edgeNext s e)),
                (← edgeDest s (← edgeNext s pair))) :
              Except PyErr (Nat × Nat)) with
          | error er => exact ⟨rfl, fun f s' h => by cases h⟩
          | ok nod =>
            obtain ⟨nO, nD⟩ := nod
            dsimp only
            cases h5 : removeEdge s e with
            | err er s1 =>
              have h := (removeEdge_char s e).1
              rw [h5] at h
              exact ⟨h, fun f s' hk => by cases hk⟩
            | ok f1 s1 => exact ((removeEdge_char s e).2 f1 s1 h5).elim

/-- The triangulation loop of `insert_vert` returns only on an empty vert
list (its `insert_edge` calls cannot return) and never touches the edge
set. -/
theorem insertVertLoop_char (face nv : Nat) (l : List Nat) (s : Mesh) :
    (((insertVertLoop face nv l s).stateOf).edges = s.edges) ∧
    ∀ u s', insertVertLoop face nv l s = .ok u s' → s' = s := by
  cases l with
  | nil => exact ⟨rfl, fun u s' h => by cases h; rfl⟩
  | cons v rest =>
    unfold insertVertLoop
    cases hie : insertEdge s (.v v) (.v nv) (some face) with
    | err er s1 =>
      have h := (insertEdge_char s (.v v) (.v nv) (some face)).1
      rw [hie] at h
      dsimp only [MRes.stateOf] at h
      cases er <;> exact ⟨h, fun u s' hk => by cases hk⟩
    | ok a s1 =>
      exact ((insertEdge_char s (.v v) (.v nv) (some face)).2 a s1 hie).elim

/-- `insert_vert` never touches the edge set: it returns successfully
only on a face with no verts (a detached `Face`), allocating one orphan
vert. -/
theorem insertVert_char (s : Mesh) (face : Nat) :
    ((insertVert s face).stateOf).edges = s.edges := by
  unfold insertVert
  cases h1 : faceVerts s face with
  | error er => rfl
  | ok fv =>
    dsimp only
    cases h2 : allocVert s fv with
    | err er s1 =>
      have h := allocVertState s fv
      rw [h2] at h
      exact h
    | ok nv s1 =>
      have hs1 : s1.edges = s.edges := by
        have h := allocVertState s fv
        rw [h2] at h
        exact h
      dsimp only
      cases h3 : faceVerts s1 face with
      | error er => exact hs1
      | ok fv2 =>
        dsimp only
        cases h4 : insertVertLoop face nv fv2 s1 with
        | err er s2 =>
          have h := (insertVertLoop_char face nv fv2 s1).1
          rw [h4] at h
          exact h.trans hs1
        | ok u s2 =>
          have h := (insertVertLoop_char face nv fv2 s1).2 u s2 h4
          subst h
          exact hs1

/-- The neighbor loop of `collapse_edge` returns only without having
removed anything, and never touches the edge set. -/
theorem collapseNbrLoop_char (l : List Nat) : ∀ (s : Mesh),
    (((collapseNbrLoop l s).stateOf).edges = s.edges) ∧
    ∀ u s', collapseNbrLoop l s = .ok u s' → s' = s := by
  induction l with
  | nil => exact fun s => ⟨rfl, fun u s' h => by cases h; rfl⟩
  | cons e rest ih =>
    intro s
    unfold collapseNbrLoop
    cases h1 : (do .ok ((← vertValence s (← edgeDest s e)) = 1 : Bool) :
        Except PyErr Bool) with
    | error er => exact ⟨rfl, fun u s' h => by cases h⟩
    | ok b =>
      cases b with
      | true =>
        cases hre : removeEdge s e with
        | err er s1 =>
          have h := (removeEdge_char s e).1
          rw [hre] at h
          exact ⟨h, fun u s' hk => by cases hk⟩
        | ok f s1 => exact ((removeEdge_char s e).2 f s1 hre).elim
      | false => exact ih s

/-- A successful `collapse_edge` leaves the edge set unchanged (the
swallowed valence-1 branch) or empties the mesh (the two-edge branch);
the general path cannot return (`self.vert_type(edge.orig, edge.dest)`
raises). -/
theorem collapseEdge_ok (s : Mesh) (e : Nat) :
    ∀ r s', collapseEdge s e = .ok r s' →
      s'.edges = s.edges ∨ s'.edges = [] := by
  intro r s' hk
  unfold collapseEdge at hk
  cases h1 : edgePair s e with
  | error er => rw [h1] at hk; cases hk
  | ok pair =>
    rw [h1] at hk
    dsimp only at hk
    cases h2 : isStitchable s e with
    | error er => rw [h2] at hk; cases hk
    | ok safe =>
      rw [h2] at hk
      dsimp only at hk
      cases safe with
      | false => cases hk
      | true =>
        cases h3 : (do vertValence s (← edgeOrig s e) : Except PyErr Nat) with
        | error er => rw [h3] at hk; cases hk
        | ok ov =>
          rw [h3] at hk
          dsimp only at hk
          cases h4 : (if ov = 1 then .ok true else do
              .ok ((← vertValence s (← edgeDest s e)) = 1 : Bool) :
              Except PyErr Bool) with
          | error er => rw [h4] at hk; cases hk
          | ok deg1 =>
            rw [h4] at hk
            dsimp only at hk
            cases deg1 with
            | true =>
              cases h5 : removeEdge s e with
              | err er s1 =>
                rw [h5] at hk
                dsimp only at hk
                cases hk
                have h := (removeEdge_char s e).1
                rw [h5] at h
                exact Or.inl h
              | ok f s1 => exact ((removeEdge_char s e).2 f s1 h5).elim
            | false =>
              cases h6 : (do
                  let o ← edgeOrig s e
                  let ve1 ← vertEdges s o
                  let d ← edgeDest s e
                  let ve2 ← vertEdges s d
                  .ok ((ve1 ++ ve2).dedup) : Except PyErr (List Nat)) with
              | error er => rw [h6] at hk; cases hk
              | ok nbrs =>
                rw [h6] at hk
                dsimp only at hk
                cases h7 : collapseNbrLoop nbrs s with
                | err er s1 => rw [h7] at hk; cases hk
                | ok u s1 =>
                  rw [h7] at hk
                  dsimp only at hk
                  have hs1 := (collapseNbrLoop_char nbrs s).2 u s1 h7
                  rw [hs1] at hk
                  by_cases h8 : s.edges.length = 2
                  · rw [if_pos h8] at hk
                    cases hk
                    exact Or.inr rfl
                  · rw [if_neg h8] at hk
                    cases h9 : (do
                        let afs ← meshAllFaces s
                        let _ ← afs.mapM (fun f => do
                          .ok (← faceEdges s f).length)
                        let _ ← meshVerts s
                        .ok () : Except PyErr Unit) with
                    | error er => rw [h9] at hk; cases hk
                    | ok u2 =>
                      rw [h9] at hk
                      dsimp only at hk
                      cases h10 : pointAway s e with
                      | err er s2 => rw [h10] at hk; cases hk
                      | ok u3 s2 =>
                        rw [h10] at hk
                        dsimp only at hk
                        cases h11 : (do
                            let _ ← s2.edges.mapM (fun x => do
                              .ok ((← edgeOrig s2 x) = (← edgeDest s2 x) : Bool))
                            .ok () : Except PyErr Unit) with
                        | error er => rw [h11] at hk; cases hk
                        | ok u4 =>
                          rw [h11] at hk
                          dsimp only at hk
                          cases h12 : (do .ok ((← edgeOrig s2 e),
                                (← edgeDest s2 e)) :
                              Except PyErr (Nat × Nat)) with
                          | error er => rw [h12] at hk; cases hk
                          | ok od =>
                            obtain ⟨o, d⟩ := od
                            rw [h12] at hk
                            dsimp only at hk
                            cases h13 : allocVert s2 [o, d] with
                            | err er s3 => rw [h13] at hk; cases hk
                            | ok nv s3 =>
                              exact (allocVert_nonempty_err s2 [o, d]
                                (by simp) nv s3 h13).elim

/-- The validator is a no-op on a mesh with no edges. -/
theorem validateMesh_empty (s : Mesh) (h : s.edges = []) :
    validateMesh s = .ok () := by
  unfold validateMesh
  rw [h]
  rfl

/-- Any successful mutator call leaves the edge set unchanged or (only
`collapse_edge`) empties it. -/
theorem runCall_ok (s : Mesh) (c : MutCall) :
    ∀ s', runCall s c = .ok () s' → s'.edges = s.edges ∨ s'.edges = [] := by
  intro s' hk
  cases c with
  | insE o d f? =>
    unfold runCall at hk
    dsimp only at hk
    cases h :insertEdge s o d f? with
    | ok a s1 => exact ((insertEdge_char s o d f?).2 a s1 h).elim
    | err er s1 => rw [h] at hk; cases hk
  | insV f =>
    unfold runCall at hk
    dsimp only at hk
    cases h :insertVert s f with
    | ok a s1 =>
      rw [h] at hk
      dsimp only at hk
      cases hk
      have hh := insertVert_char s f
      rw [h] at hh
      exact Or.inl hh
    | err er s1 => rw [h] at hk; cases hk
  | remE e =>
    unfold runCall at hk
    dsimp only at hk
    cases h :removeEdge s e with
    | ok a s1 => exact ((removeEdge_char s e).2 a s1 h).elim
    | err er s1 => rw [h] at hk; cases hk
  | remV v =>
    unfold runCall at hk
    dsimp only at hk
    cases h :removeVert s v with
    | ok a s1 => exact ((removeVert_char s v).2 a s1 h).elim
    | err er s1 => rw [h] at hk; cases hk
  | remF f =>
    unfold runCall at hk
    dsimp only at hk
    cases h :removeFace s f with
    | ok a s1 =>
      rw [h] at hk
      dsimp only at hk
      cases hk
      have hh := removeFace_char s f
      rw [h] at hh
      exact Or.inl hh
    | err er s1 => rw [h] at hk; cases hk
  | splE e =>
    unfold runCall at hk
    dsimp only at hk
    cases h :splitEdge s e with
    | ok a s1 => exact ((splitEdge_char s e).2 a s1 h).elim
    | err er s1 => rw [h] at hk; cases hk
  | flpE e =>
    unfold runCall at hk
    dsimp only at hk
    cases h :flipEdge s e with
    | ok a s1 => exact ((flipEdge_char s e).2 a s1 h).elim
    | err er s1 => rw [h] at hk; cases hk
  | colE e =>
    unfold runCall at hk
    dsimp only at hk
    cases h :collapseEdge s e with
    | ok a s1 =>
      rw [h] at hk
      dsimp only at hk
      cases hk
      exact collapseEdge_ok s e a s' h
    | err er s1 => rw [h] at hk; cases hk

/-! ### C1 (amended): successful mutator sequences -/

/-- C1 (amended half of the corrected claim): the invariant fails at
construction already (`C1_counterexample`: a built mesh that the
validator rejects before any mutator call); what does hold of this
mutator draft is that a successful sequence of mutator calls never
changes the constructed edge set, except that `collapse_edge` can empty
the mesh — and the validator passes on an empty mesh.  (`insert_edge`,
`remove_edge`, `remove_vert`, `split_edge` and `flip_edge` never return
successfully at all; see the `..._char` lemmas.) -/
theorem C1_amended_theorem :
    ∀ (calls : List MutCall) (s s' : Mesh),
      runSeq calls s = .ok () s' →
      s'.edges = s.edges ∨ (s'.edges = [] ∧ validateMesh s' = .ok ()) := by
  intro calls
  induction calls with
  | nil =>
    intro s s' h
    cases h
    exact Or.inl rfl
  | cons c rest ih =>
    intro s s' h
    unfold runSeq at h
    cases hc : runCall s c with
    | err er s1 => rw [hc] at h; cases h
    | ok u s1 =>
      rw [hc] at h
      dsimp only at h
      obtain ⟨⟩ := u
      rcases ih s1 s' h with h1 | ⟨h1, h2⟩
      · rcases runCall_ok s c s1 hc with h3 | h3
        · exact Or.inl (h1.trans h3)
        · exact Or.inr ⟨h1.trans h3, validateMesh_empty s' (h1.trans h3)⟩
      · exact Or.inr ⟨h1, h2⟩

/-- C1 witness: a one-call sequence (`remove_face` on a detached face of
the valid triangle mesh) succeeds and leaves the edge set unchanged. -/
theorem C1_witness :
    c1WMesh.edges = c1WMesh.edges ∨
      (c1WMesh.edges = [] ∧ validateMesh c1WMesh = .ok ()) :=
  C1_amended_theorem [.remF 11] c1WMesh c1WMesh (by decide)

/-! ### C5 (amended): the stitchability rejection -/

/-- `collapse_edge` raises its non-manifold rejection, with the state
untouched, whenever `_is_stitchable` returns `False` (shared helper). -/
theorem collapse_stitch_reject (s : Mesh) (e : Nat)
    (hb : isStitchable s e = .ok false) :
    collapseEdge s e = .err (.manifold "would create non-manifold mesh") s := by
  cases hp : edgePair s e with
  | error er =>
    have herr : isStitchable s e = .error er := by
      rw [isStitchable, hp]
      rfl
    rw [herr] at hb
    cases hb
  | ok p =>
    unfold collapseEdge
    rw [hp]
    dsimp only
    rw [hb]
    rfl

/-- C5 (amended half of the corrected claim): whenever `_is_stitchable`
computes `False` — the vertices shared by the two bounding faces do not
*equal* (the code tests `==`, not the claimed `>`) the count of triangular
faces among the edge's face and its pair's face — `collapse_edge` raises
`ManifoldMeshError` with the mesh in exactly its pre-call state.  (There
is no membership check at all; the absent-edge half of the correction is
`C5_counterexample`.) -/
theorem C5_amended_theorem (s : Mesh) (e : Nat)
    (hb : isStitchable s e = .ok false) :
    collapseEdge s e = .err (.manifold "would create non-manifold mesh") s :=
  collapse_stitch_reject s e hb

/-- C5 witness: on the pillow mesh, edge 4 is unstitchable and the
rejection fires with the state unchanged. -/
theorem C5_witness :
    isStitchable pillowMesh 4 = .ok false ∧
    collapseEdge pillowMesh 4 =
      .err (.manifold "would create non-manifold mesh") pillowMesh :=
  ⟨by decide, C5_amended_theorem pillowMesh 4 (by decide)⟩

/-! ### C4 (amended): the `insert_edge` rejection cascade -/

/-- The `insert_edge` rejection cascade (shared helper): given the
pre-check reads, the four checks fire in source order, each raising with
the edge set unchanged. -/
theorem insertEdge_cascade (s : Mesh) (origR destR : ERef) (face : Nat)
    (fes : List Nat) (hfe : faceEdges s face = .ok fes)
    (edge p : Nat) (s2 : Mesh) (hsetup : insertEdgeSetup s = (edge, p, s2))
    (oV oPrev dV pPrev : Nat)
    (hw1 : inferWing s2 origR face p = .ok (oV, oPrev))
    (hw2 : inferWing s2 destR face edge = .ok (dV, pPrev))
    (nx : Nat × Nat)
    (hnx : (do .ok ((← edgeNext s2 oPrev), (← edgeNext s2 pPrev)) :
        Except PyErr (Nat × Nat)) = .ok nx)
    (hit : Bool) (hhit : hasExistingEdge s2 oV dV = .ok hit)
    (fv mv : List Nat)
    (hfvmv : (do .ok ((← faceVerts s2 face), (← meshVerts s2)) :
        Except PyErr (List Nat × List Nat)) = .ok (fv, mv))
    (fcs : List Nat) (hfcs : meshFaces s2 = .ok fcs) :
    s2.edges = s.edges ∧
    (hit = true →
      insertEdge s origR destR (some face) =
        .err (.manifold "overwriting existing edge") s2) ∧
    (hit = false →
      fv.toFinset ∩ {oV, dV} ≠ mv.toFinset ∩ {oV, dV} →
      insertEdge s origR destR (some face) =
        .err (.manifold "orig or dest in mesh but not on given face") s2) ∧
    (hit = false →
      fv.toFinset ∩ {oV, dV} = mv.toFinset ∩ {oV, dV} → oV = dV →
      insertEdge s origR destR (some face) =
        .err (.manifold "orig and dest are the same") s2) ∧
    (hit = false →
      fv.toFinset ∩ {oV, dV} = mv.toFinset ∩ {oV, dV} → oV ≠ dV →
      fv.toFinset ∩ {oV, dV} = ∅ → face ∈ fcs →
      insertEdge s origR destR (some face) =
        .err (.manifold "adding floating edge to existing face") s2) := by
  have hE : s2.edges = s.edges := by
    have h2 : s2 = (insertEdgeSetup s).2.2 := by rw [hsetup]
    rw [h2]
    rfl
  have hbody : ∀ (k : MRes Nat),
      (match hasExistingEdge s2 oV dV with
        | .error e => MRes.err e s2
        | .ok hit' =>
          if hit' then .err (.manifold "overwriting existing edge") s2
          else
            match (do .ok ((← faceVerts s2 face), (← meshVerts s2)) :
                Except PyErr (List Nat × List Nat)) with
            | .error e => .err e s2
            | .ok (fv', mv') =>
              let od : Finset Nat := {oV, dV}
              if fv'.toFinset ∩ od ≠ mv'.toFinset ∩ od then
                .err (.manifold "orig or dest in mesh but not on given face") s2
              else if oV = dV then
                .err (.manifold "orig and dest are the same") s2
              else
                match meshFaces s2 with
                | .error e => .err e s2
                | .ok fcs' =>
                  if fv'.toFinset ∩ od = ∅ ∧ face ∈ fcs' then
                    .err (.manifold "adding floating edge to existing face") s2
                  else .err .attrError s2) = k →
      insertEdge s origR destR (some face) = k := by
    intro k hk
    unfold insertEdge
    dsimp only
    unfold insertEdgeBody
    rw [hfe]
    dsimp only
    rw [hsetup]
    dsimp only
    rw [hw1]
    dsimp only
    rw [hw2]
    dsimp only
    rw [hnx]
    dsimp only
    exact hk
  refine ⟨hE, ?_, ?_, ?_, ?_⟩
  · intro h1
    subst h1
    refine hbody _ ?_
    rw [hhit]
    rfl
  · intro h1 h2
    subst h1
    refine hbody _ ?_
    rw [hhit]
    dsimp only
    rw [if_neg Bool.false_ne_true, hfvmv]
    dsimp only
    rw [if_pos h2]
  · intro h1 h2 h3
    subst h1
    refine hbody _ ?_
    rw [hhit]
    dsimp only
    rw [if_neg Bool.false_ne_true, hfvmv]
    dsimp only
    rw [if_neg (fun hne => hne h2), if_pos h3]
  · intro h1 h2 h3 h4 h5
    subst h1
    refine hbody _ ?_
    rw [hhit]
    dsimp only
    rw [if_neg Bool.false_ne_true, hfvmv]
    dsimp only
    rw [if_neg (fun hne => hne h2), if_neg h3, hfcs]
    dsimp only
    rw [if_pos ⟨h4, h5⟩]

/-- C4 (amended): with the pre-check reads succeeding (wing inference,
their `next` lookups, the neighbor test, `face.verts`, `mesh.verts`,
`mesh.faces`), `insert_edge`'s rejection checks fire in source order —
(1) overwriting existing edge, (2) vertex in mesh but off the given face,
(3) same vertex twice, (4) floating edge — each raising with the mesh's
edge set exactly as before the call; check (4) requires the chosen face
to be among the mesh's *non-hole* faces (`face in self.faces`), so a hole
of a non-empty mesh is not guarded by it. -/
theorem C4_amended_theorem (s : Mesh) (origR destR : ERef) (face : Nat)
    (fes : List Nat) (hfe : faceEdges s face = .ok fes)
    (edge p : Nat) (s2 : Mesh) (hsetup : insertEdgeSetup s = (edge, p, s2))
    (oV oPrev dV pPrev : Nat)
    (hw1 : inferWing s2 origR face p = .ok (oV, oPrev))
    (hw2 : inferWing s2 destR face edge = .ok (dV, pPrev))
    (nx : Nat × Nat)
    (hnx : (do .ok ((← edgeNext s2 oPrev), (← edgeNext s2 pPrev)) :
        Except PyErr (Nat × Nat)) = .ok nx)
    (hit : Bool) (hhit : hasExistingEdge s2 oV dV = .ok hit)
    (fv mv : List Nat)
    (hfvmv : (do .ok ((← faceVerts s2 face), (← meshVerts s2)) :
        Except PyErr (List Nat × List Nat)) = .ok (fv, mv))
    (fcs : List Nat) (hfcs : meshFaces s2 = .ok fcs) :
    s2.edges = s.edges ∧
    (hit = true →
      insertEdge s origR destR (some face) =
        .err (.manifold "overwriting existing edge") s2) ∧
    (hit = false →
      fv.toFinset ∩ {oV, dV} ≠ mv.toFinset ∩ {oV, dV} →
      insertEdge s origR destR (some face) =
        .err (.manifold "orig or dest in mesh but not on given face") s2) ∧
    (hit = false →
      fv.toFinset ∩ {oV, dV} = mv.toFinset ∩ {oV, dV} → oV = dV →
      insertEdge s origR destR (some face) =
        .err (.manifold "orig and dest are the same") s2) ∧
    (hit = false →
      fv.toFinset ∩ {oV, dV} = mv.toFinset ∩ {oV, dV} → oV ≠ dV →
      fv.toFinset ∩ {oV, dV} = ∅ → face ∈ fcs →
      insertEdge s origR destR (some face) =
        .err (.manifold "adding floating edge to existing face") s2) :=
  insertEdge_cascade s origR destR face fes hfe edge p s2 hsetup
    oV oPrev dV pPrev hw1 hw2 nx hnx hit hhit fv mv hfvmv fcs hfcs

/-- C4 witness: rejecting a duplicate of the triangle's edge 0→1 fires
check (1) with the edge set unchanged (the three garbage `Edge` objects
live only in the arena, outside the edge set). -/
theorem C4_witness :
    (insertEdgeSetup triMesh).2.2.edges = triMesh.edges ∧
    insertEdge triMesh (.v 0) (.v 1) (some 3) =
      .err (.manifold "overwriting existing edge")
        (insertEdgeSetup triMesh).2.2 := by
  have h := C4_amended_theorem triMesh (.v 0) (.v 1) 3 [6, 4, 5] (by decide)
    12 13 (insertEdgeSetup triMesh).2.2 rfl 0 6 1 4 (by decide) (by decide)
    (4, 5) (by decide) true (by decide) [2, 0, 1] [1, 2, 0] (by decide)
    [3] (by decide)
  exact ⟨h.1, h.2.1 rfl⟩

/-! ### Lookup and traversal frame lemmas (C2)

Freshly allocated elements carry serial numbers at or above `nextSn`, so
under `FieldBound` they are invisible to every read the derived element
sets perform. -/

/-- `lookup` skips a cons with a different key. -/
theorem lookup_cons_ne {β : Type} (a k : Nat) (b : β) (l : List (Nat × β))
    (h : k ≠ a) : ((a, b) :: l).lookup k = l.lookup k := by
  rw [List.lookup_cons]
  have hb : (k == a) = false := beq_eq_false_iff_ne.mpr h
  rw [hb]

/-- `aupdate` at a different key does not change a lookup. -/
theorem lookup_aupdate {β : Type} (l : List (Nat × β)) (e : Nat) (fn : β → β)
    (k : Nat) (h : k ≠ e) : (aupdate l e fn).lookup k = l.lookup k := by
  induction l with
  | nil => rfl
  | cons kv t ih =>
    obtain ⟨a, b⟩ := kv
    unfold aupdate at ih ⊢
    rw [List.map_cons]
    dsimp only
    by_cases ha : a = e
    · subst ha
      rw [if_pos rfl, lookup_cons_ne _ _ _ _ h, lookup_cons_ne _ _ _ _ h]
      exact ih
    · rw [if_neg ha]
      by_cases hk : k = a
      · subst hk
        rw [List.lookup_cons_self, List.lookup_cons_self]
      · rw [lookup_cons_ne _ _ _ _ hk, lookup_cons_ne _ _ _ _ hk]
        exact ih

/-- A successful `lookup` comes from a stored pair. -/
theorem lookup_mem {β : Type} (l : List (Nat × β)) (k : Nat) (b : β)
    (h : l.lookup k = some b) : (k, b) ∈ l := by
  rcases List.lookup_eq_some_iff.mp h with ⟨l₁, l₂, rfl, h2⟩
  exact List.mem_append_right l₁ (List.mem_cons_self _ _)

/-- `mapM.loop` congruence for `Except`. -/
theorem mapMLoop_congr {α β : Type} (f g : α → Except PyErr β) :
    ∀ (l : List α) (acc : List β), (∀ x ∈ l, f x = g x) →
      List.mapM.loop f l acc = List.mapM.loop g l acc := by
  intro l
  induction l with
  | nil => intro acc h; rfl
  | cons a t ih =>
    intro acc h
    have ha : f a = g a := h a (List.mem_cons_self a t)
    simp only [List.mapM.loop]
    rw [ha]
    cases hg : g a with
    | error e => rfl
    | ok b => exact ih (b :: acc) (fun x hx => h x (List.mem_cons_of_mem a hx))

/-- `mapM` congruence for `Except`. -/
theorem exceptMapM_congr {α β : Type} (f g : α → Except PyErr β)
    (l : List α) (h : ∀ x ∈ l, f x = g x) : l.mapM f = l.mapM g :=
  mapMLoop_congr f g l [] h

/-- Every element of a successful `mapM.loop` result comes from the
accumulator or from a successful application. -/
theorem mapMLoop_ok_mem {α β : Type} (f : α → Except PyErr β) :
    ∀ (l : List α) (acc ys : List β),
      List.mapM.loop f l acc = .ok ys →
      ∀ y ∈ ys, y ∈ acc ∨ ∃ x ∈ l, f x = .ok y := by
  intro l
  induction l with
  | nil =>
    intro acc ys h y hy
    simp only [List.mapM.loop] at h
    cases h
    exact Or.inl (List.mem_reverse.mp hy)
  | cons a t ih =>
    intro acc ys h y hy
    simp only [List.mapM.loop] at h
    cases hf : f a with
    | error e => rw [hf] at h; cases h
    | ok b =>
      rw [hf] at h
      have h' : List.mapM.loop f t (b :: acc) = .ok ys := h
      rcases ih (b :: acc) ys h' y hy with hacc | ⟨x, hx, hfx⟩
      · rcases List.mem_cons.mp hacc with rfl | hacc2
        · exact Or.inr ⟨a, List.mem_cons_self a t, hf⟩
        · exact Or.inl hacc2
      · exact Or.inr ⟨x, List.mem_cons_of_mem a hx, hfx⟩

/-- Every element of a successful `mapM` result comes from a successful
application. -/
theorem exceptMapM_ok_mem {α β : Type} (f : α → Except PyErr β)
    (l : List α) (ys : List β) (h : l.mapM f = .ok ys) :
    ∀ y ∈ ys, ∃ x ∈ l, f x = .ok y := by
  intro y hy
  rcases mapMLoop_ok_mem f l [] ys h y hy with habs | hgood
  · cases habs
  · exact hgood

/-- `filterAuxM` congruence for `Except`. -/
theorem filterAuxM_congr {α : Type} (p q : α → Except PyErr Bool) :
    ∀ (l acc : List α), (∀ x ∈ l, p x = q x) →
      List.filterAuxM p l acc = List.filterAuxM q l acc := by
  intro l
  induction l with
  | nil => intro acc h; rfl
  | cons a t ih =>
    intro acc h
    have ha : p a = q a := h a (List.mem_cons_self a t)
    simp only [List.filterAuxM]
    rw [ha]
    cases hq : q a with
    | error e => rfl
    | ok b =>
      exact ih (cond b (a :: acc) acc)
        (fun x hx => h x (List.mem_cons_of_mem a hx))

/-- `filterM` congruence for `Except`. -/
theorem exceptFilterM_congr {α : Type} (p q : α → Except PyErr Bool)
    (l : List α) (h : ∀ x ∈ l, p x = q x) : l.filterM p = l.filterM q := by
  unfold List.filterM
  rw [filterAuxM_congr p q l [] h]

/-- `edge.orig` reads only the edge record. -/
theorem edgeOrig_frame (s s' : Mesh) (e : Nat)
    (h : s'.edge? e = s.edge? e) : edgeOrig s' e = edgeOrig s e := by
  unfold edgeOrig
  rw [h]

/-- `edge.face` reads only the edge record. -/
theorem edgeFace_frame (s s' : Mesh) (e : Nat)
    (h : s'.edge? e = s.edge? e) : edgeFace s' e = edgeFace s e := by
  unfold edgeFace
  rw [h]

/-- `face.is_hole` reads only the face record. -/
theorem faceIsHole_frame (s s' : Mesh) (f : Nat)
    (h : s'.face? f = s.face? f) : faceIsHole s' f = faceIsHole s f := by
  unfold faceIsHole
  rw [h]

/-- Under `FieldBound`, a stored face pointer is below `nextSn`. -/
theorem fieldBound_face_lt (s : Mesh) (hfb : FieldBound s) (e f : Nat)
    (h : edgeFace s e = .ok f) : f < s.nextSn := by
  unfold edgeFace at h
  cases hl : s.edge? e with
  | none => rw [hl] at h; cases h
  | some r =>
    rw [hl] at h
    dsimp only at h
    cases hr : r.face with
    | none => rw [hr] at h; cases h
    | some v =>
      rw [hr] at h
      cases h
      have hmem : (e, r) ∈ s.edgeA := lookup_mem s.edgeA e r hl
      have hb := (hfb.2.1 (e, r) hmem).2.2.2.1
      exact hb f (by rw [hr]; simp)

/-- The derived vertex set only reads edge records of mesh edges. -/
theorem meshVerts_frame (s s' : Mesh) (hfb : FieldBound s)
    (hedges : s'.edges = s.edges)
    (hE : ∀ k, k < s.nextSn → s'.edge? k = s.edge? k) :
    meshVerts s' = meshVerts s := by
  unfold meshVerts
  rw [hedges, exceptMapM_congr (edgeOrig s') (edgeOrig s) s.edges
    (fun e he => edgeOrig_frame s s' e (hE e (hfb.2.2.2 e he)))]

/-- The derived all-faces set only reads edge records of mesh edges. -/
theorem meshAllFaces_frame (s s' : Mesh) (hfb : FieldBound s)
    (hedges : s'.edges = s.edges)
    (hE : ∀ k, k < s.nextSn → s'.edge? k = s.edge? k) :
    meshAllFaces s' = meshAllFaces s := by
  unfold meshAllFaces
  rw [hedges, exceptMapM_congr (edgeFace s') (edgeFace s) s.edges
    (fun e he => edgeFace_frame s s' e (hE e (hfb.2.2.2 e he)))]

/-- Members of the derived all-faces set are below `nextSn`. -/
theorem meshAllFaces_mem_lt (s : Mesh) (hfb : FieldBound s)
    (afs : List Nat) (haf : meshAllFaces s = .ok afs) :
    ∀ f ∈ afs, f < s.nextSn := by
  intro f hf
  unfold meshAllFaces at haf
  cases hm : s.edges.mapM (edgeFace s) with
  | error er => rw [hm] at haf; cases haf
  | ok fs =>
    rw [hm] at haf
    cases haf
    rcases exceptMapM_ok_mem (edgeFace s) s.edges fs hm f
      (List.mem_dedup.mp hf) with ⟨e, he, hef⟩
    exact fieldBound_face_lt s hfb e f hef

/-- The derived face set is unchanged by fresh allocations. -/
theorem meshFaces_frame (s s' : Mesh) (hfb : FieldBound s)
    (hedges : s'.edges = s.edges)
    (hE : ∀ k, k < s.nextSn → s'.edge? k = s.edge? k)
    (hF : ∀ k, k < s.nextSn → s'.face? k = s.face? k) :
    meshFaces s' = meshFaces s := by
  unfold meshFaces
  rw [meshAllFaces_frame s s' hfb hedges hE]
  cases haf : meshAllFaces s with
  | error er => rfl
  | ok afs =>
    have hlt := meshAllFaces_mem_lt s hfb afs haf
    exact exceptFilterM_congr
      (fun f => do .ok (!(← faceIsHole s' f)))
      (fun f => do .ok (!(← faceIsHole s f))) afs (fun f hf => by
        dsimp only
        rw [faceIsHole_frame s s' f (hF f (hlt f hf))])

/-- The derived hole set is unchanged by fresh allocations. -/
theorem meshHoles_frame (s s' : Mesh) (hfb : FieldBound s)
    (hedges : s'.edges = s.edges)
    (hE : ∀ k, k < s.nextSn → s'.edge? k = s.edge? k)
    (hF : ∀ k, k < s.nextSn → s'.face? k = s.face? k) :
    meshHoles s' = meshHoles s := by
  unfold meshHoles
  rw [meshAllFaces_frame s s' hfb hedges hE]
  cases haf : meshAllFaces s with
  | error er => rfl
  | ok afs =>
    have hlt := meshAllFaces_mem_lt s hfb afs haf
    exact exceptFilterM_congr
      (fun f => faceIsHole s' f) (fun f => faceIsHole s f) afs (fun f hf => by
        dsimp only
        rw [faceIsHole_frame s s' f (hF f (hlt f hf))])

/-- The `insert_edge` allocations are invisible below `nextSn`. -/
theorem insertEdgeSetup_frame (s : Mesh) (k : Nat) (hk : k < s.nextSn) :
    ((insertEdgeSetup s).2.2).vert? k = s.vert? k ∧
    ((insertEdgeSetup s).2.2).edge? k = s.edge? k ∧
    ((insertEdgeSetup s).2.2).face? k = s.face? k := by
  refine ⟨rfl, ?_, rfl⟩
  unfold Mesh.edge? insertEdgeSetup allocEdge setEdgeNext setEdgePair
  dsimp only
  rw [lookup_aupdate _ _ _ k (by omega), lookup_aupdate _ _ _ k (by omega),
    lookup_aupdate _ _ _ k (by omega), lookup_aupdate _ _ _ k (by omega),
    lookup_aupdate _ _ _ k (by omega), lookup_aupdate _ _ _ k (by omega)]
  rw [lookup_cons_ne _ _ _ _ (by omega)]
  rw [lookup_aupdate _ _ _ k (by omega)]
  rw [lookup_cons_ne _ _ _ _ (by omega), lookup_cons_ne _ _ _ _ (by omega)]

/-! ### C2: rejected calls and the mesh state -/

/-- C2 (counterexample): `remove_edge(3)` on `c2Mesh` passes both of its
rejection checks, mutates inside `_point_away_from_edge` (edge 5's `orig`
is repointed from vert 2 to vert 0), and only then raises the
*recoverable* `ManifoldMeshError` of kind "infinite function lap" from
the `edge.face_edges` navigation lap — the call raises a recoverable
`ManifoldMeshError`, yet vert 2 has vanished from the derived vertex set.
(On a mesh the validator accepts, the laps cannot fail this way; the
guarantee breaks only on an already-corrupted mesh, which Python's
freely assignable mirrored properties allow callers to build.) -/
theorem C2_counterexample :
    (removeEdge c2Mesh 3).errOf = some (.manifold "infinite function lap") ∧
    (removeEdge c2Mesh 3).stateOf.edges = c2Mesh.edges ∧
    meshVerts c2Mesh = .ok [0, 1, 2] ∧
    meshVerts (removeEdge c2Mesh 3).stateOf = .ok [1, 0] := by decide

/-- C2 (amended): every *explicit rejection check* of the six mutators
fires before any mutation — the missing-edge and bridge checks of
`remove_edge`, the non-manifold check of `remove_vert`, the bridge check
of `remove_face`, the triangle check of `flip_edge`, and the
stitchability check of `collapse_edge` raise with the state exactly `s`;
`insert_edge`'s four checks raise after allocating three garbage `Edge`
objects that never enter the edge set and, under the serial-number bound
`FieldBound`, leave the derived vertex, face and hole sets unchanged as
well.  (The guarantee is for the checks, not for every recoverable
`ManifoldMeshError`: see `C2_counterexample`.) -/
theorem C2_amended_theorem :
    (∀ (s : Mesh) (e : Nat), e ∉ s.edges →
      removeEdge s e = .err (.manifold "edge does not exist in mesh") s) ∧
    (∀ (s : Mesh) (e pair ov : Nat), e ∈ s.edges → edgePair s e = .ok pair →
      (do vertValence s (← edgeOrig s e) : Except PyErr Nat) = .ok ov →
      (if ov ≤ 1 then .ok false else do
          let dv ← vertValence s (← edgeDest s e)
          if dv ≤ 1 then .ok false
          else do
            .ok ((← edgeFace s e) = (← edgeFace s pair) : Bool) :
          Except PyErr Bool) = .ok true →
      removeEdge s e = .err (.manifold "would create non-manifold mesh") s) ∧
    (∀ (s : Mesh) (v : Nat) (ve pen vfaces : List Nat),
      vertEdges s v = .ok ve → peninsulaFilter s ve = .ok pen →
      (do (((ve.dedup.filter (fun x => x ∉ pen))).mapM (edgeFace s)) :
          Except PyErr (List Nat)) = .ok vfaces →
      (ve.dedup.filter (fun x => x ∉ pen)).length ≠ vfaces.dedup.length →
      removeVert s v =
        .err (.manifold "removing vert would create non-manifold mesh") s) ∧
    (∀ (s : Mesh) (face : Nat) (edges pb pairFaces : List Nat),
      faceEdges s face = .ok edges →
      edges.filterM (fun x => do
        .ok (2 < (← vertValence s (← edgeOrig s x)) : Bool)) = .ok pb →
      edges.mapM (fun x => do edgeFace s (← edgePair s x)) = .ok pairFaces →
      pairFaces.dedup.length < pb.length →
      removeFace s face =
        .err
          (.manifold
            "Removing this face would create non-manifold mesh. One of this faces's edges is a bridge edge.")
          s) ∧
    (∀ (s : Mesh) (e pair : Nat) (fe1 : List Nat),
      edgePair s e = .ok pair → faceEdgesFrom s e = .ok fe1 →
      (if fe1.length ≠ 3 then .ok true else do
          .ok ((← faceEdgesFrom s pair).length ≠ 3 : Bool) :
          Except PyErr Bool) = .ok true →
      flipEdge s e =
        .err (.valueError "can only flip an edge between two triangles") s) ∧
    (∀ (s : Mesh) (e : Nat), isStitchable s e = .ok false →
      collapseEdge s e = .err (.manifold "would create non-manifold mesh") s) ∧
    (∀ (s : Mesh) (origR destR : ERef) (face : Nat) (fes : List Nat)
        (edge p : Nat) (s2 : Mesh) (oV oPrev dV pPrev : Nat) (nx : Nat × Nat)
        (hit : Bool) (fv mv fcs : List Nat),
      FieldBound s →
      faceEdges s face = .ok fes →
      insertEdgeSetup s = (edge, p, s2) →
      inferWing s2 origR face p = .ok (oV, oPrev) →
      inferWing s2 destR face edge = .ok (dV, pPrev) →
      (do .ok ((← edgeNext s2 oPrev), (← edgeNext s2 pPrev)) :
          Except PyErr (Nat × Nat)) = .ok nx →
      hasExistingEdge s2 oV dV = .ok hit →
      (do .ok ((← faceVerts s2 face), (← meshVerts s2)) :
          Except PyErr (List Nat × List Nat)) = .ok (fv, mv) →
      meshFaces s2 = .ok fcs →
      s2.edges = s.edges ∧ meshVerts s2 = meshVerts s ∧
      meshFaces s2 = meshFaces s ∧ meshHoles s2 = meshHoles s ∧
      (hit = true → insertEdge s origR destR (some face) =
        .err (.manifold "overwriting existing edge") s2) ∧
      (hit = false → fv.toFinset ∩ {oV, dV} ≠ mv.toFinset ∩ {oV, dV} →
        insertEdge s origR destR (some face) =
          .err (.manifold "orig or dest in mesh but not on given face") s2) ∧
      (hit = false → fv.toFinset ∩ {oV, dV} = mv.toFinset ∩ {oV, dV} →
        oV = dV → insertEdge s origR destR (some face) =
          .err (.manifold "orig and dest are the same") s2) ∧
      (hit = false → fv.toFinset ∩ {oV, dV} = mv.toFinset ∩ {oV, dV} →
        oV ≠ dV → fv.toFinset ∩ {oV, dV} = ∅ → face ∈ fcs →
        insertEdge s origR destR (some face) =
          .err (.manifold "adding floating edge to existing face") s2)) := by
  refine ⟨?_, ?_, ?_, ?_, ?_, ?_, ?_⟩
  · intro s e hmem
    unfold removeEdge
    rw [if_pos hmem]
  · intro s e pair ov hmem hpair hov hbool
    unfold removeEdge
    rw [if_neg (fun hn => hn hmem), hpair]
    dsimp only
    rw [hov]
    dsimp only
    rw [hbool]
    rfl
  · intro s v ve pen vfaces hve hpen hmap hne
    unfold removeVert
    rw [hve]
    dsimp only
    rw [hpen]
    dsimp only
    rw [hmap]
    dsimp only
    rw [if_pos hne]
  · intro s face edges pb pairFaces hfe hfil hmap hlt
    unfold removeFace
    rw [hfe]
    dsimp only
    rw [hfil]
    dsimp only
    rw [hmap]
    dsimp only
    rw [if_pos hlt]
  · intro s e pair fe1 hp hfe1 hbad
    unfold flipEdge
    rw [hp]
    dsimp only
    rw [hfe1]
    dsimp only
    rw [hbad]
    rfl
  · exact fun s e hb => collapse_stitch_reject s e hb
  · intro s origR destR face fes edge p s2 oV oPrev dV pPrev nx hit fv mv fcs
      hfb hfe hsetup hw1 hw2 hnx hhit hfvmv hfcs
    have hc := insertEdge_cascade s origR destR face fes hfe edge p s2 hsetup
      oV oPrev dV pPrev hw1 hw2 nx hnx hit hhit fv mv hfvmv fcs hfcs
    have hs2 : s2 = (insertEdgeSetup s).2.2 := by rw [hsetup]
    have hE : ∀ k, k < s.nextSn → s2.edge? k = s.edge? k := by
      intro k hk
      rw [hs2]
      exact (insertEdgeSetup_frame s k hk).2.1
    have hF : ∀ k, k < s.nextSn → s2.face? k = s.face? k := by
      intro k hk
      rw [hs2]
      exact (insertEdgeSetup_frame s k hk).2.2
    exact ⟨hc.1, meshVerts_frame s s2 hfb hc.1 hE,
      meshFaces_frame s s2 hfb hc.1 hE hF,
      meshHoles_frame s s2 hfb hc.1 hE hF,
      hc.2.1, hc.2.2.1, hc.2.2.2.1, hc.2.2.2.2⟩

/-- C2 witness: (a) `remove_edge` on the detached edge 13 of the
triangle-plus-floating-pair mesh fires the missing-edge check with the
state untouched; (b) inserting a duplicate of the triangle's edge 0→1
fires the overwriting check with the derived vertex set unchanged. -/
theorem C2_witness :
    (removeEdge triPlusFloat 13 =
      .err (.manifold "edge does not exist in mesh") triPlusFloat) ∧
    (insertEdge triMesh (.v 0) (.v 1) (some 3) =
        .err (.manifold "overwriting existing edge")
          (insertEdgeSetup triMesh).2.2 ∧
      meshVerts (insertEdgeSetup triMesh).2.2 = meshVerts triMesh) := by
  constructor
  · exact C2_amended_theorem.1 triPlusFloat 13 (by decide)
  · have h := C2_amended_theorem.2.2.2.2.2.2 triMesh (.v 0) (.v 1) 3
      [6, 4, 5] 12 13 (insertEdgeSetup triMesh).2.2 0 6 1 4 (4, 5) true
      [2, 0, 1] [1, 2, 0] [3] (by decide) (by decide) rfl (by decide)
      (by decide) (by decide) (by decide) (by decide) (by decide)
    exact ⟨h.2.2.2.2.1 rfl, h.2.1⟩

/-! ### Record monotonicity (C7) -/

/-- `aupdate` at the looked-up key applies the record function. -/
theorem lookup_aupdate_self {β : Type} (l : List (Nat × β)) (k : Nat)
    (fn : β → β) : (aupdate l k fn).lookup k = (l.lookup k).map fn := by
  induction l with
  | nil => rfl
  | cons kv t ih =>
    obtain ⟨a, b⟩ := kv
    unfold aupdate at ih ⊢
    rw [List.map_cons]
    dsimp only
    by_cases ha : a = k
    · subst ha
      rw [if_pos rfl, List.lookup_cons_self, List.lookup_cons_self]
      rfl
    · rw [if_neg ha, lookup_cons_ne _ _ _ _ (fun h2 => ha h2.symm),
        lookup_cons_ne _ _ _ _ (fun h2 => ha h2.symm)]
      exact ih

theorem edgeMono_refl (s : Mesh) : EdgeMono s s :=
  fun e r h => ⟨r, h, id, id, id, id⟩

theorem edgeMono_trans {s1 s2 s3 : Mesh} (h1 : EdgeMono s1 s2)
    (h2 : EdgeMono s2 s3) : EdgeMono s1 s3 := by
  intro e r h
  rcases h1 e r h with ⟨r2, hr2, ho, hp, hf, hn⟩
  rcases h2 e r2 hr2 with ⟨r3, hr3, ho2, hp2, hf2, hn2⟩
  exact ⟨r3, hr3, fun a => ho2 (ho a), fun a => hp2 (hp a),
    fun a => hf2 (hf a), fun a => hn2 (hn a)⟩

/-- A monotone per-record update is `EdgeMono`. -/
theorem edgeMono_of_aupdate (s s' : Mesh) (k : Nat) (fn : EdgeRec → EdgeRec)
    (heq : s'.edgeA = aupdate s.edgeA k fn)
    (hfn : ∀ r, (r.orig.isSome = true → (fn r).orig.isSome = true) ∧
      (r.pair.isSome = true → (fn r).pair.isSome = true) ∧
      (r.face.isSome = true → (fn r).face.isSome = true) ∧
      (r.next.isSome = true → (fn r).next.isSome = true)) :
    EdgeMono s s' := by
  intro e r h
  unfold Mesh.edge? at h ⊢
  rw [heq]
  by_cases hk : e = k
  · subst hk
    rw [lookup_aupdate_self, h]
    exact ⟨fn r, rfl, (hfn r).1, (hfn r).2.1, (hfn r).2.2.1, (hfn r).2.2.2⟩
  · rw [lookup_aupdate _ _ _ _ hk, h]
    exact ⟨r, rfl, id, id, id, id⟩

theorem edgeMono_setEdgeOrig (s : Mesh) (e v : Nat) :
    EdgeMono s (setEdgeOrig s e v) :=
  edgeMono_of_aupdate s _ e (fun r => { r with orig := some v }) rfl
    (fun r => ⟨fun _ => rfl, id, id, id⟩)

theorem edgeMono_setEdgeNext (s : Mesh) (e n : Nat) :
    EdgeMono s (setEdgeNext s e n) :=
  edgeMono_of_aupdate s _ e (fun r => { r with next := some n }) rfl
    (fun r => ⟨id, id, id, fun _ => rfl⟩)

theorem edgeMono_setEdgeFace (s : Mesh) (e f : Nat) :
    EdgeMono s (setEdgeFace s e f) :=
  edgeMono_of_aupdate s _ e (fun r => { r with face := some f }) rfl
    (fun r => ⟨id, id, fun _ => rfl, id⟩)

theorem edgeMono_setEdgePair (s : Mesh) (e p : Nat) :
    EdgeMono s (setEdgePair s e p) := by
  refine @edgeMono_trans s
    { s with edgeA := aupdate s.edgeA e (fun r => { r with pair := some p }) }
    (setEdgePair s e p) ?_ ?_
  · exact edgeMono_of_aupdate s _ e (fun r => { r with pair := some p }) rfl
      (fun r => ⟨id, fun _ => rfl, id, id⟩)
  · exact edgeMono_of_aupdate _ _ p (fun r => { r with pair := some e }) rfl
      (fun r => ⟨id, fun _ => rfl, id, id⟩)

/-- Allocating a face leaves every edge record untouched. -/
theorem edgeMono_allocFaceState (s : Mesh) (l : List Nat) (b : Bool) :
    EdgeMono s ((allocFace s l b).stateOf) := by
  intro e r h
  refine ⟨r, ?_, id, id, id, id⟩
  unfold allocFace
  split <;> exact h

/-- Allocating an edge leaves records at other keys untouched. -/
theorem edge_lookup_allocEdge (s : Mesh) (e : Nat) (h : e ≠ s.nextSn) :
    ((allocEdge s).2).edge? e = s.edge? e :=
  lookup_cons_ne _ _ _ _ h

theorem recSome_mono {s s' : Mesh} (h : EdgeMono s s') (e : Nat)
    (hr : recSome s e = true) : recSome s' e = true := by
  unfold recSome at hr ⊢
  cases hl : s.edge? e with
  | none => rw [hl] at hr; cases hr
  | some r =>
    rcases h e r hl with ⟨r', hr', _, _, _, _⟩
    rw [hr']
    rfl

theorem pairSome_mono {s s' : Mesh} (h : EdgeMono s s') (e : Nat)
    (hp : pairSome s e = true) : pairSome s' e = true := by
  unfold pairSome at hp ⊢
  cases hl : s.edge? e with
  | none => rw [hl] at hp; cases hp
  | some r =>
    rw [hl] at hp
    rcases h e r hl with ⟨r', hr', _, hp2, _, _⟩
    rw [hr']
    exact hp2 hp

theorem faceSome_mono {s s' : Mesh} (h : EdgeMono s s') (e : Nat)
    (hf : faceSome s e = true) : faceSome s' e = true := by
  unfold faceSome at hf ⊢
  cases hl : s.edge? e with
  | none => rw [hl] at hf; cases hf
  | some r =>
    rw [hl] at hf
    rcases h e r hl with ⟨r', hr', _, _, hf2, _⟩
    rw [hr']
    exact hf2 hf

/-- `edge.face = f` sets the `face` field of an existing record. -/
theorem faceSome_setEdgeFace_self (s : Mesh) (a b : Nat)
    (h : recSome s a = true) : faceSome (setEdgeFace s a b) a = true := by
  unfold recSome at h
  unfold faceSome setEdgeFace Mesh.edge?
  dsimp only
  rw [lookup_aupdate_self]
  cases hl : s.edgeA.lookup a with
  | none => rw [show s.edge? a = none from hl] at h; cases h
  | some r => rfl

/-- `edge.pair = p` sets the `pair` field of both existing records. -/
theorem pairSome_setEdgePair_right (s : Mesh) (a b : Nat)
    (h : recSome s b = true) : pairSome (setEdgePair s a b) b = true := by
  unfold recSome at h
  unfold pairSome setEdgePair Mesh.edge?
  dsimp only
  rw [lookup_aupdate_self]
  cases hl : (aupdate s.edgeA a fun r => { r with pair := some b }).lookup b with
  | none =>
    exfalso
    by_cases hab : b = a
    · subst hab
      rw [lookup_aupdate_self] at hl
      cases hl2 : s.edgeA.lookup b with
      | none => rw [show s.edge? b = none from hl2] at h; cases h
      | some r => rw [hl2] at hl; cases hl
    · rw [lookup_aupdate _ _ _ _ hab] at hl
      rw [show s.edge? b = none from hl] at h
      cases h
  | some r => rfl

theorem pairSome_setEdgePair_left (s : Mesh) (a b : Nat)
    (h : recSome s a = true) : pairSome (setEdgePair s a b) a = true := by
  unfold recSome at h
  unfold pairSome setEdgePair Mesh.edge?
  dsimp only
  by_cases hab : a = b
  · subst hab
    rw [lookup_aupdate_self, lookup_aupdate_self]
    cases hl : s.edgeA.lookup a with
    | none => rw [show s.edge? a = none from hl] at h; cases h
    | some r => rfl
  · rw [lookup_aupdate _ _ _ _ hab, lookup_aupdate_self]
    cases hl : s.edgeA.lookup a with
    | none => rw [show s.edge? a = none from hl] at h; cases h
    | some r => rfl

/-- The edge reads are blind to `edge.face = f` writes on other fields:
`orig`. -/
theorem edgeOrig_setEdgeFace (s : Mesh) (a b : Nat) :
    edgeOrig (setEdgeFace s a b) = edgeOrig s := by
  funext k
  unfold edgeOrig Mesh.edge? setEdgeFace
  dsimp only
  by_cases hk : k = a
  · subst hk
    rw [lookup_aupdate_self]
    cases s.edgeA.lookup k <;> rfl
  · rw [lookup_aupdate _ _ _ _ hk]

/-- ... `pair`. -/
theorem edgePair_setEdgeFace (s : Mesh) (a b : Nat) :
    edgePair (setEdgeFace s a b) = edgePair s := by
  funext k
  unfold edgePair Mesh.edge? setEdgeFace
  dsimp only
  by_cases hk : k = a
  · subst hk
    rw [lookup_aupdate_self]
    cases s.edgeA.lookup k <;> rfl
  · rw [lookup_aupdate _ _ _ _ hk]

/-- ... `next`. -/
theorem edgeNext_setEdgeFace (s : Mesh) (a b : Nat) :
    edgeNext (setEdgeFace s a b) = edgeNext s := by
  funext k
  unfold edgeNext Mesh.edge? setEdgeFace
  dsimp only
  by_cases hk : k = a
  · subst hk
    rw [lookup_aupdate_self]
    cases s.edgeA.lookup k <;> rfl
  · rw [lookup_aupdate _ _ _ _ hk]

/-- ... and therefore `dest`. -/
theorem edgeDest_setEdgeFace (s : Mesh) (a b : Nat) :
    edgeDest (setEdgeFace s a b) = edgeDest s := by
  funext e
  unfold edgeDest
  rw [edgeOrig_setEdgeFace, edgePair_setEdgeFace, edgeNext_setEdgeFace]

/-! ### Origin-dict lemmas (C7) -/

/-- `mapM.loop` is `mapM` with the reversed accumulator prepended. -/
theorem mapMLoop_acc {α β : Type} (f : α → Except PyErr β) :
    ∀ (l : List α) (acc : List β),
      List.mapM.loop f l acc =
        match l.mapM f with
        | .error e => .error e
        | .ok ys => .ok (acc.reverse ++ ys) := by
  intro l
  induction l with
  | nil =>
    intro acc
    have h0 : (List.mapM f ([] : List α)) = .ok [] := rfl
    rw [h0]
    show Except.ok acc.reverse = Except.ok (acc.reverse ++ [])
    rw [List.append_nil]
  | cons a t ih =>
    intro acc
    have hstep : List.mapM.loop f (a :: t) acc =
        Bind.bind (f a) (fun b => List.mapM.loop f t (b :: acc)) := rfl
    have hstep2 : (a :: t).mapM f =
        Bind.bind (f a) (fun b => List.mapM.loop f t [b]) := rfl
    rw [hstep, hstep2]
    cases hf : f a with
    | error e => rfl
    | ok b =>
      have hb : ∀ {γ : Type} (x : β) (k : β → Except PyErr γ),
          Bind.bind (Except.ok x) k = k x := fun x k => rfl
      rw [hb, hb]
      rw [ih (b :: acc), ih [b]]
      cases hm : t.mapM f with
      | error e => rfl
      | ok ys => simp

/-- `mapM` unfolded one step. -/
theorem exceptMapM_cons {α β : Type} (f : α → Except PyErr β) (a : α)
    (l : List α) :
    (a :: l).mapM f = (do
      let b ← f a
      let bs ← l.mapM f
      pure (b :: bs) : Except PyErr (List β)) := by
  have hstep : (a :: l).mapM f =
      Bind.bind (f a) (fun b => List.mapM.loop f l [b]) := rfl
  rw [hstep]
  cases hf : f a with
  | error e => rfl
  | ok b =>
    have hb : ∀ {γ : Type} (x : β) (k : β → Except PyErr γ),
        Bind.bind (Except.ok x) k = k x := fun x k => rfl
    rw [hb]
    rw [mapMLoop_acc]
    cases hm : l.mapM f with
    | error e => rfl
    | ok ys =>
      rw [hb]
      simp

/-- A successful `mapM` preserves length. -/
theorem exceptMapM_ok_length {α β : Type} (f : α → Except PyErr β) :
    ∀ (l : List α) (ys : List β), l.mapM f = .ok ys → ys.length = l.length := by
  intro l
  induction l with
  | nil =>
    intro ys h
    cases h
    rfl
  | cons a t ih =>
    intro ys h
    rw [exceptMapM_cons] at h
    cases hf : f a with
    | error e => rw [hf] at h; cases h
    | ok b =>
      rw [hf] at h
      cases hm : t.mapM f with
      | error e => rw [hm] at h; cases h
      | ok bs =>
        rw [hm] at h
        cases h
        simp [ih bs hm]

/-- A list with a duplicate has a strictly shorter `dedup`. -/
theorem dedup_length_lt {α : Type} [DecidableEq α] (l : List α)
    (h : ¬ l.Nodup) : l.dedup.length < l.length := by
  have hle := List.Sublist.length_le (List.dedup_sublist l)
  rcases lt_or_eq_of_le hle with hlt | heq
  · exact hlt
  · have hdl : l.dedup = l := (List.dedup_sublist l).eq_of_length heq
    exact absurd (hdl ▸ List.nodup_dedup l) h

/-- A list whose `dedup` is as long as itself has no duplicate. -/
theorem nodup_of_dedup_length {α : Type} [DecidableEq α] (l : List α)
    (h : l.length ≤ l.dedup.length) : l.Nodup := by
  have hdl : l.dedup = l := (List.dedup_sublist l).eq_of_length
    (le_antisymm (List.Sublist.length_le (List.dedup_sublist l)) h)
  exact hdl ▸ List.nodup_dedup l

/-- Python-dict insertion either overwrites in place (key present) or
appends the new key. -/
theorem dinsert_keys {β : Type} (d : List (Nat × β)) (k : Nat) (v : β) :
    ((dinsert d k v).map Prod.fst = d.map Prod.fst ∧ k ∈ d.map Prod.fst) ∨
    ((dinsert d k v).map Prod.fst = d.map Prod.fst ++ [k] ∧
      k ∉ d.map Prod.fst) := by
  unfold dinsert
  by_cases h : d.any (fun kv => kv.1 = k)
  · rw [if_pos h]
    left
    constructor
    · rw [List.map_map]
      apply List.map_congr_left
      intro kv _
      dsimp only [Function.comp]
      by_cases hkv : kv.1 = k
      · rw [if_pos hkv]
        exact hkv.symm
      · rw [if_neg hkv]
    · rcases List.any_eq_true.mp h with ⟨kv, hm, hkv⟩
      have hk : kv.1 = k := by simpa using hkv
      exact hk ▸ List.mem_map_of_mem Prod.fst hm
  · rw [if_neg h]
    right
    refine ⟨by rw [List.map_append]; rfl, ?_⟩
    intro hmem
    rcases List.mem_map.mp hmem with ⟨kv, hm, hkv⟩
    exact h (List.any_eq_true.mpr ⟨kv, hm, by simpa using hkv⟩)

/-- The origin dict collects exactly the distinct origins as keys. -/
theorem buildOrigDict_char (s : Mesh) :
    ∀ (l : List Nat) (d : List (Nat × Nat)) (os : List Nat),
      l.mapM (edgeOrig s) = .ok os →
      (d.map Prod.fst).Nodup →
      ∃ dd, buildOrigDict s l d = .ok dd ∧ (dd.map Prod.fst).Nodup ∧
        (dd.map Prod.fst).toFinset =
          (d.map Prod.fst).toFinset ∪ os.toFinset := by
  intro l
  induction l with
  | nil =>
    intro d os h hnd
    cases h
    exact ⟨d, rfl, hnd, by simp⟩
  | cons e rest ih =>
    intro d os h hnd
    rw [exceptMapM_cons] at h
    cases ho : edgeOrig s e with
    | error er => rw [ho] at h; cases h
    | ok o =>
      rw [ho] at h
      cases hm : rest.mapM (edgeOrig s) with
      | error er => rw [hm] at h; cases h
      | ok os' =>
        rw [hm] at h
        cases h
        have hstep : buildOrigDict s (e :: rest) d =
            buildOrigDict s rest (dinsert d o e) := by
          conv_lhs => rw [buildOrigDict]
          rw [ho]
          rfl
        rcases dinsert_keys d o e with ⟨hkeq, hkmem⟩ | ⟨hkeq, hkmem⟩
        · rcases ih (dinsert d o e) os' hm (by rw [hkeq]; exact hnd) with
            ⟨dd, hbd, hnd2, hset⟩
          refine ⟨dd, by rw [hstep]; exact hbd, hnd2, ?_⟩
          rw [hset, hkeq]
          ext x
          simp only [Finset.mem_union, List.mem_toFinset, List.mem_cons]
          constructor
          · rintro (hx | hx)
            · exact Or.inl hx
            · exact Or.inr (Or.inr hx)
          · rintro (hx | hx | hx)
            · exact Or.inl hx
            · exact Or.inl (hx ▸ hkmem)
            · exact Or.inr hx
        · have hnd3 : ((dinsert d o e).map Prod.fst).Nodup := by
            rw [hkeq]
            refine List.Nodup.append hnd (List.nodup_singleton o) ?_
            intro a ha hb
            rcases List.mem_singleton.mp hb with rfl
            exact hkmem ha
          rcases ih (dinsert d o e) os' hm hnd3 with ⟨dd, hbd, hnd2, hset⟩
          refine ⟨dd, by rw [hstep]; exact hbd, hnd2, ?_⟩
          rw [hset, hkeq]
          ext x
          simp only [Finset.mem_union, List.mem_toFinset, List.mem_append,
            List.mem_singleton, List.mem_cons, List.not_mem_nil, or_false]
          tauto

/-- With pairwise distinct origins the origin dict is exactly the zip of
origins and edges. -/
theorem buildOrigDict_zip (s : Mesh) :
    ∀ (l : List Nat) (d : List (Nat × Nat)) (os : List Nat),
      l.mapM (edgeOrig s) = .ok os → os.Nodup →
      (∀ o ∈ os, o ∉ d.map Prod.fst) →
      buildOrigDict s l d = .ok (d ++ os.zip l) := by
  intro l
  induction l with
  | nil =>
    intro d os h hnd hdis
    cases h
    simp [buildOrigDict]
  | cons e rest ih =>
    intro d os h hnd hdis
    rw [exceptMapM_cons] at h
    cases ho : edgeOrig s e with
    | error er => rw [ho] at h; cases h
    | ok o =>
      rw [ho] at h
      cases hm : rest.mapM (edgeOrig s) with
      | error er => rw [hm] at h; cases h
      | ok os' =>
        rw [hm] at h
        cases h
        have ho_not : o ∉ d.map Prod.fst :=
          hdis o (List.mem_cons_self _ _)
        have hdin : dinsert d o e = d ++ [(o, e)] := by
          unfold dinsert
          rw [if_neg ?hany]
          case hany =>
            intro hany
            rcases List.any_eq_true.mp hany with ⟨kv, hmm, hkv⟩
            exact ho_not
              ((by simpa using hkv : kv.1 = o) ▸
                List.mem_map_of_mem Prod.fst hmm)
        have hstep : buildOrigDict s (e :: rest) d =
            buildOrigDict s rest (dinsert d o e) := by
          conv_lhs => rw [buildOrigDict]
          rw [ho]
          rfl
        rw [hstep, hdin, ih (d ++ [(o, e)]) os' hm (List.Nodup.of_cons hnd) ?dis]
        case dis =>
          intro o' ho'
          rw [List.map_append]
          simp only [List.mem_append]
          rintro (h1 | h2)
          · exact hdis o' (List.mem_cons_of_mem _ ho') h1
          · have ho'o : o' = o := by simpa using h2
            exact (List.nodup_cons.mp hnd).1 (ho'o ▸ ho')
        rw [List.append_assoc]
        rfl

/-- For equally long lists, every right component appears in the zip. -/
theorem zip_mem_right {α β : Type} :
    ∀ (l1 : List α) (l2 : List β), l1.length = l2.length →
      ∀ b ∈ l2, ∃ a, (a, b) ∈ l1.zip l2 := by
  intro l1
  induction l1 with
  | nil =>
    intro l2 h b hb
    cases l2 with
    | nil => cases hb
    | cons c u => cases h
  | cons a t ih =>
    intro l2 h b hb
    cases l2 with
    | nil => cases hb
    | cons c u =>
      rcases List.mem_cons.mp hb with rfl | hb2
      · exact ⟨a, List.mem_cons_self _ _⟩
      · rcases ih u (by simpa using h) b hb2 with ⟨x, hx⟩
        exact ⟨x, List.mem_cons_of_mem _ hx⟩

/-- With duplicate-free keys, membership determines the lookup. -/
theorem lookup_of_mem_nodup {β : Type} :
    ∀ (l : List (Nat × β)), (l.map Prod.fst).Nodup →
      ∀ kv ∈ l, l.lookup kv.1 = some kv.2 := by
  intro l
  induction l with
  | nil => intro _ kv h; cases h
  | cons a t ih =>
    intro hnd kv hkv
    rcases List.mem_cons.mp hkv with rfl | hmem
    · exact List.lookup_cons_self
    · have hne : kv.1 ≠ a.1 := by
        intro hEq
        have : a.1 ∈ t.map Prod.fst := hEq ▸ List.mem_map_of_mem Prod.fst hmem
        exact (List.nodup_cons.mp (by simpa using hnd)).1 this
      rw [lookup_cons_ne a.1 kv.1 a.2 t hne]
      · exact ih (List.nodup_cons.mp (by simpa using hnd)).2 kv hmem

/-! ### `_infer_holes` phase invariants (C7) -/

/-- The diverging instance: when the head entry's edge has a `dest` that
is no dict key, the outer `while orig2hole_edge:` loop re-picks the same
entry forever — for every fuel it runs out instead of returning. -/
theorem c7ChainNeverOk :
    ∀ (fuel : Nat) (s : Mesh), edgeDest s 10 = .ok 1 →
      (chainOuter fuel [(2, 10), (0, 11)] s).errOf = some .fuelOut := by
  intro fuel
  induction fuel with
  | zero => intro s h; rfl
  | succ fuel ih =>
    intro s h
    unfold chainOuter
    dsimp only
    have hA : allocFace s [] true = .ok s.nextSn { s with faceA := (s.nextSn, ⟨none, true⟩) :: s.faceA, nextSn := s.nextSn + 1 } := rfl
    rw [hA]
    dsimp only
    have hD2 : edgeDest (setEdgeFace { s with faceA := (s.nextSn, ⟨none, true⟩) :: s.faceA, nextSn := s.nextSn + 1 } 10 s.nextSn) 10 = .ok 1 := by
      rw [edgeDest_setEdgeFace]
      exact h
    have hCI : chainInner ([(2, 10), (0, 11)].length + 1) 10
        [(2, 10), (0, 11)]
        (setEdgeFace { s with faceA := (s.nextSn, ⟨none, true⟩) :: s.faceA, nextSn := s.nextSn + 1 } 10 s.nextSn) =
        .ok [(2, 10), (0, 11)]
          (setEdgeFace { s with faceA := (s.nextSn, ⟨none, true⟩) :: s.faceA, nextSn := s.nextSn + 1 } 10 s.nextSn) := by
      rw [chainInner, hD2]
      rfl
    rw [hCI]
    dsimp only
    exact ih _ hD2

/-- The inner chaining walk: it only pops dict entries, only rewires
`next`/`face` pointers, and every edge stored in a popped entry has its
`face` set. -/
theorem chainInner_faces :
    ∀ (fuel cur : Nat) (dict : List (Nat × Nat)) (s : Mesh)
      (dict' : List (Nat × Nat)) (s' : Mesh),
      chainInner fuel cur dict s = .ok dict' s' →
      (dict.map Prod.fst).Nodup →
      (∀ kv ∈ dict, recSome s kv.2 = true) →
      List.Sublist dict' dict ∧
      s'.edges = s.edges ∧
      EdgeMono s s' ∧
      (∀ d, (∃ kv ∈ dict, kv.2 = d) →
        (∃ kv ∈ dict', kv.2 = d) ∨ faceSome s' d = true) := by
  intro fuel
  induction fuel with
  | zero => intro cur dict s dict' s' h _ _; cases h
  | succ fuel ih =>
    intro cur dict s dict' s' h hnd hrec
    rw [chainInner] at h
    cases hd : edgeDest s cur with
    | error er => rw [hd] at h; cases h
    | ok dst =>
      rw [hd] at h
      dsimp only at h
      cases hl : dict.lookup dst with
      | none =>
        rw [hl] at h
        dsimp only at h
        cases h
        exact ⟨List.Sublist.refl _, rfl, edgeMono_refl s,
          fun d hd2 => Or.inl hd2⟩
      | some nxt =>
        rw [hl] at h
        dsimp only at h
        cases hf : edgeFace (setEdgeNext s cur nxt) cur with
        | error er => rw [hf] at h; cases h
        | ok f =>
          rw [hf] at h
          dsimp only at h
          have hm1 : EdgeMono s (setEdgeNext s cur nxt) :=
            edgeMono_setEdgeNext s cur nxt
          have hm2 : EdgeMono (setEdgeNext s cur nxt)
              (setEdgeFace (setEdgeNext s cur nxt) nxt f) :=
            edgeMono_setEdgeFace _ nxt f
          have hm12 := edgeMono_trans hm1 hm2
          have hsubf : List.Sublist (dict.filter (fun kv => kv.1 ≠ dst)) dict :=
            List.filter_sublist dict
          rcases ih nxt (dict.filter (fun kv => kv.1 ≠ dst))
              (setEdgeFace (setEdgeNext s cur nxt) nxt f) dict' s' h
              (List.Nodup.sublist (List.Sublist.map Prod.fst hsubf) hnd)
              (fun kv hkv =>
                recSome_mono hm12 kv.2 (hrec kv (hsubf.subset hkv))) with
            ⟨hsub, hedges, hmono, hdict⟩
          refine ⟨hsub.trans hsubf, ?_, edgeMono_trans hm12 hmono, ?_⟩
          · rw [hedges]
            rfl
          · intro d hd2
            rcases hd2 with ⟨kv, hkv, hkvd⟩
            by_cases hkey : kv.1 = dst
            · have hlk : dict.lookup kv.1 = some kv.2 :=
                lookup_of_mem_nodup dict hnd kv hkv
              rw [hkey, hl] at hlk
              have hnxt : nxt = kv.2 := by injection hlk
              right
              refine faceSome_mono hmono d ?_
              rw [← hkvd, ← hnxt]
              refine faceSome_setEdgeFace_self _ nxt f ?_
              nth_rewrite 2 [hnxt]
              exact recSome_mono hm1 kv.2 (hrec kv hkv)
            · have hkvf : kv ∈ dict.filter (fun kv => kv.1 ≠ dst) :=
                List.mem_filter.mpr ⟨hkv, by simpa using hkey⟩
              exact hdict d ⟨kv, hkvf, hkvd⟩

/-- The outer hole loop: it returns only with the dict emptied, so every
edge stored in the dict ends up with a `face`. -/
theorem chainOuter_faces :
    ∀ (fuel : Nat) (dict : List (Nat × Nat)) (s : Mesh) (s' : Mesh),
      chainOuter fuel dict s = .ok () s' →
      (dict.map Prod.fst).Nodup →
      (∀ kv ∈ dict, recSome s kv.2 = true) →
      s'.edges = s.edges ∧ EdgeMono s s' ∧
      (∀ d, (∃ kv ∈ dict, kv.2 = d) → faceSome s' d = true) := by
  intro fuel
  induction fuel with
  | zero => intro dict s s' h _ _; cases h
  | succ fuel ih =>
    intro dict s s' h hnd hrec
    cases dict with
    | nil =>
      rw [chainOuter] at h
      cases h
      exact ⟨rfl, edgeMono_refl s,
        fun d hd => by rcases hd with ⟨kv, hkv, _⟩; cases hkv⟩
    | cons kv0 rest =>
      obtain ⟨k0, d0⟩ := kv0
      rw [chainOuter] at h
      cases hAF : allocFace s [] true with
      | err er s1 => rw [hAF] at h; cases h
      | ok hface sA =>
        rw [hAF] at h
        dsimp only at h
        have hmA : EdgeMono s sA := by
          have h2 := edgeMono_allocFaceState s [] true
          rw [hAF] at h2
          exact h2
        have hedA : sA.edges = s.edges := by
          have h2 := allocFaceState s [] true
          rw [hAF] at h2
          exact h2
        have hmB : EdgeMono sA (setEdgeFace sA d0 hface) :=
          edgeMono_setEdgeFace sA d0 hface
        have hmAB := edgeMono_trans hmA hmB
        cases hCI : chainInner (((k0, d0) :: rest).length + 1) d0
            ((k0, d0) :: rest) (setEdgeFace sA d0 hface) with
        | err er s1 => rw [hCI] at h; cases h
        | ok dict1 s1 =>
          rw [hCI] at h
          dsimp only at h
          rcases chainInner_faces (((k0, d0) :: rest).length + 1) d0
              ((k0, d0) :: rest) (setEdgeFace sA d0 hface) dict1 s1 hCI hnd
              (fun kv hkv => recSome_mono hmAB kv.2 (hrec kv hkv)) with
            ⟨hsub, hed1, hmono1, hdict1⟩
          rcases ih dict1 s1 s' h
              (List.Nodup.sublist (List.Sublist.map Prod.fst hsub) hnd)
              (fun kv hkv =>
                recSome_mono hmono1 kv.2
                  (recSome_mono hmAB kv.2 (hrec kv (hsub.subset hkv)))) with
            ⟨hed2, hmono2, hfaces2⟩
          refine ⟨?_, edgeMono_trans hmAB (edgeMono_trans hmono1 hmono2), ?_⟩
          · rw [hed2, hed1]
            show sA.edges = s.edges
            exact hedA
          · intro d hd2
            rcases hdict1 d hd2 with hin | hfs
            · exact hfaces2 d hin
            · exact faceSome_mono hmono2 d hfs

/-- `buildOrigDict` succeeds only when every origin read succeeds. -/
theorem buildOrigDict_ok_mapM (s : Mesh) :
    ∀ (l : List Nat) (d dd : List (Nat × Nat)),
      buildOrigDict s l d = .ok dd →
      ∃ os, l.mapM (edgeOrig s) = .ok os := by
  intro l
  induction l with
  | nil => intro d dd h; exact ⟨[], rfl⟩
  | cons e rest ih =>
    intro d dd h
    rw [buildOrigDict] at h
    cases ho : edgeOrig s e with
    | error er => rw [ho] at h; cases h
    | ok o =>
      rw [ho] at h
      rcases ih (dinsert d o e) dd h with ⟨os, hos⟩
      refine ⟨o :: os, ?_⟩
      rw [exceptMapM_cons, ho, hos]
      rfl

/-- The synthesis phase of `_infer_holes`: the edge set is untouched,
existing records only gain fields, every processed edge ends up with a
`pair`, and every synthesized reverse edge exists with its `pair` set. -/
theorem synth_char :
    ∀ (l acc : List Nat) (s : Mesh) (res : List Nat) (s' : Mesh),
      synthHoleEdges l acc s = .ok res s' →
      (∀ e ∈ l, e < s.nextSn) →
      s'.edges = s.edges ∧ s.nextSn ≤ s'.nextSn ∧
      (∀ e, e < s.nextSn → recSome s e = true → recSome s' e = true) ∧
      (∀ e, e < s.nextSn → pairSome s e = true → pairSome s' e = true) ∧
      (∀ e, e < s.nextSn → faceSome s e = true → faceSome s' e = true) ∧
      (∀ e ∈ l, pairSome s' e = true) ∧
      (∃ fresh, res = acc ++ fresh ∧
        ∀ d ∈ fresh, d < s'.nextSn ∧ recSome s' d = true ∧
          pairSome s' d = true) := by
  intro l
  induction l with
  | nil =>
    intro acc s res s' h hb
    cases h
    exact ⟨rfl, le_refl _, fun e _ he => he, fun e _ he => he,
      fun e _ he => he, fun e he => absurd he (List.not_mem_nil e),
      ⟨[], by simp, fun d hd => absurd hd (List.not_mem_nil d)⟩⟩
  | cons x rest ih =>
    intro acc s res s' h hb
    rw [synthHoleEdges] at h
    cases hhp : edgeHasPair s x with
    | error er => rw [hhp] at h; cases h
    | ok b =>
      rw [hhp] at h
      dsimp only at h
      cases b with
      | true =>
        rcases ih acc s res s' h
            (fun e he => hb e (List.mem_cons_of_mem x he)) with
          ⟨hed, hsn, hrecm, hpm, hfm, hl, hfresh⟩
        refine ⟨hed, hsn, hrecm, hpm, hfm, ?_, hfresh⟩
        intro e he
        rcases List.mem_cons.mp he with rfl | he2
        · refine hpm e (hb e (List.mem_cons_self _ _)) ?_
          unfold edgeHasPair at hhp
          unfold pairSome
          cases hl2 : s.edge? e with
          | none => rw [hl2] at hhp; cases hhp
          | some r =>
            rw [hl2] at hhp
            dsimp only at hhp
            have h3 : r.pair.isSome = true := by injection hhp
            exact h3
        · exact hl e he2
      | false =>
        cases hdst : edgeDest s x with
        | error er => rw [hdst] at h; cases h
        | ok dst =>
          rw [hdst] at h
          dsimp only at h
          -- the three-step state: allocate, mirror orig, mirror pair
          have hxlt : x < s.nextSn := hb x (List.mem_cons_self _ _)
          have hbrest : ∀ e ∈ rest,
              e < (setEdgePair (setEdgeOrig
                { s with edgeA := (s.nextSn, ⟨none, none, none, none⟩) :: s.edgeA, nextSn := s.nextSn + 1 }
                s.nextSn dst) s.nextSn x).nextSn := by
            intro e he
            show e < s.nextSn + 1
            exact Nat.lt_succ_of_lt (hb e (List.mem_cons_of_mem x he))
          rcases ih (acc ++ [s.nextSn]) _ res s' h hbrest with
            ⟨hed, hsn, hrecm, hpm, hfm, hl, ⟨fresh, hfr, hfreshP⟩⟩
          have hAeq : ∀ e, e < s.nextSn →
              ({ s with edgeA := (s.nextSn, ⟨none, none, none, none⟩) :: s.edgeA, nextSn := s.nextSn + 1 } : Mesh).edge? e =
                s.edge? e := by
            intro e he
            exact lookup_cons_ne _ _ _ _ (Nat.ne_of_lt he)
          have hmBC : EdgeMono
              ({ s with edgeA := (s.nextSn, ⟨none, none, none, none⟩) :: s.edgeA, nextSn := s.nextSn + 1 } : Mesh)
              (setEdgePair (setEdgeOrig
                { s with edgeA := (s.nextSn, ⟨none, none, none, none⟩) :: s.edgeA, nextSn := s.nextSn + 1 }
                s.nextSn dst) s.nextSn x) :=
            edgeMono_trans (edgeMono_setEdgeOrig _ s.nextSn dst)
              (edgeMono_setEdgePair _ s.nextSn x)
          have hrecBC : ∀ e, e < s.nextSn → recSome s e = true →
              recSome (setEdgePair (setEdgeOrig
                { s with edgeA := (s.nextSn, ⟨none, none, none, none⟩) :: s.edgeA, nextSn := s.nextSn + 1 }
                s.nextSn dst) s.nextSn x) e = true := by
            intro e he hr
            refine recSome_mono hmBC e ?_
            unfold recSome at hr ⊢
            rw [show ({ s with edgeA := (s.nextSn, ⟨none, none, none, none⟩) :: s.edgeA, nextSn := s.nextSn + 1 } : Mesh).edge? e = s.edge? e
              from hAeq e he]
            exact hr
          have hpairBC : ∀ e, e < s.nextSn → pairSome s e = true →
              pairSome (setEdgePair (setEdgeOrig
                { s with edgeA := (s.nextSn, ⟨none, none, none, none⟩) :: s.edgeA, nextSn := s.nextSn + 1 }
                s.nextSn dst) s.nextSn x) e = true := by
            intro e he hr
            refine pairSome_mono hmBC e ?_
            unfold pairSome at hr ⊢
            rw [show ({ s with edgeA := (s.nextSn, ⟨none, none, none, none⟩) :: s.edgeA, nextSn := s.nextSn + 1 } : Mesh).edge? e = s.edge? e
              from hAeq e he]
            exact hr
          have hfaceBC : ∀ e, e < s.nextSn → faceSome s e = true →
              faceSome (setEdgePair (setEdgeOrig
                { s with edgeA := (s.nextSn, ⟨none, none, none, none⟩) :: s.edgeA, nextSn := s.nextSn + 1 }
                s.nextSn dst) s.nextSn x) e = true := by
            intro e he hr
            refine faceSome_mono hmBC e ?_
            unfold faceSome at hr ⊢
            rw [show ({ s with edgeA := (s.nextSn, ⟨none, none, none, none⟩) :: s.edgeA, nextSn := s.nextSn + 1 } : Mesh).edge? e = s.edge? e
              from hAeq e he]
            exact hr
          have hxrec : recSome s x = true := by
            unfold edgeHasPair at hhp
            unfold recSome
            cases hl2 : s.edge? x with
            | none => rw [hl2] at hhp; cases hhp
            | some r => rfl
          have hxpairC : pairSome (setEdgePair (setEdgeOrig
              { s with edgeA := (s.nextSn, ⟨none, none, none, none⟩) :: s.edgeA, nextSn := s.nextSn + 1 }
              s.nextSn dst) s.nextSn x) x = true := by
            refine pairSome_setEdgePair_right _ s.nextSn x ?_
            have h2 : recSome (setEdgeOrig
                { s with edgeA := (s.nextSn, ⟨none, none, none, none⟩) :: s.edgeA, nextSn := s.nextSn + 1 }
                s.nextSn dst) x = true := by
              refine recSome_mono (edgeMono_setEdgeOrig _ s.nextSn dst) x ?_
              unfold recSome at hxrec ⊢
              rw [hAeq x hxlt]
              exact hxrec
            exact h2
          have hdrecC : recSome (setEdgePair (setEdgeOrig
              { s with edgeA := (s.nextSn, ⟨none, none, none, none⟩) :: s.edgeA, nextSn := s.nextSn + 1 }
              s.nextSn dst) s.nextSn x) s.nextSn = true := by
            refine recSome_mono (edgeMono_trans
              (edgeMono_setEdgeOrig _ s.nextSn dst)
              (edgeMono_setEdgePair _ s.nextSn x)) s.nextSn ?_
            unfold recSome
            rw [show ({ s with edgeA := (s.nextSn, ⟨none, none, none, none⟩) :: s.edgeA, nextSn := s.nextSn + 1 } : Mesh).edge? s.nextSn =
              some ⟨none, none, none, none⟩ from List.lookup_cons_self]
            rfl
          have hdpairC : pairSome (setEdgePair (setEdgeOrig
              { s with edgeA := (s.nextSn, ⟨none, none, none, none⟩) :: s.edgeA, nextSn := s.nextSn + 1 }
              s.nextSn dst) s.nextSn x) s.nextSn = true := by
            refine pairSome_setEdgePair_left _ s.nextSn x ?_
            refine recSome_mono (edgeMono_setEdgeOrig _ s.nextSn dst)
              s.nextSn ?_
            unfold recSome
            rw [show ({ s with edgeA := (s.nextSn, ⟨none, none, none, none⟩) :: s.edgeA, nextSn := s.nextSn + 1 } : Mesh).edge? s.nextSn =
              some ⟨none, none, none, none⟩ from List.lookup_cons_self]
            rfl
          refine ⟨hed, ?_, ?_, ?_, ?_, ?_, ?_⟩
          · exact le_trans (Nat.le_succ s.nextSn) hsn
          · intro e he hr
            exact hrecm e (Nat.lt_succ_of_lt he) (hrecBC e he hr)
          · intro e he hr
            exact hpm e (Nat.lt_succ_of_lt he) (hpairBC e he hr)
          · intro e he hr
            exact hfm e (Nat.lt_succ_of_lt he) (hfaceBC e he hr)
          · intro e he
            rcases List.mem_cons.mp he with rfl | he2
            · exact hpm e (Nat.lt_succ_of_lt hxlt) hxpairC
            · exact hl e he2
          · refine ⟨s.nextSn :: fresh, ?_, ?_⟩
            · rw [hfr, List.append_assoc]
              rfl
            · intro d hd2
              rcases List.mem_cons.mp hd2 with rfl | hd3
              · refine ⟨lt_of_lt_of_le (Nat.lt_succ_self s.nextSn) hsn, ?_, ?_⟩
                · exact hrecm s.nextSn (Nat.lt_succ_self s.nextSn) hdrecC
                · exact hpm s.nextSn (Nat.lt_succ_self s.nextSn) hdpairC
              · exact hfreshP d hd3

/-- C7 (amended): `_infer_holes` synthesizes a paired reverse edge for
every still-unpaired edge; when two synthesized edges share an origin the
`len(orig2hole_edge) < len(hole_edges)` guard raises the ambiguity
`ManifoldMeshError` before any chaining (conjunct 1); the claim's
"otherwise the synthesized edges are chained" is false — the `dest → next`
chaining loop can instead spin forever: on the concrete two-unpaired-edge
state `c7state` the outer loop re-picks the same entry for *every* fuel
bound (conjunct 2); when the loop does return, every edge of the resulting
mesh carries both a `pair` and a `face` (conjunct 3). -/
theorem C7_amended_theorem :
    (∀ (s s' : Mesh) (hE os : List Nat),
      synthHoleEdges s.edges [] s = .ok hE s' →
      hE.mapM (edgeOrig s') = .ok os →
      ¬ os.Nodup →
      inferHoles s = .err (.manifold "Ambiguous next in inferred pair edge") s') ∧
    (synthHoleEdges c7pre.edges [] c7pre = .ok [10, 11] c7state ∧
      buildOrigDict c7state [10, 11] [] = .ok [(2, 10), (0, 11)] ∧
      (∀ fuel, (chainOuter fuel [(2, 10), (0, 11)] c7state).errOf =
        some .fuelOut)) ∧
    (∀ (s s' : Mesh),
      (∀ e ∈ s.edges, e < s.nextSn) →
      (∀ e ∈ s.edges, faceSome s e = true) →
      inferHoles s = .ok () s' →
      ∀ e ∈ s'.edges, pairSome s' e = true ∧ faceSome s' e = true) := by
  refine ⟨?_, ⟨by decide, by decide,
    fun fuel => c7ChainNeverOk fuel c7state (by decide)⟩, ?_⟩
  · -- conjunct 1: duplicate synthesized origins trigger the guard
    intro s s' hE os hsynth hos hnodup
    unfold inferHoles
    rw [hsynth]
    dsimp only
    rcases buildOrigDict_char s' hE [] os hos (by simp) with
      ⟨dd, hdd, hndK, hkeys⟩
    rw [hdd]
    dsimp only
    have hlen : os.length = hE.length := exceptMapM_ok_length _ hE os hos
    have h2 : (dd.map Prod.fst).toFinset.card =
        (dd.map Prod.fst).dedup.length := List.card_toFinset _
    have h3 : (dd.map Prod.fst).dedup = dd.map Prod.fst :=
      List.dedup_eq_self.mpr hndK
    have h4 : (dd.map Prod.fst).toFinset = os.toFinset := by
      rw [hkeys]
      simp
    have h5 : os.toFinset.card = os.dedup.length := List.card_toFinset os
    have h6 : os.dedup.length < os.length := dedup_length_lt os hnodup
    have h7 : dd.length = os.dedup.length :=
      calc dd.length = (dd.map Prod.fst).length := by simp
        _ = (dd.map Prod.fst).dedup.length := by rw [h3]
        _ = (dd.map Prod.fst).toFinset.card := h2.symm
        _ = os.toFinset.card := by rw [h4]
        _ = os.dedup.length := h5
    have hddlen : dd.length < hE.length := by omega
    rw [if_pos hddlen]
  · -- conjunct 3: a returning `_infer_holes` pairs and faces every edge
    intro s s' hbound hfaces hok
    unfold inferHoles at hok
    cases hsynth : synthHoleEdges s.edges [] s with
    | err er s1 => rw [hsynth] at hok; cases hok
    | ok hE s1 =>
      rw [hsynth] at hok
      dsimp only at hok
      rcases synth_char s.edges [] s hE s1 hsynth hbound with
        ⟨hed1, hsn1, hrecm1, hpm1, hfm1, hpl1, ⟨fresh, hfr, hfreshP⟩⟩
      cases hbd : buildOrigDict s1 hE [] with
      | error er => rw [hbd] at hok; cases hok
      | ok dict =>
        rw [hbd] at hok
        dsimp only at hok
        by_cases hguard : dict.length < hE.length
        · rw [if_pos hguard] at hok
          cases hok
        · rw [if_neg hguard] at hok
          rcases buildOrigDict_ok_mapM s1 hE [] dict hbd with ⟨os, hos⟩
          rcases buildOrigDict_char s1 hE [] os hos (by simp) with
            ⟨dd, hdd2, hndK0, hkeys0⟩
          have hddeq : dd = dict := by
            rw [hbd] at hdd2
            injection hdd2 with h8
            exact h8.symm
          have hndK : (dict.map Prod.fst).Nodup := by
            rw [← hddeq]
            exact hndK0
          have hkeys : (dict.map Prod.fst).toFinset =
              (([] : List (Nat × Nat)).map Prod.fst).toFinset ∪ os.toFinset := by
            rw [← hddeq]
            exact hkeys0
          have hlen : os.length = hE.length := exceptMapM_ok_length _ hE os hos
          have hnodup : os.Nodup := by
            apply nodup_of_dedup_length
            have h2 : (dict.map Prod.fst).toFinset.card =
                (dict.map Prod.fst).dedup.length := List.card_toFinset _
            have h3 : (dict.map Prod.fst).dedup = dict.map Prod.fst :=
              List.dedup_eq_self.mpr hndK
            have h4 : (dict.map Prod.fst).toFinset = os.toFinset := by
              rw [hkeys]
              simp
            have h5 : os.toFinset.card = os.dedup.length := List.card_toFinset os
            have h7 : dict.length = os.dedup.length :=
              calc dict.length = (dict.map Prod.fst).length := by simp
                _ = (dict.map Prod.fst).dedup.length := by rw [h3]
                _ = (dict.map Prod.fst).toFinset.card := h2.symm
                _ = os.toFinset.card := by rw [h4]
                _ = os.dedup.length := h5
            omega
          have hzip : buildOrigDict s1 hE [] = .ok ([] ++ os.zip hE) :=
            buildOrigDict_zip s1 hE [] os hos hnodup (by simp)
          have hdzip : dict = os.zip hE := by
            rw [hbd] at hzip
            exact Except.ok.inj hzip
          cases hco : chainOuter (hE.length + 1) dict s1 with
          | err er s2 => rw [hco] at hok; cases hok
          | ok u s2 =>
            rw [hco] at hok
            dsimp only at hok
            cases hok
            rcases chainOuter_faces (hE.length + 1) dict s1 s2 hco hndK
                (by
                  intro kv hkv
                  rw [hdzip] at hkv
                  obtain ⟨a, b⟩ := kv
                  have hkv2 : b ∈ hE := (List.of_mem_zip hkv).2
                  rw [hfr] at hkv2
                  exact (hfreshP b (by simpa using hkv2)).2.1) with
              ⟨hed2, hmono2, hfc2⟩
            intro e he
            have he2 : e ∈ s2.edges ++ hE := he
            show pairSome s2 e = true ∧ faceSome s2 e = true
            rcases List.mem_append.mp he2 with he1 | heH
            · have heS : e ∈ s.edges := by
                rw [hed2, hed1] at he1
                exact he1
              refine ⟨pairSome_mono hmono2 e (hpl1 e heS), ?_⟩
              exact faceSome_mono hmono2 e
                (hfm1 e (hbound e heS) (hfaces e heS))
            · have hefr : e ∈ fresh := by
                rw [hfr] at heH
                simpa using heH
              refine ⟨pairSome_mono hmono2 e (hfreshP e hefr).2.2, ?_⟩
              rcases zip_mem_right os hE hlen e heH with ⟨a, ha⟩
              refine hfc2 e ⟨(a, e), ?_, rfl⟩
              rw [hdzip]
              exact ha

/-- C7 (witness): the amended theorem applied to concrete meshes — the
triangle's successful inference leaves synthesized edge 7 with both
`pair` and `face` set; two triangles sharing only vertex 0 trip the
ambiguity error (synthesized origins `[1, 2, 0, 3, 4, 0]` repeat 0); and
the diverging chain runs out of any given fuel. -/
theorem C7_witness :
    (pairSome c7triPost 7 = true ∧ faceSome c7triPost 7 = true) ∧
    inferHoles c7amb =
      .err (.manifold "Ambiguous next in inferred pair edge") c7ambSynth ∧
    (chainOuter 37 [(2, 10), (0, 11)] c7state).errOf = some .fuelOut :=
  ⟨C7_amended_theorem.2.2 c7tri c7triPost (by decide) (by decide) (by decide)
      7 (by decide),
    C7_amended_theorem.1 c7amb c7ambSynth [13, 14, 15, 16, 17, 18]
      [1, 2, 0, 3, 4, 0] (by decide) (by decide) (by decide),
    C7_amended_theorem.2.1.2.2 37⟩

end HalfEdgeVerif
